import Mathlib

/-!
KernelPatcher (src/Common/kern_patcher.cpp)

A shallow embedding of the kernel patcher: the flat byte memory it rewrites, the
reversible `Patch` records, the redirect emitter `routeFunction`, the trampoline
builder `createTrampoline`, the lookup patcher `applyLookupPatch`, the image
registry (`loadKinfo`), the load-event callback `onKextSummariesUpdated` and the
teardown pass of `deinit`.

Conventions.
* Addresses and `size_t` values are natural numbers; arithmetic the C code does
  on 64-bit words is written with an explicit `% W64`.
* Memory is a total map from addresses to bytes.  Every access goes through an
  address reduced modulo `W64`.
* Outcomes of external collaborators (allocation, the write-protection toggle,
  the disassembler, the image inspector) are explicit inputs of each operation.
* Handler callbacks are client code: an input that maps the handler and the state
  to the state it returns, or to `panic`.
-/

namespace KernelPatcher

/-! ## Machine words and memory -/

/-- Number of 64-bit addresses, `2 ^ 64`. -/
def W64 : Nat := 18446744073709551616

/-- Unsigned 64-bit subtraction `a - b`. -/
def sub64 (a b : Nat) : Nat := (a % W64 + W64 - b % W64) % W64

/-- Conversion `static_cast<int32_t>(x)` of an unsigned 64-bit value: keep the low
32 bits and read them as two's complement. -/
def toInt32 (x : Nat) : Int :=
  if x % 4294967296 < 2147483648 then ((x % 4294967296 : Nat) : Int)
  else ((x % 4294967296 : Nat) : Int) - 4294967296

/-- Conversion `static_cast<mach_vm_address_t>(i)` of a signed value: sign extension
to 64 bits, i.e. reduction modulo `2 ^ 64`. -/
def ofInt64 (i : Int) : Nat := (i % (W64 : Int)).toNat

/-- Reading of an unsigned 64-bit value as a signed 64-bit value. -/
def toInt64 (x : Nat) : Int :=
  if x % W64 < 9223372036854775808 then ((x % W64 : Nat) : Int)
  else ((x % W64 : Nat) : Int) - (W64 : Int)

/-- Flat byte memory: address to byte. -/
abbrev Mem := Nat → Nat

/-- Offset of address `x` from address `a`, modulo `2 ^ 64`. -/
def offs (a x : Nat) : Nat := (x + W64 - a % W64) % W64

/-- Byte at address `a`. -/
def Mem.read (m : Mem) (a : Nat) : Nat := m (a % W64)

/-- The `n` bytes starting at address `a`. -/
def Mem.readBytes (m : Mem) (a n : Nat) : List Nat :=
  (List.range n).map (fun i => m.read (a + i))

/-- Store of the bytes `bs` at addresses `a, a+1, ...` (modulo `2 ^ 64`). -/
def Mem.writeBytes (m : Mem) (a : Nat) (bs : List Nat) : Mem :=
  fun x => if x < W64 ∧ offs a x < bs.length then bs.getD (offs a x) 0 else m x

/-- Little-endian byte sequence of the `w`-byte value `v`. -/
def leBytes (w v : Nat) : List Nat := (List.range w).map (fun i => v / 256 ^ i % 256)

/-! ## Error codes and constants -/

/-- Error codes named by the source (`KernelPatcher::Error`). -/
inductive Error where
  | NoError
  | NoKinfoFound
  | NoSymbolFound
  | KernRunningInitFailure
  | KextListeningFailure
  | DisasmFailure
  | MemoryIssue
  | MemoryProtection
  deriving DecidableEq, Repr

/-- Modelled from the spec: the constant `SmallJump` is declared in kern_patcher.hpp,
which is not under src/. The spec gives the near redirect as "a 1-byte relative-jump
opcode plus a 4-byte signed displacement (total 5 bytes)". -/
def SmallJump : Nat := 5

/-- The errno value `EINVAL` of the system headers, returned as failure sentinel. -/
def EINVAL : Nat := 22

/-- Constants of kern_patcher.hpp and of the platform that the source uses but does
not define under src/; they are parameters of the model. -/
structure Consts where
  /-- Footprint reserved for a far redirect (`LongJump`). -/
  LongJump : Nat
  /-- Host page size (`PAGE_SIZE`). -/
  PAGE_SIZE : Nat
  /-- Capacity of the executable arena (`TempExecutableMemorySize`). -/
  TempExecutableMemorySize : Nat
  /-- Address of the static arena `tempExecutableMemory`. -/
  tempExecutableMemory : Nat
  /-- Index of the kernel image (`KernelID`). -/
  KernelID : Nat
  /-- Sentinel returned by a failed registration (`INVALID`). -/
  INVALID : Nat
  /-- Sentinel load index of a module that is not registered (`KextInfo::Unloaded`). -/
  Unloaded : Nat
  /-- Sentinel version bound (`KernelAny`). -/
  KernelAny : Nat
  /-- Kernel major version from which the outer update routine is hooked
  (`KernelVersion::Sierra`). -/
  Sierra : Nat

/-! ## Patches -/

/-- Width tag of a patch payload (`Patch::Variant`). -/
inductive Variant where
  | U8
  | U32
  | U64
  deriving DecidableEq, Repr

/-- Payload width in bytes. -/
def Variant.width : Variant → Nat
  | .U8 => 1
  | .U32 => 4
  | .U64 => 8

/-- Modelled from the spec: the class `Patch` (kern_patcher_private.hpp) is not under
src/. The spec describes it as "a reversible byte-level mutation. Attributes: target
address, a tagged payload (one of: 8-bit, 32-bit, or 64-bit immediate value), and the
original bytes captured at creation time for reversal". -/
structure Patch where
  variant : Variant
  ptr : Nat
  opcode : Nat
  org : List Nat
  deriving DecidableEq, Repr

/-- Modelled from the spec: `Patch::create<V>(addr, value)` captures the bytes present at
the target when the patch is created. -/
def Patch.create (m : Mem) (v : Variant) (addr value : Nat) : Patch :=
  { variant := v, ptr := addr % W64, opcode := value % 256 ^ v.width,
    org := m.readBytes addr v.width }

/-- Modelled from the spec: `Patch::patch()` stores the payload at the target,
least significant byte first (x86-64). -/
def Patch.patch (p : Patch) (m : Mem) : Mem :=
  m.writeBytes p.ptr (leBytes p.variant.width p.opcode)

/-- Modelled from the spec: `Patch::restore()` stores the captured original bytes back. -/
def Patch.restore (p : Patch) (m : Mem) : Mem :=
  m.writeBytes p.ptr p.org

/-! ## Patcher state -/

/-- Image inspector instance (`MachInfo`): an external collaborator, recorded by how it was
created (`MachInfo::create(isKernel)`) and the paths it was initialised from. Its replies
(status codes, running position, symbol addresses) are inputs of the operations. -/
structure MachInfo where
  isKernel : Bool
  paths : List (List Nat)
  deriving DecidableEq, Repr

/-- One-shot load handler (`KextHandler`). `ptr` is the address of the handler object,
`id` the NUL-terminated identifier it waits for. -/
structure KextHandler where
  ptr : Nat
  id : List Nat
  address : Nat
  size : Nat
  deriving DecidableEq, Repr

/-- State of the patcher together with the memory it patches and the two statics of the
translation unit (`that`, `updateSummariesEntryCount`). -/
structure Patcher where
  code : Error
  mem : Mem
  kinfos : List MachInfo
  kpatches : List Patch
  khandlers : List KextHandler
  tempExecutableMemoryOff : Nat
  /-- Whether the static `that` points to this patcher. -/
  that : Bool
  updateSummariesEntryCount : Int
  loadedKextSummaries : Nat
  orgUpdateLoadedKextSummaries : Nat

/-! ## routeFunction -/

/-- The value `diff = to - (from + SmallJump)` of `routeFunction`. -/
def routeDiff (src dst : Nat) : Nat := sub64 dst (src + SmallJump)

/-- The flag `absolute` of `routeFunction`: set when `diff` differs from the sign
extension of its low 32 bits. -/
def routeAbsolute (src dst : Nat) : Bool :=
  routeDiff src dst != ofInt64 (toInt32 (routeDiff src dst))

/-- Outcomes of the external steps of one `routeFunction` call. -/
structure RouteEnv where
  /-- Whether `Patch::create` for the opcode returned a patch. -/
  opcodeAlloc : Bool
  /-- Whether `Patch::create` for the argument returned a patch. -/
  argumentAlloc : Bool
  /-- Whether `setKernelWriting(true)` returned `KERN_SUCCESS`. -/
  kernelWriting : Bool
  /-- Whether `kpatches.push_back(opcode)` succeeded. -/
  pushOpcode : Bool
  /-- Whether `kpatches.push_back(argument)` succeeded. -/
  pushArgument : Bool
  deriving DecidableEq, Repr

/-- The opcode patch that `routeFunction` creates (lines 267-273). -/
def routeOpcode (m : Mem) (src dst : Nat) : Patch :=
  if routeAbsolute src dst then Patch.create m .U64 src 0x0225FF
  else Patch.create m .U8 src 0xE9

/-- The argument patch that `routeFunction` creates (lines 267-273). -/
def routeArgument (m : Mem) (src dst : Nat) : Patch :=
  if routeAbsolute src dst then Patch.create m .U64 (src + 8) dst
  else Patch.create m .U32 (src + 1) (ofInt64 (toInt32 (routeDiff src dst)))

/-- Modelled from the spec: the container call `evector::erase(index)`, declared outside
src/. The entry at position `index` is taken out of the list; a position beyond the last
entry takes nothing out. -/
def evectorErase (ps : List Patch) (index : Nat) : List Patch := ps.eraseIdx index

/-- Lines 295-302 of `routeFunction` when an append failed: the ledger after the two
`push_back` calls and the two guarded `erase` calls. `push_back` yields a success flag (lines
74 and 191 test it, line 78 takes the index from `last()`), and `erase(oidx)` / `erase(aidx)`
receive that flag as the position: a stored patch is erased at position 1, not where it was
stored. -/
def ledgerAfterFailedAppend (env : RouteEnv) (ps : List Patch) (opcode argument : Patch) :
    List Patch :=
  let k1 := if env.pushOpcode then ps ++ [opcode] else ps
  let k2 := if env.pushArgument then k1 ++ [argument] else k1
  let k3 := if env.pushOpcode then evectorErase k2 1 else k2
  if env.pushArgument then evectorErase k3 1 else k3

/-- Lines 266-308 of `routeFunction`: everything after the trampoline step. -/
def routeWrite (env : RouteEnv) (s : Patcher) (src dst : Nat) (kernelRoute : Bool)
    (trampoline : Nat) : Patcher × Nat :=
  let opcode := routeOpcode s.mem src dst
  let argument := routeArgument s.mem src dst
  if !env.opcodeAlloc || !env.argumentAlloc then
    ({ s with code := .MemoryIssue }, EINVAL)
  else if kernelRoute && !env.kernelWriting then
    ({ s with code := .MemoryProtection }, EINVAL)
  else
    let m := argument.patch (opcode.patch s.mem)
    if kernelRoute then
      if env.pushOpcode && env.pushArgument then
        ({ s with mem := m, kpatches := s.kpatches ++ [opcode, argument] }, trampoline)
      else
        ({ s with mem := m,
                  kpatches := ledgerAfterFailedAppend env s.kpatches opcode argument },
          trampoline)
    else
      ({ s with mem := m }, trampoline)

/-- The call `routeFunction(from, to, false, kernelRoute)`. -/
def routeFunctionNoWrapper (env : RouteEnv) (s : Patcher) (src dst : Nat)
    (kernelRoute : Bool) : Patcher × Nat :=
  routeWrite env s src dst kernelRoute 0

/-! ## createTrampoline -/

/-- Outcomes of the external steps of one `createTrampoline` call. -/
structure TrampEnv where
  /-- Whether `disasm.init()` succeeded. -/
  disasmInit : Bool
  /-- The disassembler reply `disasm.instructionSize(func, min)`. -/
  instructionSize : Nat → Nat → Nat
  /-- Whether `setKernelWriting(true)` returned `KERN_SUCCESS`. -/
  kernelWriting : Bool
  /-- Outcomes of the inner `routeFunction` call. -/
  route : RouteEnv

/-- Source function `KernelPatcher::createTrampoline(func, min)`: returns the new state and the
returned address. The arena write offset is kept as a natural number (it grows by at most one
page per call, so 64-bit wrap-around is out of reach). -/
def createTrampoline (c : Consts) (env : TrampEnv) (s : Patcher) (func min : Nat) :
    Patcher × Nat :=
  if !env.disasmInit then
    ({ s with code := .DisasmFailure }, 0)
  else
    let off := env.instructionSize func min
    if off = 0 ∨ off > sub64 c.PAGE_SIZE c.LongJump then
      ({ s with code := .DisasmFailure }, 0)
    else
      let tempDataPtr := (c.tempExecutableMemory + s.tempExecutableMemoryOff) % W64
      let s1 := { s with tempExecutableMemoryOff := s.tempExecutableMemoryOff + (off + c.LongJump) }
      if s1.tempExecutableMemoryOff ≥ c.TempExecutableMemorySize then
        ({ s1 with code := .DisasmFailure }, 0)
      else if env.kernelWriting then
        -- memcpy(tempDataPtr, func, off)
        let s2 := { s1 with mem := s1.mem.writeBytes tempDataPtr (s1.mem.readBytes func off) }
        let r := routeFunctionNoWrapper env.route s2 (tempDataPtr + off) (func + off) false
        if r.1.code = .NoError then (r.1, tempDataPtr) else (r.1, 0)
      else
        ({ s1 with code := .MemoryProtection }, 0)

/-- Source function `KernelPatcher::routeFunction(from, to, buildWrapper, kernelRoute)`: returns the
new state and the returned value (trampoline address, `0`, or `EINVAL`). -/
def routeFunction (c : Consts) (tenv : TrampEnv) (env : RouteEnv) (s : Patcher)
    (src dst : Nat) (buildWrapper kernelRoute : Bool) : Patcher × Nat :=
  if buildWrapper then
    let r := createTrampoline c tenv s src (if routeAbsolute src dst then c.LongJump else SmallJump)
    if r.2 = 0 then (r.1, EINVAL) else routeWrite env r.1 src dst kernelRoute r.2
  else
    routeWrite env s src dst kernelRoute 0

/-! ## Error code access -/

/-- Source function `KernelPatcher::getError()`. -/
def getError (s : Patcher) : Error := s.code

/-- Source function `KernelPatcher::clearError()`. -/
def clearError (s : Patcher) : Patcher := { s with code := .NoError }

/-! ## Image registry -/

/-- Module descriptor (`KextInfo`): identifier, candidate paths, load index. -/
structure KextInfo where
  id : List Nat
  paths : List (List Nat)
  loadIndex : Nat
  deriving DecidableEq, Repr

/-- Outcomes of the external steps of one `loadKinfo` call. -/
structure LoadEnv where
  /-- Whether `MachInfo::create` returned an instance. -/
  create : Bool
  /-- Whether `info->init(paths, num)` returned `KERN_SUCCESS`. -/
  init : Bool
  /-- Whether `kinfos.push_back(info)` succeeded. -/
  push : Bool
  deriving DecidableEq, Repr

/-- Source function `KernelPatcher::loadKinfo(id, paths, num, isKernel)`. Modelled from the spec:
the vector type of `kinfos` is not under src/; `push_back` appends and `last()` is the index of
the last entry ("returns a newly assigned stable id"). -/
def loadKinfo (c : Consts) (env : LoadEnv) (s : Patcher) (paths : List (List Nat))
    (isKernel : Bool) : Patcher × Nat :=
  if !env.create then
    ({ s with code := .MemoryIssue }, c.INVALID)
  else if !env.init then
    ({ s with code := .NoKinfoFound }, c.INVALID)
  else if !env.push then
    ({ s with code := .MemoryIssue }, c.INVALID)
  else
    let info : MachInfo := { isKernel := isKernel, paths := paths }
    ({ s with kinfos := s.kinfos ++ [info] }, (s.kinfos ++ [info]).length - 1)

/-- Source function `KernelPatcher::loadKinfo(KextInfo *info)`: returns the new state, the
descriptor as the call leaves it, and the returned index. `none` is the null pointer. -/
def loadKinfoKext (c : Consts) (env : LoadEnv) (s : Patcher) (info : Option KextInfo) :
    Patcher × Option KextInfo × Nat :=
  match info with
  | none => ({ s with code := .MemoryIssue }, none, c.INVALID)
  | some k =>
    if k.loadIndex ≠ c.Unloaded then
      (s, some k, k.loadIndex)
    else
      let r := loadKinfo c env s k.paths false
      if r.1.code = .NoError then
        (r.1, some { k with loadIndex := r.2 }, r.2)
      else
        (r.1, some k, r.2)

/-- Source function `KernelPatcher::init()`. `kernelPaths` is the constant path list of the kernel
image, `running` tells whether `getRunningAddresses()` returned `KERN_SUCCESS`. -/
def init (c : Consts) (env : LoadEnv) (kernelPaths : List (List Nat)) (running : Bool)
    (s : Patcher) : Patcher :=
  let r := loadKinfo c env s kernelPaths true
  if getError r.1 ≠ .NoError ∨ r.2 ≠ c.KernelID then
    r.1
  else if !running then
    { r.1 with code := .KernRunningInitFailure }
  else
    r.1

/-- Source function `KernelPatcher::updateRunningInfo(id, slide, size)`. `running` tells whether
`getRunningAddresses(slide, size)` returned `KERN_SUCCESS`. -/
def updateRunningInfo (running : Bool) (s : Patcher) (id : Nat) : Patcher :=
  if id ≥ s.kinfos.length then
    s
  else if !running then
    { s with code := .KernRunningInitFailure }
  else
    s

/-- Source function `KernelPatcher::compatibleKernel(min, max)`; `version` is `getKernelVersion()`. -/
def compatibleKernel (c : Consts) (version min max : Nat) : Bool :=
  (min == c.KernelAny || decide (min ≤ version)) &&
    (max == c.KernelAny || decide (max ≥ version))

/-- Symbol names: the three the patcher itself looks up, and any other name. -/
inductive SymbolName where
  | gLoadedKextSummaries
  | updateLoadedKextSummaries
  | OSKextLoadedKextSummariesUpdated
  | other (name : List Nat)
  deriving DecidableEq, Repr

/-- Source function `KernelPatcher::solveSymbol(id, symbol)`. `resolve` is the reply of the
inspector of image `id` for a symbol name (`0` when it has no such symbol). Returns the state
and the returned address. -/
def solveSymbol (resolve : Nat → SymbolName → Nat) (s : Patcher) (id : Nat)
    (symbol : SymbolName) : Patcher × Nat :=
  if id < s.kinfos.length then
    let addr := resolve id symbol
    if addr ≠ 0 then
      (s, addr)
    else
      ({ s with code := .NoSymbolFound }, 0)
  else
    ({ s with code := .NoSymbolFound }, 0)

/-! ## applyLookupPatch -/

/-- Caller-supplied lookup patch (`LookupPatch`). `find` and `replace` are the buffers the
two pointers refer to; a byte past the end of a buffer reads as `0`. -/
structure LookupPatch where
  kext : Option KextInfo
  find : List Nat
  replace : List Nat
  size : Nat
  count : Nat
  deriving DecidableEq, Repr

/-- Outcomes of the external steps of one `applyLookupPatch` call. -/
structure LookupEnv where
  /-- The reply of `getRunningPosition`: start of the running code region. -/
  start : Nat
  /-- The reply of `getRunningPosition`: size of the running code region. -/
  size : Nat
  /-- Whether `setKernelWriting(true)` returned `KERN_SUCCESS`. -/
  writingOn : Bool
  /-- Whether `setKernelWriting(false)` returned `KERN_SUCCESS`. -/
  writingOff : Bool
  deriving DecidableEq, Repr

/-- Test `memcmp(curr, find, size) == 0`. -/
def memcmpEq (m : Mem) (curr : Nat) (find : List Nat) (size : Nat) : Bool :=
  (List.range size).all (fun j => m.read (curr + j) == find.getD j 0)

/-- The inner loop `while (curr < off && memcmp(curr, find, size)) curr++`, run with
`gap = off - curr`; returns the final `curr`. -/
def scanWhile (m : Mem) (find : List Nat) (size : Nat) : Nat → Nat → Nat
  | 0, curr => curr
  | gap + 1, curr =>
    if memcmpEq m curr find size then curr else scanWhile m find size gap (curr + 1)

/-- The bytes `replace[0 .. size)` the patch writes over a match. -/
def replaceBytes (p : LookupPatch) : List Nat :=
  (List.range p.size).map (fun j => p.replace.getD j 0)

/-- The outer `for` loop of `applyLookupPatch` (lines 218-228), with loop variables `i`,
`curr`, `changes` and the memory; `none` when `fuel` iterations did not reach the exit. -/
def lookupLoop (p : LookupPatch) (off : Nat) : Nat → Nat → Nat → Nat → Mem → Option (Mem × Nat)
  | 0, _, _, _, _ => none
  | fuel + 1, i, curr, changes, m =>
    if curr < off ∧ (i < p.count ∨ p.count = 0) then
      let curr1 := scanWhile m p.find p.size (off - curr) curr
      if curr1 ≠ off then
        lookupLoop p off fuel (i + 1) curr1 (changes + 1) (m.writeBytes curr1 (replaceBytes p))
      else
        lookupLoop p off fuel (i + 1) curr1 changes m
    else
      some (m, changes)

/-- The bound `off` after `off += size - patch->size`. -/
def lookupOff (start size psize : Nat) : Nat := (start + sub64 size psize) % W64

/-- Source function `KernelPatcher::applyLookupPatch(patch)`; `none` is the null pointer. The result
is `none` when the scan loop does not finish within `fuel` iterations. -/
def applyLookupPatch (c : Consts) (env : LookupEnv) (fuel : Nat) (s : Patcher)
    (patch : Option LookupPatch) : Option Patcher :=
  match patch with
  | none => some { s with code := .MemoryIssue }
  | some p =>
    match p.kext with
    | none => some { s with code := .MemoryIssue }
    | some k =>
      if k.loadIndex = c.Unloaded then
        some { s with code := .MemoryIssue }
      else if !env.writingOn then
        some { s with code := .MemoryProtection }
      else
        match lookupLoop p (lookupOff env.start env.size p.size) fuel 0 (env.start % W64) 0 s.mem with
        | none => none
        | some (m, changes) =>
          if !env.writingOff then
            some { s with mem := m, code := .MemoryProtection }
          else if changes ≠ p.count then
            some { s with mem := m, code := .MemoryIssue }
          else
            some { s with mem := m }

/-! ## deinit -/

/-- The revert loop of `deinit`: `kpatches[i]->restore()` for `i = 0 .. n-1`. -/
def restoreAll (ps : List Patch) (m : Mem) : Mem :=
  ps.foldl (fun acc p => p.restore acc) m

/-- Source function `KernelPatcher::deinit()`; `writingOn` tells whether `setKernelWriting(true)`
returned `KERN_SUCCESS`. The ledger and the registry are emptied afterwards. -/
def deinit (writingOn : Bool) (s : Patcher) : Patcher :=
  let m := if s.kinfos.length > 0 then (if writingOn then restoreAll s.kpatches s.mem else s.mem)
    else s.mem
  { s with mem := m, kpatches := [], kinfos := [] }

/-! ## Load-event monitor -/

/-- Width of a module name in a load summary (`KMOD_MAX_NAME` of the kernel headers). -/
def KMOD_MAX_NAME : Nat := 64

/-- Entry of the kernel's load-summary list (`OSKextLoadedKextSummary`). -/
structure OSKextLoadedKextSummary where
  name : List Nat
  address : Nat
  size : Nat
  deriving DecidableEq, Repr

/-- Test `strncmp(a, b, n) == 0` on the characters from index `i`: equal up to the first
NUL or for `n` characters. A string reads as `0` past its end. -/
def strncmpEq (a b : List Nat) : Nat → Nat → Bool
  | 0, _ => true
  | n + 1, i =>
    if a.getD i 0 ≠ b.getD i 0 then false
    else if a.getD i 0 = 0 then true
    else strncmpEq a b n (i + 1)

/-- Source function `KernelPatcher::waitOnKext(handler)`; `push` tells whether `khandlers.push_back`
succeeded. -/
def waitOnKext (push : Bool) (s : Patcher) (handler : KextHandler) : Patcher :=
  if !s.that then
    { s with code := .KextListeningFailure }
  else if !push then
    { s with code := .MemoryIssue }
  else
    { s with khandlers := s.khandlers ++ [handler] }

/-- Result of the callback: it either returns or ends in `panic`. -/
inductive Outcome (α : Type) where
  | returned (a : α)
  | panicked
  deriving Repr

/-- Lines 170-176 of `setupKextListening`: the hook on the update routine at `addr`. From
`Sierra` on the outer routine is routed with a wrapper and the returned trampoline is kept in
`orgUpdateLoadedKextSummaries`; before, the two-argument call `routeFunction(s, hook)` uses the
default arguments of the declaration, which is not under src/: they are the parameters
`defaultWrapper` and `defaultKernelRoute`. -/
def setupKextHook (c : Consts) (version : Nat) (tenv : TrampEnv) (env : RouteEnv) (hook : Nat)
    (defaultWrapper defaultKernelRoute : Bool) (s : Patcher) (addr : Nat) : Patcher :=
  if version ≥ c.Sierra then
    let r := routeFunction c tenv env s addr hook true true
    { r.1 with orgUpdateLoadedKextSummaries := r.2 }
  else
    (routeFunction c tenv env s addr hook defaultWrapper defaultKernelRoute).1

/-- Source function `KernelPatcher::setupKextListening()`. `version` is `getKernelVersion()`,
`resolve` the symbol replies of the inspectors, `hook` the address of the static callback
`onKextSummariesUpdated`. -/
def setupKextListening (c : Consts) (version : Nat) (resolve : Nat → SymbolName → Nat)
    (tenv : TrampEnv) (env : RouteEnv) (hook : Nat) (defaultWrapper defaultKernelRoute : Bool)
    (s : Patcher) : Patcher :=
  if s.that then
    s
  else
    let r1 := solveSymbol resolve s c.KernelID .gLoadedKextSummaries
    let s1 := { r1.1 with loadedKextSummaries := r1.2 }
    if r1.2 = 0 then
      { s1 with code := .NoSymbolFound }
    else
      let r2 := solveSymbol resolve s1 c.KernelID
        (if version ≥ c.Sierra then .updateLoadedKextSummaries
          else .OSKextLoadedKextSummariesUpdated)
      if r2.2 = 0 then
        { r2.1 with code := .NoSymbolFound }
      else
        let s3 := setupKextHook c version tenv env hook defaultWrapper defaultKernelRoute
          r2.1 r2.2
        if getError s3 = .NoError then { s3 with that := true } else s3

/-- The value a call returned, if it returned. -/
def Outcome.toOption {α : Type} : Outcome α → Option α
  | .returned a => some a
  | .panicked => none

/-- A function applied to the value a call returned. -/
def Outcome.map {α β : Type} (f : α → β) : Outcome α → Outcome β
  | .returned a => .returned (f a)
  | .panicked => .panicked

/-- Lines 391-392 of `onKextSummariesUpdated`: the handler with address and size filled in
from the last summary. -/
def fillHandler (h : KextHandler) (last : OSKextLoadedKextSummary) : KextHandler :=
  { h with address := last.address, size := last.size }

/-- The state in which the callback of the handler at index `i` is invoked (line 393): the
pending handler at that index is the filled-in handler `h1`. -/
def beforeCallback (s : Patcher) (i : Nat) (h1 : KextHandler) : Patcher :=
  { s with khandlers := s.khandlers.set i h1 }

/-- Line 395 of `onKextSummariesUpdated`: `khandlers.erase(i)` on the state `s1` the callback
returned. -/
def afterCallback (s1 : Patcher) (i : Nat) : Patcher :=
  { s1 with khandlers := s1.khandlers.eraseIdx i }

/-- The body of the handler scan at a matching handler `h`, found at index `i` (lines
391-397): address and size are filled in, the callback `cb` runs, and when it has returned
the entry at index `i` is erased. A handler callback is client code: it returns a state or
ends in `panic` (for instance by entering `onKextSummariesUpdated` again). Returns the state
and the handlers invoked. -/
def fireHandler (cb : KextHandler → Patcher → Outcome Patcher) (last : OSKextLoadedKextSummary)
    (s : Patcher) (i : Nat) (h : KextHandler) : Outcome (Patcher × List KextHandler) :=
  match cb (fillHandler h last) (beforeCallback s i (fillHandler h last)) with
  | .returned s1 => .returned (afterCallback s1 i, [fillHandler h last])
  | .panicked => .panicked

/-- The handler scan of `onKextSummariesUpdated` (lines 389-399) over the pending handlers
from index `i` on: the first handler whose identifier matches is fired and the scan stops. -/
def dispatchFrom (cb : KextHandler → Patcher → Outcome Patcher) (last : OSKextLoadedKextSummary)
    (s : Patcher) : Nat → List KextHandler → Outcome (Patcher × List KextHandler)
  | _, [] => .returned (s, [])
  | i, h :: rest =>
    if strncmpEq h.id last.name KMOD_MAX_NAME 0 then
      fireHandler cb last s i h
    else
      dispatchFrom cb last s (i + 1) rest

/-- A handler callback that reaches the patcher only through its public operations and
returns: it may append pending handlers (`waitOnKext`), and it leaves the static `that` and
the entry counter as they are. -/
def CallbackSafe (cb : KextHandler → Patcher → Outcome Patcher) : Prop :=
  ∀ g t, ∃ r, cb g t = .returned r ∧ (∃ extra, r.khandlers = t.khandlers ++ extra) ∧
    r.updateSummariesEntryCount = t.updateSummariesEntryCount ∧ r.that = t.that

/-- Lines 383-403 of `onKextSummariesUpdated`: with pending handlers and a resolved summary
list, the handlers are scanned against the last summary; an empty list is only logged. -/
def dispatchLast (cb : KextHandler → Patcher → Outcome Patcher)
    (summaries : List OSKextLoadedKextSummary) (s : Patcher) :
    Outcome (Patcher × List KextHandler) :=
  if s.khandlers.length > 0 ∧ s.loadedKextSummaries ≠ 0 then
    match summaries.getLast? with
    | some last => dispatchFrom cb last s 0 s.khandlers
    | none => .returned (s, [])
  else
    .returned (s, [])

/-- The state after `OSIncrementAtomic(&updateSummariesEntryCount)`. -/
def enterSummaries (s : Patcher) : Patcher :=
  { s with updateSummariesEntryCount := s.updateSummariesEntryCount + 1 }

/-- The state after `OSDecrementAtomic(&updateSummariesEntryCount)`. -/
def leaveSummaries (s : Patcher) : Patcher :=
  { s with updateSummariesEntryCount := s.updateSummariesEntryCount - 1 }

/-- Lines 405-407 of `onKextSummariesUpdated`, from `Sierra` on: the entry counter must be
one before the decrement. -/
def exitSummaries (r : Patcher × List KextHandler) : Outcome (Patcher × List KextHandler) :=
  if r.1.updateSummariesEntryCount ≠ 1 then .panicked else .returned (leaveSummaries r.1, r.2)

/-- Source function `KernelPatcher::onKextSummariesUpdated()`. `version` is `getKernelVersion()`,
`summaries` the load-summary list as the callback reads it (after the chained original routine
ran), `cb` the effect of invoking a handler callback. Returns the state and the handlers
invoked, or `panicked`. From `Sierra` on the entry counter must be zero before the increment and
one before the decrement; the handlers run in between, with the counter incremented. -/
def onKextSummariesUpdated (c : Consts) (version : Nat)
    (summaries : List OSKextLoadedKextSummary) (cb : KextHandler → Patcher → Outcome Patcher)
    (s : Patcher) : Outcome (Patcher × List KextHandler) :=
  if s.that then
    if version ≥ c.Sierra then
      if s.updateSummariesEntryCount ≠ 0 then
        .panicked
      else
        match dispatchLast cb summaries (enterSummaries s) with
        | .returned r => exitSummaries r
        | .panicked => .panicked
    else
      dispatchLast cb summaries s
  else
    .returned (s, [])

/-! ## Sample values used by the concrete examples -/

/-- A sample choice of the constants: 16-byte far footprint, 4096-byte page, 4096-byte
arena placed at address `0x100000`. -/
def sampleConsts : Consts :=
  { LongJump := 16, PAGE_SIZE := 4096, TempExecutableMemorySize := 4096,
    tempExecutableMemory := 1048576, KernelID := 0, INVALID := 0, Unloaded := 0,
    KernelAny := 0, Sierra := 16 }

/-- Memory that is zero everywhere except for the bytes `bs` stored at `a`. -/
def memOf (a : Nat) (bs : List Nat) : Mem := Mem.writeBytes (fun _ => 0) a bs

/-- A patcher with one registered image, no error, empty ledger, and memory `m`. -/
def sampleState (m : Mem) : Patcher :=
  { code := .NoError, mem := m, kinfos := [{ isKernel := true, paths := [] }], kpatches := [],
    khandlers := [], tempExecutableMemoryOff := 0, that := false,
    updateSummariesEntryCount := 0, loadedKextSummaries := 0,
    orgUpdateLoadedKextSummaries := 0 }

/-- A patcher whose load-event monitoring has been started. -/
def monitoringState : Patcher :=
  { sampleState (fun _ => 0) with that := true, loadedKextSummaries := 8192 }

/-- A handler callback that leaves the patcher untouched. -/
def idleCallback : KextHandler → Patcher → Outcome Patcher := fun _ s => .returned s

/-- A handler callback with a visible effect: it stores the number of its handler object in
the byte at the load address the handler was given. -/
def stampCallback : KextHandler → Patcher → Outcome Patcher :=
  fun h s => .returned { s with mem := s.mem.writeBytes h.address [h.ptr] }

/-- A handler callback that enters `onKextSummariesUpdated` again from within the running
invocation, after `work`, and returns what the nested invocation returns. -/
def nestedCallback (c : Consts) (version : Nat) (summaries : List OSKextLoadedKextSummary)
    (cb : KextHandler → Patcher → Outcome Patcher) (work : KextHandler → Patcher → Patcher) :
    KextHandler → Patcher → Outcome Patcher :=
  fun h s => (onKextSummariesUpdated c version summaries cb (work h s)).map (fun r => r.1)

/-- Every external step of `loadKinfo` succeeds. -/
def loadOk : LoadEnv := { create := true, init := true, push := true }

/-- Two calls `loadKinfo(info)` in a row on the same descriptor: the state, the descriptor
and the index returned by each call. -/
def loadKinfoTwice (c : Consts) (env1 env2 : LoadEnv) (s : Patcher) (info : Option KextInfo) :
    (Patcher × Option KextInfo × Nat) × (Patcher × Option KextInfo × Nat) :=
  (loadKinfoKext c env1 s info,
    loadKinfoKext c env2 (loadKinfoKext c env1 s info).1 (loadKinfoKext c env1 s info).2.1)

/-- Every external step of `routeFunction` succeeds. -/
def routeOk : RouteEnv :=
  { opcodeAlloc := true, argumentAlloc := true, kernelWriting := true, pushOpcode := true,
    pushArgument := true }

/-- A registered module (load index 1) at which the lookup examples aim. -/
def sampleKext : KextInfo := { id := [107], paths := [], loadIndex := 1 }

/-- The running region `[4096, 4096 + size)` with both protection toggles succeeding. -/
def lookupOk (size : Nat) : LookupEnv :=
  { start := 4096, size := size, writingOn := true, writingOff := true }

/-- Every external step of `createTrampoline` succeeds and the disassembler cuts after
`len` bytes. -/
def trampOk (len : Nat) : TrampEnv :=
  { disasmInit := true, instructionSize := fun _ _ => len, kernelWriting := true,
    route := routeOk }

/-! ## Call sequences -/

/-- One patching call of a sequence: a `routeFunction` call or an `applyLookupPatch` call,
each with the outcomes of its external steps. -/
inductive Call where
  | route (tenv : TrampEnv) (env : RouteEnv) (src dst : Nat) (buildWrapper kernelRoute : Bool)
  | lookup (env : LookupEnv) (fuel : Nat) (patch : LookupPatch)

/-- State after one call (`none` when a lookup scan does not finish within its fuel). -/
def Call.run (c : Consts) (s : Patcher) : Call → Option Patcher
  | .route tenv env src dst bw kr => some (routeFunction c tenv env s src dst bw kr).1
  | .lookup env fuel patch => applyLookupPatch c env fuel s (some patch)

/-- State after a sequence of calls, run in order. -/
def runCalls (c : Consts) : Patcher → List Call → Option Patcher
  | s, [] => some s
  | s, call :: rest =>
    match call.run c s with
    | none => none
    | some s1 => runCalls c s1 rest

/-- Number of bytes a redirect from `src` to `dst` occupies: 5 in the near form, 16 in the
absolute form. -/
def routeFootprint (src dst : Nat) : Nat := if routeAbsolute src dst then 16 else 5

/-- Address `x` lies in the `n` bytes starting at `a` (modulo `2 ^ 64`). -/
def inRange (a n x : Nat) : Prop := x < W64 ∧ offs a x < n

instance (a n x : Nat) : Decidable (inRange a n x) := by
  unfold inRange
  exact inferInstance

/-- The privileged call `routeFunction(src, dst, false, true)` in which every external step
succeeds. -/
def privilegedRoute (tenv : TrampEnv) (p : Nat × Nat) : Call :=
  .route tenv routeOk p.1 p.2 false true

/-! ## Operations as a state machine -/

/-- The operations of the patcher, each with the outcomes of its external steps. -/
inductive Op where
  | init (env : LoadEnv) (kernelPaths : List (List Nat)) (running : Bool)
  | loadKinfo (env : LoadEnv) (paths : List (List Nat)) (isKernel : Bool)
  | loadKinfoKext (env : LoadEnv) (info : Option KextInfo)
  | updateRunningInfo (running : Bool) (id : Nat)
  | solveSymbol (resolve : Nat → SymbolName → Nat) (id : Nat) (symbol : SymbolName)
  | setupKextListening (version : Nat) (resolve : Nat → SymbolName → Nat) (tenv : TrampEnv)
      (env : RouteEnv) (hook : Nat) (defaultWrapper defaultKernelRoute : Bool)
  | waitOnKext (push : Bool) (handler : KextHandler)
  | applyLookupPatch (env : LookupEnv) (fuel : Nat) (patch : Option LookupPatch)
  | routeFunction (tenv : TrampEnv) (env : RouteEnv) (src dst : Nat)
      (buildWrapper kernelRoute : Bool)
  | createTrampoline (tenv : TrampEnv) (func min : Nat)
  | onKextSummariesUpdated (version : Nat) (summaries : List OSKextLoadedKextSummary)
      (cb : KextHandler → Patcher → Outcome Patcher)
  | getError
  | clearError
  | deinit (writingOn : Bool)

/-- State after one operation; `none` when the operation has no state to return to (a lookup
scan that does not finish within its fuel, a callback that ends in `panic`). -/
def Op.run (c : Consts) (s : Patcher) : Op → Option Patcher
  | .init env kernelPaths running => some (KernelPatcher.init c env kernelPaths running s)
  | .loadKinfo env paths isKernel => some (KernelPatcher.loadKinfo c env s paths isKernel).1
  | .loadKinfoKext env info => some (KernelPatcher.loadKinfoKext c env s info).1
  | .updateRunningInfo running id => some (KernelPatcher.updateRunningInfo running s id)
  | .solveSymbol resolve id symbol => some (KernelPatcher.solveSymbol resolve s id symbol).1
  | .setupKextListening version resolve tenv env hook dw dk =>
    some (KernelPatcher.setupKextListening c version resolve tenv env hook dw dk s)
  | .waitOnKext push handler => some (KernelPatcher.waitOnKext push s handler)
  | .applyLookupPatch env fuel patch => KernelPatcher.applyLookupPatch c env fuel s patch
  | .routeFunction tenv env src dst bw kr =>
    some (KernelPatcher.routeFunction c tenv env s src dst bw kr).1
  | .createTrampoline tenv func min => some (KernelPatcher.createTrampoline c tenv s func min).1
  | .onKextSummariesUpdated version summaries cb =>
    (KernelPatcher.onKextSummariesUpdated c version summaries cb s).toOption.map (fun r => r.1)
  | .getError => some s
  | .clearError => some (KernelPatcher.clearError s)
  | .deinit writingOn => some (KernelPatcher.deinit writingOn s)

/-- State after a sequence of operations, run in order. -/
def runOps (c : Consts) : Patcher → List Op → Option Patcher
  | s, [] => some s
  | s, op :: rest =>
    match op.run c s with
    | none => none
    | some s1 => runOps c s1 rest

/-- Handler callbacks of an operation never call `clearError`: when they return, a set error
code is still set. Every operation other than the load-event callback has no handler
callback. -/
def Op.keepsError : Op → Prop
  | .onKextSummariesUpdated _ _ cb =>
    ∀ g t r, cb g t = .returned r → t.code ≠ .NoError → r.code ≠ .NoError
  | _ => True

/-- Handler callbacks of an operation reach the arena write offset only through patcher
operations: when they return, they have not lowered it. -/
def Op.keepsOffset : Op → Prop
  | .onKextSummariesUpdated _ _ cb =>
    ∀ g t r, cb g t = .returned r → t.tempExecutableMemoryOff ≤ r.tempExecutableMemoryOff
  | _ => True

/-! # Theorems -/

theorem W64_pos : 0 < W64 := by unfold W64; decide

theorem routeDiff_lt (src dst : Nat) : routeDiff src dst < W64 := by
  unfold routeDiff sub64
  exact Nat.mod_lt _ W64_pos

theorem ofInt64_toInt32 (D : Nat) :
    ofInt64 (toInt32 D) =
      if D % 4294967296 < 2147483648 then D % 4294967296
      else D % 4294967296 + 18446744069414584320 := by
  unfold ofInt64 toInt32 W64
  split <;> omega

theorem routeAbsolute_false_iff (src dst : Nat) :
    routeAbsolute src dst = false ↔
      (-2147483648 ≤ toInt64 (routeDiff src dst) ∧ toInt64 (routeDiff src dst) ≤ 2147483647) := by
  have h := routeDiff_lt src dst
  unfold routeAbsolute
  generalize routeDiff src dst = D at h ⊢ 
  simp only [bne_eq_false_iff_eq, beq_iff_eq, ofInt64_toInt32]
  unfold toInt64
  unfold W64 at h ⊢
  split <;> split <;> omega

/-! ### Memory lemmas -/

theorem offs_add (a i : Nat) (hi : i < W64) : offs a ((a + i) % W64) = i := by
  unfold offs W64 at *
  omega

theorem add_offs (a x : Nat) (hx : x < W64) : (a + offs a x) % W64 = x := by
  unfold offs W64 at *
  omega

theorem mod_lt_W64 (a : Nat) : a % W64 < W64 := Nat.mod_lt _ W64_pos

theorem writeBytes_read (m : Mem) (a : Nat) (bs : List Nat) (i : Nat) (hi : i < bs.length)
    (hlen : bs.length ≤ W64) : (m.writeBytes a bs).read (a + i) = bs.getD i 0 := by
  unfold Mem.writeBytes Mem.read
  have h1 : offs a ((a + i) % W64) = i := offs_add a i (by omega)
  simp [h1, hi, mod_lt_W64]

theorem writeBytes_other (m : Mem) (a : Nat) (bs : List Nat) (x : Nat)
    (h : ∀ i, i < bs.length → x ≠ (a + i) % W64) : (m.writeBytes a bs) x = m x := by
  unfold Mem.writeBytes
  split
  · rename_i hx
    exact absurd (add_offs a x hx.1).symm (h _ hx.2)
  · rfl

theorem routeWrite_mem (env : RouteEnv) (s : Patcher) (src dst : Nat) (kr : Bool) (t : Nat)
    (h1 : env.opcodeAlloc = true) (h2 : env.argumentAlloc = true)
    (h3 : kr = true → env.kernelWriting = true) :
    (routeWrite env s src dst kr t).1.mem =
      (routeArgument s.mem src dst).patch ((routeOpcode s.mem src dst).patch s.mem) := by
  unfold routeWrite
  cases kr
  · simp [h1, h2]
  · simp only [h1, h2, h3 rfl, Bool.not_true, Bool.or_self, Bool.false_eq_true, if_false,
      Bool.and_false, if_true]
    split <;> rfl

/-- The memory in which `routeFunction` creates and applies its two patches: the memory
left by the trampoline step when a wrapper is requested, the entry memory otherwise. -/
theorem routeFunction_mem (c : Consts) (tenv : TrampEnv) (env : RouteEnv) (s : Patcher)
    (src dst : Nat) (bw kr : Bool) (pre : Mem)
    (hpre : pre = if bw then
        (createTrampoline c tenv s src
          (if routeAbsolute src dst then c.LongJump else SmallJump)).1.mem else s.mem)
    (h1 : env.opcodeAlloc = true) (h2 : env.argumentAlloc = true)
    (h3 : kr = true → env.kernelWriting = true)
    (h4 : bw = true → (createTrampoline c tenv s src
          (if routeAbsolute src dst then c.LongJump else SmallJump)).2 ≠ 0) :
    (routeFunction c tenv env s src dst bw kr).1.mem =
      (routeArgument pre src dst).patch ((routeOpcode pre src dst).patch pre) := by
  unfold routeFunction
  cases bw
  · simp only [Bool.false_eq_true, if_false] at hpre ⊢
    rw [routeWrite_mem env s src dst kr 0 h1 h2 h3, hpre]
  · simp only [if_true] at hpre ⊢
    have h4 := h4 rfl
    simp only [h4, if_false]
    rw [routeWrite_mem _ _ src dst kr _ h1 h2 h3, hpre]

theorem near_patch_mem (m : Mem) (src dst : Nat) (h : routeAbsolute src dst = false) :
    (routeArgument m src dst).patch ((routeOpcode m src dst).patch m) =
      (m.writeBytes src [233]).writeBytes (src + 1) (leBytes 4 (routeDiff src dst % 4294967296)) := by
  unfold routeArgument routeOpcode
  simp only [h, Bool.false_eq_true, if_false]
  unfold Patch.patch Patch.create
  simp only [Variant.width]
  have e1 : leBytes 1 (233 % 256 ^ 1) = [233] := by decide
  have e2 : ofInt64 (toInt32 (routeDiff src dst)) % 256 ^ 4 = routeDiff src dst % 4294967296 := by
    rw [ofInt64_toInt32]; split <;> omega
  rw [e1, e2]
  funext x
  unfold Mem.writeBytes offs
  simp only [Nat.mod_mod]

theorem leBytes_length (w v : Nat) : (leBytes w v).length = w := by
  simp [leBytes]

theorem leBytes_getD (w v i : Nat) (hi : i < w) : (leBytes w v).getD i 0 = v / 256 ^ i % 256 := by
  simp [leBytes, List.getD_eq_getElem?_getD, hi]

/-- C1: the near form is chosen exactly when the displacement `to - (from + 5)`, taken
modulo 2^64 and read as a signed 64-bit value, lies in [-2^31, 2^31 - 1]; a call that
reaches its writes in the near form stores `0xE9` at `from` and the little-endian 32-bit
displacement `d` at `from + 1`, changes no other byte, and `from + 5 + signExtend d = to`
modulo 2^64. Otherwise the absolute form is chosen. -/
theorem routeFunction_near_form (c : Consts) (tenv : TrampEnv) (env : RouteEnv)
    (s : Patcher) (src dst : Nat) (bw kr : Bool)
    (hd : dst < W64)
    (h1 : env.opcodeAlloc = true) (h2 : env.argumentAlloc = true)
    (h3 : kr = true → env.kernelWriting = true)
    (h4 : bw = true → (createTrampoline c tenv s src
          (if routeAbsolute src dst then c.LongJump else SmallJump)).2 ≠ 0) :
    (routeDiff src dst + (src + 5)) % W64 = dst ∧
    (routeAbsolute src dst = false ↔
      (-2147483648 ≤ toInt64 (routeDiff src dst) ∧ toInt64 (routeDiff src dst) ≤ 2147483647)) ∧
    (routeAbsolute src dst = true ↔
      ¬ (-2147483648 ≤ toInt64 (routeDiff src dst) ∧ toInt64 (routeDiff src dst) ≤ 2147483647)) ∧
    (routeAbsolute src dst = false →
      (routeFunction c tenv env s src dst bw kr).1.mem.read src = 233 ∧
      (∀ i, i < 4 → (routeFunction c tenv env s src dst bw kr).1.mem.read (src + 1 + i) =
        routeDiff src dst % 4294967296 / 256 ^ i % 256) ∧
      (∀ x, (∀ i, i < 5 → x ≠ (src + i) % W64) →
        (routeFunction c tenv env s src dst bw kr).1.mem x =
          (if bw then (createTrampoline c tenv s src SmallJump).1.mem else s.mem) x) ∧
      (src + 5 + ofInt64 (toInt32 (routeDiff src dst % 4294967296))) % W64 = dst) := by
  refine ⟨?_, routeAbsolute_false_iff src dst, ?_, ?_⟩
  · unfold routeDiff sub64 SmallJump W64 at *
    omega
  · rw [← routeAbsolute_false_iff]
    cases routeAbsolute src dst <;> simp
  · intro hnear
    have hmem := routeFunction_mem c tenv env s src dst bw kr _ rfl h1 h2 h3 h4
    rw [near_patch_mem _ src dst hnear] at hmem
    simp only [hnear, Bool.false_eq_true, if_false] at hmem
    rw [hmem]
    refine ⟨?_, ?_, ?_, ?_⟩
    · unfold Mem.read
      rw [writeBytes_other]
      · have := writeBytes_read (if bw = true then (createTrampoline c tenv s src SmallJump).1.mem
          else s.mem) src [233] 0 (by simp) (by simp [W64])
        simpa [Mem.read] using this
      · intro i hi
        rw [leBytes_length] at hi
        unfold W64 at *
        omega
    · intro i hi
      have := writeBytes_read ((if bw = true then (createTrampoline c tenv s src SmallJump).1.mem
          else s.mem).writeBytes src [233]) (src + 1) (leBytes 4 (routeDiff src dst % 4294967296)) i
          (by rw [leBytes_length]; exact hi) (by rw [leBytes_length]; unfold W64; decide)
      rw [this, leBytes_getD _ _ _ hi]
    · intro x hx
      have e1 : ∀ m : Mem, (m.writeBytes (src + 1) (leBytes 4 (routeDiff src dst % 4294967296))) x
          = m x := by
        intro m
        apply writeBytes_other
        intro i hi
        rw [leBytes_length] at hi
        have := hx (i + 1) (by omega)
        rwa [show src + 1 + i = src + (i + 1) by omega]
      have e2 : ∀ m : Mem, (m.writeBytes src [233]) x = m x := by
        intro m
        apply writeBytes_other
        intro i hi
        simp only [List.length_singleton] at hi
        exact hx i (by omega)
      rw [e1, e2]
    · have hD := routeDiff_lt src dst
      have hn : routeDiff src dst = ofInt64 (toInt32 (routeDiff src dst)) := by
        simpa [routeAbsolute] using hnear
      have hsum : (routeDiff src dst + (src + 5)) % W64 = dst := by
        unfold routeDiff sub64 SmallJump W64 at *
        omega
      rw [ofInt64_toInt32] at hn ⊢
      generalize routeDiff src dst = D at *
      unfold W64 at *
      split at hn <;> split <;> omega

theorem routeFunction_near_form_witness :
    (8192 < W64 ∧ routeOk.opcodeAlloc = true ∧ routeOk.argumentAlloc = true) ∧
    routeAbsolute 4096 8192 = false ∧
    (routeFunction sampleConsts (trampOk 5) routeOk (sampleState (fun _ => 0))
      4096 8192 false true).1.mem.read 4096 = 233 ∧
    (routeFunction sampleConsts (trampOk 5) routeOk (sampleState (fun _ => 0))
      4096 8192 false true).1.mem.read (4096 + 1 + 0) = 4091 % 4294967296 / 256 ^ 0 % 256 ∧
    (4096 + 5 + ofInt64 (toInt32 (4091 % 4294967296))) % W64 = 8192 :=
  have h := routeFunction_near_form sampleConsts (trampOk 5) routeOk (sampleState (fun _ => 0))
    4096 8192 false true (by decide) rfl rfl (fun _ => rfl) (fun h => absurd h (by decide))
  have hn : routeAbsolute 4096 8192 = false := by decide
  ⟨⟨by decide, rfl, rfl⟩, hn, (h.2.2.2 hn).1, (h.2.2.2 hn).2.1 0 (by decide), (h.2.2.2 hn).2.2.2⟩

theorem far_patch_mem (m : Mem) (src dst : Nat) (h : routeAbsolute src dst = true) :
    (routeArgument m src dst).patch ((routeOpcode m src dst).patch m) =
      (m.writeBytes src (leBytes 8 140799)).writeBytes (src + 8) (leBytes 8 (dst % W64)) := by
  unfold routeArgument routeOpcode
  simp only [h, if_true]
  unfold Patch.patch Patch.create
  simp only [Variant.width]
  have e1 : (140799 : Nat) % 256 ^ 8 = 140799 := by decide
  have e2 : dst % 256 ^ 8 = dst % W64 := by unfold W64; norm_num
  rw [e1, e2]
  funext x
  unfold Mem.writeBytes offs
  simp only [Nat.mod_mod]

/-- C2 (as the code has it): in the absolute form a call that reaches its writes stores 16
bytes: the 8-byte little-endian word `0x0225FF` at `from` and the 8-byte absolute target
at `from + 8`; no byte outside `[from, from + 16)` is changed by the two patches. -/
theorem routeFunction_far_form (c : Consts) (tenv : TrampEnv) (env : RouteEnv)
    (s : Patcher) (src dst : Nat) (bw kr : Bool)
    (hd : dst < W64)
    (hfar : routeAbsolute src dst = true)
    (h1 : env.opcodeAlloc = true) (h2 : env.argumentAlloc = true)
    (h3 : kr = true → env.kernelWriting = true)
    (h4 : bw = true → (createTrampoline c tenv s src c.LongJump).2 ≠ 0) :
    (∀ i, i < 8 → (routeFunction c tenv env s src dst bw kr).1.mem.read (src + i) =
        140799 / 256 ^ i % 256) ∧
    (∀ i, i < 8 → (routeFunction c tenv env s src dst bw kr).1.mem.read (src + 8 + i) =
        dst / 256 ^ i % 256) ∧
    (∀ x, (∀ i, i < 16 → x ≠ (src + i) % W64) →
        (routeFunction c tenv env s src dst bw kr).1.mem x =
          (if bw then (createTrampoline c tenv s src c.LongJump).1.mem else s.mem) x) := by
  have hmem := routeFunction_mem c tenv env s src dst bw kr _ rfl h1 h2 h3
    (by simpa only [hfar, if_true] using h4)
  rw [far_patch_mem _ src dst hfar] at hmem
  simp only [hfar, if_true] at hmem
  rw [hmem, Nat.mod_eq_of_lt hd]
  refine ⟨?_, ?_, ?_⟩
  · intro i hi
    unfold Mem.read
    rw [writeBytes_other]
    · have := writeBytes_read (if bw = true then (createTrampoline c tenv s src c.LongJump).1.mem
        else s.mem) src (leBytes 8 140799) i (by rw [leBytes_length]; exact hi)
        (by rw [leBytes_length]; unfold W64; decide)
      rw [leBytes_getD _ _ _ hi] at this
      simpa [Mem.read] using this
    · intro j hj
      rw [leBytes_length] at hj
      unfold W64 at *
      omega
  · intro i hi
    have := writeBytes_read ((if bw = true then (createTrampoline c tenv s src c.LongJump).1.mem
        else s.mem).writeBytes src (leBytes 8 140799)) (src + 8) (leBytes 8 dst) i
        (by rw [leBytes_length]; exact hi) (by rw [leBytes_length]; unfold W64; decide)
    rw [this, leBytes_getD _ _ _ hi]
  · intro x hx
    have e1 : ∀ m : Mem, (m.writeBytes (src + 8) (leBytes 8 dst)) x = m x := by
      intro m
      apply writeBytes_other
      intro i hi
      rw [leBytes_length] at hi
      have := hx (i + 8) (by omega)
      rwa [show src + 8 + i = src + (i + 8) by omega]
    have e2 : ∀ m : Mem, (m.writeBytes src (leBytes 8 140799)) x = m x := by
      intro m
      apply writeBytes_other
      intro i hi
      rw [leBytes_length] at hi
      exact hx i (by omega)
    rw [e1, e2]

theorem routeFunction_far_form_witness :
    (72623859790382856 < W64 ∧ routeAbsolute 4096 72623859790382856 = true) ∧
    (routeFunction sampleConsts (trampOk 16) routeOk (sampleState (fun _ => 0))
      4096 72623859790382856 false true).1.mem.read (4096 + 1) = 140799 / 256 ^ 1 % 256 ∧
    (routeFunction sampleConsts (trampOk 16) routeOk (sampleState (fun _ => 0))
      4096 72623859790382856 false true).1.mem.read (4096 + 8 + 0) =
        72623859790382856 / 256 ^ 0 % 256 :=
  have h := routeFunction_far_form sampleConsts (trampOk 16) routeOk (sampleState (fun _ => 0))
    4096 72623859790382856 false true (by decide) (by decide) rfl rfl (fun _ => rfl)
    (fun h => absurd h (by decide))
  ⟨⟨by decide, by decide⟩, h.1 1 (by decide), h.2.1 0 (by decide)⟩

/-- C2 fails as stated: for the far pair `from = 4096`, `to = 0x0102030405060708` the byte
at `from + 3` is not the first byte of the target address (it is the zero fourth byte of
the opcode word), the target starts at `from + 8`, and the byte at `from + 15`, outside
`[from, from + 11)`, is changed from `0` to `1`. -/
theorem routeFunction_far_not_eleven_bytes :
    routeAbsolute 4096 72623859790382856 = true ∧
    (routeFunction sampleConsts (trampOk 16) routeOk (sampleState (fun _ => 0))
      4096 72623859790382856 false true).1.mem.read (4096 + 3) = 0 ∧
    72623859790382856 % 256 = 8 ∧
    (routeFunction sampleConsts (trampOk 16) routeOk (sampleState (fun _ => 0))
      4096 72623859790382856 false true).1.mem.read (4096 + 8) = 8 ∧
    (sampleState (fun _ => 0)).mem.read (4096 + 15) = 0 ∧
    (routeFunction sampleConsts (trampOk 16) routeOk (sampleState (fun _ => 0))
      4096 72623859790382856 false true).1.mem.read (4096 + 15) = 1 := by
  refine ⟨by decide, ?_, by decide, ?_, rfl, ?_⟩ <;> decide

theorem inRange_mod (a n x : Nat) : inRange (a % W64) n x ↔ inRange a n x := by
  unfold inRange offs
  rw [Nat.mod_mod]

theorem restore_apply (p : Patch) (m : Mem) (x : Nat) :
    p.restore m x = if inRange p.ptr p.org.length x then p.org.getD (offs p.ptr x) 0 else m x :=
  rfl

theorem patch_apply_other (p : Patch) (m : Mem) (x : Nat)
    (h : ¬ inRange p.ptr p.variant.width x) : p.patch m x = m x := by
  unfold Patch.patch Mem.writeBytes
  rw [leBytes_length]
  unfold inRange at h
  simp only [h, if_false]

theorem readBytes_length (m : Mem) (a n : Nat) : (m.readBytes a n).length = n := by
  simp [Mem.readBytes]

theorem readBytes_getD (m : Mem) (a n i : Nat) (hi : i < n) :
    (m.readBytes a n).getD i 0 = m.read (a + i) := by
  simp [Mem.readBytes, List.getD_eq_getElem?_getD, hi]

theorem create_variant (m : Mem) (v : Variant) (a val : Nat) :
    (Patch.create m v a val).variant = v := rfl

theorem create_ptr (m : Mem) (v : Variant) (a val : Nat) :
    (Patch.create m v a val).ptr = a % W64 := rfl

theorem create_org_length (m : Mem) (v : Variant) (a val : Nat) :
    (Patch.create m v a val).org.length = v.width := by
  simp [Patch.create, readBytes_length]

theorem create_org_getD (m : Mem) (v : Variant) (a val x : Nat) (h : inRange a v.width x) :
    (Patch.create m v a val).org.getD (offs (Patch.create m v a val).ptr x) 0 = m x := by
  have e : offs (a % W64) x = offs a x := by unfold offs; rw [Nat.mod_mod]
  rw [create_ptr, e]
  unfold Patch.create
  simp only
  rw [readBytes_getD _ _ _ _ h.2]
  unfold Mem.read
  rw [add_offs a x h.1]

/-- The ranges of the two patches of a redirect make up its footprint. -/
theorem footprint_split (m : Mem) (src dst x : Nat) :
    (inRange (routeOpcode m src dst).ptr (routeOpcode m src dst).org.length x ∨
      inRange (routeArgument m src dst).ptr (routeArgument m src dst).org.length x) ↔
    inRange src (routeFootprint src dst) x := by
  unfold routeOpcode routeArgument routeFootprint
  cases routeAbsolute src dst
  · simp only [Bool.false_eq_true, if_false, create_ptr, create_org_length, inRange_mod,
      Variant.width]
    unfold inRange offs W64
    omega
  · simp only [if_true, create_ptr, create_org_length, inRange_mod, Variant.width]
    unfold inRange offs W64
    omega

theorem routeOpcode_width (m : Mem) (src dst : Nat) :
    (routeOpcode m src dst).variant.width = (routeOpcode m src dst).org.length := by
  unfold routeOpcode
  split <;> rw [create_variant, create_org_length]

theorem routeArgument_width (m : Mem) (src dst : Nat) :
    (routeArgument m src dst).variant.width = (routeArgument m src dst).org.length := by
  unfold routeArgument
  split <;> rw [create_variant, create_org_length]

theorem routeOpcode_org (m : Mem) (src dst x : Nat)
    (h : inRange (routeOpcode m src dst).ptr (routeOpcode m src dst).org.length x) :
    (routeOpcode m src dst).org.getD (offs (routeOpcode m src dst).ptr x) 0 = m x := by
  unfold routeOpcode at h ⊢
  by_cases hb : routeAbsolute src dst = true
  · simp only [hb, if_true] at h ⊢
    rw [create_ptr, create_org_length, inRange_mod] at h
    exact create_org_getD _ _ _ _ _ h
  · simp only [hb, Bool.false_eq_true, if_false] at h ⊢
    rw [create_ptr, create_org_length, inRange_mod] at h
    exact create_org_getD _ _ _ _ _ h

theorem routeArgument_org (m : Mem) (src dst x : Nat)
    (h : inRange (routeArgument m src dst).ptr (routeArgument m src dst).org.length x) :
    (routeArgument m src dst).org.getD (offs (routeArgument m src dst).ptr x) 0 = m x := by
  unfold routeArgument at h ⊢
  by_cases hb : routeAbsolute src dst = true
  · simp only [hb, if_true] at h ⊢
    rw [create_ptr, create_org_length, inRange_mod] at h
    exact create_org_getD _ _ _ _ _ h
  · simp only [hb, Bool.false_eq_true, if_false] at h ⊢
    rw [create_ptr, create_org_length, inRange_mod] at h
    exact create_org_getD _ _ _ _ _ h

theorem restoreAll_eq (m0 : Mem) (ps : List Patch) : ∀ (m : Mem),
    (∀ p ∈ ps, ∀ x, inRange p.ptr p.org.length x → p.org.getD (offs p.ptr x) 0 = m0 x) →
    (∀ x, (∀ p ∈ ps, ¬ inRange p.ptr p.org.length x) → m x = m0 x) →
    restoreAll ps m = m0 := by
  induction ps with
  | nil =>
    intro m _ h2
    funext x
    exact h2 x (by simp)
  | cons p ps ih =>
    intro m h1 h2
    have e : restoreAll (p :: ps) m = restoreAll ps (p.restore m) := rfl
    rw [e]
    apply ih
    · intro q hq
      exact h1 q (List.mem_cons_of_mem _ hq)
    · intro x hx
      rw [restore_apply]
      by_cases hp : inRange p.ptr p.org.length x
      · rw [if_pos hp]
        exact h1 p (List.mem_cons_self _ _) x hp
      · rw [if_neg hp]
        apply h2
        intro q hq
        rcases List.mem_cons.mp hq with rfl | hq
        · exact hp
        · exact hx q hq

theorem privilegedRoute_run (c : Consts) (tenv : TrampEnv) (s : Patcher) (p : Nat × Nat) :
    (privilegedRoute tenv p).run c s =
      some { s with
        mem := (routeArgument s.mem p.1 p.2).patch ((routeOpcode s.mem p.1 p.2).patch s.mem),
        kpatches := s.kpatches ++ [routeOpcode s.mem p.1 p.2, routeArgument s.mem p.1 p.2] } := by
  simp [privilegedRoute, Call.run, routeFunction, routeWrite, routeOk]

theorem revert_invariant (c : Consts) (tenv : TrampEnv) (m0 : Mem) :
    ∀ (calls : List (Nat × Nat)) (s : Patcher),
    calls.Pairwise (fun a b => ∀ x, ¬ (inRange a.1 (routeFootprint a.1 a.2) x ∧
      inRange b.1 (routeFootprint b.1 b.2) x)) →
    (∀ p ∈ s.kpatches, ∀ x, inRange p.ptr p.org.length x → p.org.getD (offs p.ptr x) 0 = m0 x) →
    (∀ x, (∀ p ∈ s.kpatches, ¬ inRange p.ptr p.org.length x) → s.mem x = m0 x) →
    (∀ a ∈ calls, ∀ p ∈ s.kpatches, ∀ x, inRange p.ptr p.org.length x →
      ¬ inRange a.1 (routeFootprint a.1 a.2) x) →
    ∃ s1, runCalls c s (calls.map (privilegedRoute tenv)) = some s1 ∧
      s1.kinfos = s.kinfos ∧
      (∀ p ∈ s1.kpatches, ∀ x, inRange p.ptr p.org.length x →
        p.org.getD (offs p.ptr x) 0 = m0 x) ∧
      (∀ x, (∀ p ∈ s1.kpatches, ¬ inRange p.ptr p.org.length x) → s1.mem x = m0 x) := by
  intro calls
  induction calls with
  | nil =>
    intro s _ h1 h2 _
    exact ⟨s, rfl, rfl, h1, h2⟩
  | cons a rest ih =>
    intro s hpw h1 h2 h3
    rw [List.pairwise_cons] at hpw
    simp only [List.map_cons, runCalls, privilegedRoute_run]
    -- the bytes of the new footprint still hold their initial values
    have hfresh : ∀ x, inRange a.1 (routeFootprint a.1 a.2) x → s.mem x = m0 x := by
      intro x hx
      apply h2
      intro p hp hpx
      exact h3 a (List.mem_cons_self _ _) p hp x hpx hx
    have key := ih { s with
        mem := (routeArgument s.mem a.1 a.2).patch ((routeOpcode s.mem a.1 a.2).patch s.mem),
        kpatches := s.kpatches ++ [routeOpcode s.mem a.1 a.2, routeArgument s.mem a.1 a.2] }
      hpw.2 ?_ ?_ ?_
    · obtain ⟨s1, e1, e2, e3, e4⟩ := key
      exact ⟨s1, e1, e2, e3, e4⟩
    · intro p hp x hx
      simp only [List.mem_append, List.mem_cons, List.mem_singleton, List.not_mem_nil,
        or_false] at hp
      rcases hp with hp | rfl | rfl
      · exact h1 p hp x hx
      · rw [routeOpcode_org _ _ _ _ hx]
        exact hfresh x ((footprint_split s.mem a.1 a.2 x).mp (Or.inl hx))
      · rw [routeArgument_org _ _ _ _ hx]
        exact hfresh x ((footprint_split s.mem a.1 a.2 x).mp (Or.inr hx))
    · intro x hx
      simp only [List.mem_append, List.mem_cons, List.mem_singleton, List.not_mem_nil,
        or_false] at hx
      have ho := hx _ (Or.inr (Or.inl rfl))
      have ha := hx _ (Or.inr (Or.inr rfl))
      show (routeArgument s.mem a.1 a.2).patch ((routeOpcode s.mem a.1 a.2).patch s.mem) x = m0 x
      rw [patch_apply_other _ _ _ (by rw [routeArgument_width]; exact ha),
        patch_apply_other _ _ _ (by rw [routeOpcode_width]; exact ho)]
      exact h2 x (fun p hp => hx p (Or.inl hp))
    · intro b hb p hp x hx
      simp only [List.mem_append, List.mem_cons, List.mem_singleton, List.not_mem_nil,
        or_false] at hp
      rcases hp with hp | rfl | rfl
      · exact h3 b (List.mem_cons_of_mem _ hb) p hp x hx
      · intro hbx
        exact hpw.1 b hb x ⟨(footprint_split s.mem a.1 a.2 x).mp (Or.inl hx), hbx⟩
      · intro hbx
        exact hpw.1 b hb x ⟨(footprint_split s.mem a.1 a.2 x).mp (Or.inr hx), hbx⟩

/-- C3 (as the code has it): from an empty ledger, after any sequence of privileged
`routeFunction` calls without wrapper in which every external step succeeds and whose
redirect footprints are pairwise disjoint, the revert pass of `deinit` (registry not empty,
protection toggle succeeding) leaves memory equal to the initial memory byte for byte. -/
theorem deinit_reverts_privileged_routes (c : Consts) (tenv : TrampEnv) (s0 : Patcher)
    (calls : List (Nat × Nat))
    (hledger : s0.kpatches = [])
    (hreg : 0 < s0.kinfos.length)
    (hdisj : calls.Pairwise (fun a b => ∀ x, ¬ (inRange a.1 (routeFootprint a.1 a.2) x ∧
      inRange b.1 (routeFootprint b.1 b.2) x))) :
    ∃ s, runCalls c s0 (calls.map (privilegedRoute tenv)) = some s ∧
      (deinit true s).mem = s0.mem := by
  obtain ⟨s, e1, e2, e3, e4⟩ := revert_invariant c tenv s0.mem calls s0 hdisj
    (by rw [hledger]; simp) (by intro x _; rfl) (by rw [hledger]; simp)
  refine ⟨s, e1, ?_⟩
  unfold deinit
  simp only [e2, hreg, if_true]
  exact restoreAll_eq s0.mem s.kpatches s.mem e3 e4

theorem deinit_reverts_privileged_routes_witness :
    (sampleState (fun _ => 0)).kpatches = [] ∧ 0 < (sampleState (fun _ => 0)).kinfos.length ∧
    ∃ s, runCalls sampleConsts (sampleState (fun _ => 0))
        ([(4096, 8192), (4200, 72623859790382856)].map (privilegedRoute (trampOk 5))) = some s ∧
      (deinit true s).mem = (sampleState (fun _ => 0)).mem :=
  ⟨rfl, by decide,
    deinit_reverts_privileged_routes sampleConsts (trampOk 5) (sampleState (fun _ => 0))
      [(4096, 8192), (4200, 72623859790382856)] rfl (by decide)
      (by
        have e1 : routeFootprint 4096 8192 = 5 := by decide
        have e2 : routeFootprint 4200 72623859790382856 = 16 := by decide
        simp only [List.pairwise_cons, List.mem_singleton, List.not_mem_nil, forall_eq,
          List.Pairwise.nil, and_true, e1, e2, false_implies, implies_true]
        intro x
        unfold inRange offs W64
        omega)⟩

/-- C3 fails as stated. (1) A successful `applyLookupPatch` call is not reverted: the byte
at 4096 stays 7 where it was 1. (2) A successful unprivileged `routeFunction` call is not
reverted. (3) Two privileged redirects of the same address are reverted in ledger order, so
the first redirect's opcode is restored last. (4) The trampoline bytes a privileged call with
wrapper writes into the arena are not reverted. -/
theorem deinit_does_not_revert_everything :
    ((memOf 4096 [1, 2, 3]).read 4096 = 1 ∧
      (runCalls sampleConsts (sampleState (memOf 4096 [1, 2, 3]))
        [.lookup (lookupOk 16) 2
          { kext := some sampleKext, find := [1, 2, 3], replace := [7, 8, 9], size := 3,
            count := 1 }]).map (fun s => (s.code, (deinit true s).mem.read 4096))
        = some (Error.NoError, 7)) ∧
    ((runCalls sampleConsts (sampleState (fun _ => 0))
        [.route (trampOk 5) routeOk 4096 8192 false false]).map
          (fun s => (s.code, (deinit true s).mem.read 4096)) = some (Error.NoError, 233)) ∧
    ((runCalls sampleConsts (sampleState (fun _ => 0))
        [privilegedRoute (trampOk 5) (4096, 8192), privilegedRoute (trampOk 5) (4096, 12288)]).map
          (fun s => (s.code, (deinit true s).mem.read 4096)) = some (Error.NoError, 233)) ∧
    ((runCalls sampleConsts (sampleState (fun _ => 0))
        [.route (trampOk 5) routeOk 4096 8192 true true]).map
          (fun s => (s.code, (deinit true s).mem.read 1048581)) = some (Error.NoError, 233)) := by
  refine ⟨⟨by decide, ?_⟩, ?_, ?_, ?_⟩ <;> decide

/-! ### The lookup scan -/

theorem memcmpEq_iff (m : Mem) (r : Nat) (f : List Nat) (n : Nat) :
    memcmpEq m r f n = true ↔ ∀ j, j < n → m.read (r + j) = f.getD j 0 := by
  simp [memcmpEq, List.all_eq_true]

theorem memcmpEq_congr (m1 m2 : Mem) (r : Nat) (f : List Nat) (n : Nat)
    (h : ∀ j, j < n → m1.read (r + j) = m2.read (r + j)) :
    memcmpEq m1 r f n = memcmpEq m2 r f n := by
  rw [Bool.eq_iff_iff, memcmpEq_iff, memcmpEq_iff]
  constructor
  · intro h1 j hj
    rw [← h j hj]
    exact h1 j hj
  · intro h1 j hj
    rw [h j hj]
    exact h1 j hj

theorem inRange_iff_of_le (q n x : Nat) (h : q + n ≤ W64) :
    inRange q n x ↔ q ≤ x ∧ x < q + n := by
  unfold inRange offs W64 at *
  omega

theorem writeBytes_apply (m : Mem) (a : Nat) (bs : List Nat) (x : Nat) :
    (m.writeBytes a bs) x = if inRange a bs.length x then bs.getD (offs a x) 0 else m x := rfl

theorem replaceBytes_length (p : LookupPatch) : (replaceBytes p).length = p.size := by
  simp [replaceBytes]

theorem replaceBytes_getD (p : LookupPatch) (j : Nat) (hj : j < p.size) :
    (replaceBytes p).getD j 0 = p.replace.getD j 0 := by
  simp [replaceBytes, List.getD_eq_getElem?_getD, hj]

theorem scanWhile_spec (m : Mem) (f : List Nat) (n : Nat) :
    ∀ (gap curr q : Nat), curr ≤ q → q ≤ curr + gap →
      (∀ r, curr ≤ r → r < q → memcmpEq m r f n = false) →
      (q = curr + gap ∨ memcmpEq m q f n = true) →
      scanWhile m f n gap curr = q := by
  intro gap
  induction gap with
  | zero =>
    intro curr q h1 h2 _ _
    simp only [scanWhile]
    omega
  | succ gap ih =>
    intro curr q h1 h2 h3 h4
    simp only [scanWhile]
    by_cases hq : curr = q
    · subst hq
      rcases h4 with h4 | h4
      · omega
      · rw [if_pos h4]
    · have hlt : curr < q := by omega
      rw [if_neg (by rw [h3 curr (le_refl _) hlt]; simp)]
      apply ih
      · omega
      · omega
      · intro r hr1 hr2
        exact h3 r (by omega) hr2
      · rcases h4 with h4 | h4
        · left; omega
        · right; exact h4

theorem writeBytes_read_far (M : Mem) (q : Nat) (bs : List Nat) (a : Nat)
    (hq : q + bs.length ≤ W64) (ha : a < W64) (h : a < q ∨ q + bs.length ≤ a) :
    (M.writeBytes q bs).read a = M.read a := by
  unfold Mem.read
  rw [writeBytes_apply, if_neg]
  rw [Nat.mod_eq_of_lt ha, inRange_iff_of_le _ _ _ hq]
  omega

/-- Run of the scan loop from a state in which the matches still ahead of the cursor are
exactly `rest`: the loop overwrites them one by one and stops. -/
theorem lookupLoop_spec (p : LookupPatch) (off : Nat) (hsz : 0 < p.size)
    (hoff : off + p.size ≤ W64) :
    ∀ (rest : List Nat) (fuel i curr changes : Nat) (M : Mem),
      rest.length + 2 ≤ fuel →
      i + rest.length ≤ p.count →
      curr ≤ off →
      rest.Pairwise (fun a b => a + p.size ≤ b) →
      (∀ q ∈ rest, curr ≤ q ∧ q < off) →
      (∀ r, curr ≤ r → r < off → (memcmpEq M r p.find p.size = true ↔ r ∈ rest)) →
      (∀ q ∈ rest, ∀ r, q ≤ r → r < q + p.size → r < off →
        memcmpEq (M.writeBytes q (replaceBytes p)) r p.find p.size = false) →
      ∃ M1, lookupLoop p off fuel i curr changes M = some (M1, changes + rest.length) ∧
        (∀ q ∈ rest, ∀ j, j < p.size → M1.read (q + j) = p.replace.getD j 0) ∧
        (∀ x, (∀ q ∈ rest, ¬ inRange q p.size x) → M1 x = M x) := by
  intro rest
  induction rest with
  | nil =>
    intro fuel i curr changes M hfuel _ hcurr _ _ h3 _
    obtain ⟨f, rfl⟩ : ∃ f, fuel = f + 2 := ⟨fuel - 2, by simp at hfuel; omega⟩
    refine ⟨M, ?_, by simp, fun x _ => rfl⟩
    simp only [lookupLoop, List.length_nil, Nat.add_zero]
    by_cases hc : curr < off ∧ (i < p.count ∨ p.count = 0)
    · rw [if_pos hc]
      have hs : scanWhile M p.find p.size (off - curr) curr = off := by
        apply scanWhile_spec
        · exact hcurr
        · omega
        · intro r hr1 hr2
          have := h3 r hr1 hr2
          simp only [List.not_mem_nil, iff_false] at this
          simpa using this
        · left; omega
      simp only [hs, ne_eq, not_true_eq_false, if_false, lt_irrefl, false_and]
    · rw [if_neg hc]
  | cons q tail ih =>
    intro fuel i curr changes M hfuel hi hcurr hpw h2 h3 h4
    obtain ⟨f, rfl⟩ : ∃ f, fuel = f + 1 := ⟨fuel - 1, by simp at hfuel; omega⟩
    rw [List.pairwise_cons] at hpw
    have hq := h2 q (List.mem_cons_self _ _)
    have htail : ∀ q1 ∈ tail, q + p.size ≤ q1 ∧ q1 < off := fun q1 h =>
      ⟨hpw.1 q1 h, (h2 q1 (List.mem_cons_of_mem _ h)).2⟩
    simp only [List.length_cons] at hfuel hi ⊢
    have hs : scanWhile M p.find p.size (off - curr) curr = q := by
      apply scanWhile_spec
      · exact hq.1
      · omega
      · intro r hr1 hr2
        have := h3 r hr1 (by omega)
        have hn : r ∉ q :: tail := by
          intro hm
          rcases List.mem_cons.mp hm with rfl | hm
          · omega
          · have := (htail r hm).1
            omega
        simpa [hn] using this
      · right
        exact (h3 q hq.1 hq.2).mpr (List.mem_cons_self _ _)
    have hlen : q + (replaceBytes p).length ≤ W64 := by rw [replaceBytes_length]; omega
    obtain ⟨M1, e1, e2, e3⟩ := ih f (i + 1) q (changes + 1) (M.writeBytes q (replaceBytes p))
      (by omega) (by omega) (by omega) hpw.2
      (fun q1 h => ⟨by have := (htail q1 h).1; omega, (htail q1 h).2⟩)
      (by
        intro r hr1 hr2
        by_cases hr : r < q + p.size
        · rw [h4 q (List.mem_cons_self _ _) r hr1 hr hr2]
          simp only [Bool.false_eq_true, false_iff]
          intro hm
          have := (htail r hm).1
          omega
        · have hc : memcmpEq (M.writeBytes q (replaceBytes p)) r p.find p.size
              = memcmpEq M r p.find p.size := by
            apply memcmpEq_congr
            intro j hj
            apply writeBytes_read_far _ _ _ _ hlen (by omega)
            rw [replaceBytes_length]
            omega
          rw [hc, h3 r (by omega) hr2]
          constructor
          · intro hm
            rcases List.mem_cons.mp hm with rfl | hm
            · omega
            · exact hm
          · exact List.mem_cons_of_mem _)
      (by
        intro q1 hq1 r hr1 hr2 hr3
        have hq1b := htail q1 hq1
        rw [← h4 q1 (List.mem_cons_of_mem _ hq1) r hr1 hr2 hr3]
        apply memcmpEq_congr
        intro j hj
        unfold Mem.read
        rw [writeBytes_apply (M.writeBytes q (replaceBytes p)) q1, writeBytes_apply M q1]
        split
        · rfl
        · have := writeBytes_read_far M q (replaceBytes p) (r + j) hlen (by omega)
            (by rw [replaceBytes_length]; omega)
          simpa [Mem.read] using this)
    refine ⟨M1, ?_, ?_, ?_⟩
    · simp only [lookupLoop]
      rw [if_pos ⟨by omega, Or.inl (by omega)⟩]
      simp only [hs]
      rw [if_pos (by omega)]
      rw [e1]
      congr 2
      omega
    · intro q1 hq1 j hj
      rcases List.mem_cons.mp hq1 with rfl | hq1
      · have hx : M1 ((q1 + j) % W64) = (M.writeBytes q1 (replaceBytes p)) ((q1 + j) % W64) := by
          apply e3
          intro q2 hq2
          have := htail q2 hq2
          rw [Nat.mod_eq_of_lt (by omega), inRange_iff_of_le _ _ _ (by omega)]
          omega
        unfold Mem.read
        rw [hx]
        have := writeBytes_read M q1 (replaceBytes p) j (by rw [replaceBytes_length]; exact hj)
          (by omega)
        rw [replaceBytes_getD _ _ hj] at this
        simpa [Mem.read] using this
      · exact e2 q1 hq1 j hj
    · intro x hx
      rw [e3 x (fun q1 h => hx q1 (List.mem_cons_of_mem _ h))]
      rw [writeBytes_apply, if_neg]
      rw [replaceBytes_length]
      exact hx q (List.mem_cons_self _ _)

theorem replaceBytes_eq (p : LookupPatch) (h : p.replace.length = p.size) :
    replaceBytes p = p.replace := by
  apply List.ext_getElem
  · rw [replaceBytes_length, h]
  · intro i h1 h2
    simp [replaceBytes, List.getElem?_eq_getElem h2]

/-- Run of `applyLookupPatch` over a region whose occurrences of the pattern are exactly
`ps` (pairwise non-overlapping, none at the final position, none created by a replacement)
when the requested count is at least their number. -/
theorem applyLookupPatch_run (c : Consts) (env : LookupEnv) (fuel : Nat) (s : Patcher)
    (p : LookupPatch) (k : KextInfo) (ps : List Nat)
    (hk : p.kext = some k) (hload : k.loadIndex ≠ c.Unloaded)
    (hon : env.writingOn = true) (hoffw : env.writingOff = true)
    (hfit : env.start + env.size < W64) (hps : p.size ≤ env.size)
    (hrl : p.replace.length = p.size)
    (hpw : ps.Pairwise (fun a b => a + p.size ≤ b))
    (hocc : ∀ q, q ∈ ps ↔ (env.start ≤ q ∧ q + p.size ≤ env.start + env.size ∧
      memcmpEq s.mem q p.find p.size = true))
    (hlast : ∀ q ∈ ps, q + p.size < env.start + env.size)
    (hclean : ∀ q ∈ ps, ∀ r, q ≤ r → r < q + p.size → r + p.size < env.start + env.size →
      memcmpEq (s.mem.writeBytes q p.replace) r p.find p.size = false)
    (hcount : ps.length ≤ p.count) (hfuel : ps.length + 2 ≤ fuel) :
    ∃ s1, applyLookupPatch c env fuel s (some p) = some s1 ∧
      s1.code = (if ps.length = p.count then s.code else .MemoryIssue) ∧
      (∀ q ∈ ps, ∀ j, j < p.size → s1.mem.read (q + j) = p.replace.getD j 0) ∧
      (∀ x, (∀ q ∈ ps, ¬ inRange q p.size x) → s1.mem x = s.mem x) := by
  have hsz : 0 < p.size := by
    by_contra h0
    have h0 : p.size = 0 := by omega
    have hm : env.start + env.size ∈ ps := by
      rw [hocc]
      refine ⟨by omega, by omega, ?_⟩
      rw [memcmpEq_iff]
      intro j hj
      omega
    have := hlast _ hm
    omega
  have eoff : lookupOff env.start env.size p.size = env.start + env.size - p.size := by
    unfold lookupOff sub64 W64 at *
    omega
  have estart : env.start % W64 = env.start := Nat.mod_eq_of_lt (by omega)
  obtain ⟨M1, e1, e2, e3⟩ := lookupLoop_spec p (env.start + env.size - p.size) hsz (by omega)
    ps fuel 0 env.start 0 s.mem hfuel (by omega) (by omega) hpw
    (fun q hq => ⟨((hocc q).mp hq).1, by have := hlast q hq; omega⟩)
    (by
      intro r hr1 hr2
      rw [hocc]
      constructor
      · intro h
        exact ⟨hr1, by omega, h⟩
      · intro h
        exact h.2.2)
    (by
      intro q hq r hr1 hr2 hr3
      rw [replaceBytes_eq p hrl]
      exact hclean q hq r hr1 hr2 (by omega))
  unfold applyLookupPatch
  simp only [hk, hload, if_false, hon, Bool.not_true, Bool.false_eq_true, eoff, estart, e1,
    hoffw, Nat.zero_add, ne_eq]
  by_cases hc : ps.length = p.count
  · rw [if_neg (by simpa using hc), if_pos hc]
    exact ⟨_, rfl, rfl, e2, e3⟩
  · rw [if_pos (by simpa using hc), if_neg hc]
    exact ⟨_, rfl, rfl, e2, e3⟩

/-- C4 (as the code has it): when the occurrences of the pattern in the running region are
exactly the `n` positions `ps`, pairwise non-overlapping, none of them at the final position
`start + size - patternSize`, and overwriting an occurrence leaves no occurrence beginning
inside the overwritten bytes, `applyLookupPatch` with `count = n` finishes, sets no error,
leaves every occurrence overwritten with the replacement and every other byte unchanged. -/
theorem applyLookupPatch_exact_count (c : Consts) (env : LookupEnv) (fuel : Nat) (s : Patcher)
    (p : LookupPatch) (k : KextInfo) (ps : List Nat) (n : Nat)
    (hcount : p.count = n) (hlen : ps.length = n)
    (hk : p.kext = some k) (hload : k.loadIndex ≠ c.Unloaded)
    (hon : env.writingOn = true) (hoffw : env.writingOff = true)
    (hfit : env.start + env.size < W64) (hps : p.size ≤ env.size)
    (hrl : p.replace.length = p.size)
    (hpw : ps.Pairwise (fun a b => a + p.size ≤ b))
    (hocc : ∀ q, q ∈ ps ↔ (env.start ≤ q ∧ q + p.size ≤ env.start + env.size ∧
      memcmpEq s.mem q p.find p.size = true))
    (hlast : ∀ q ∈ ps, q + p.size < env.start + env.size)
    (hclean : ∀ q ∈ ps, ∀ r, q ≤ r → r < q + p.size → r + p.size < env.start + env.size →
      memcmpEq (s.mem.writeBytes q p.replace) r p.find p.size = false)
    (hfuel : n + 2 ≤ fuel) :
    ∃ s1, applyLookupPatch c env fuel s (some p) = some s1 ∧
      s1.code = s.code ∧
      (∀ q ∈ ps, ∀ j, j < p.size → s1.mem.read (q + j) = p.replace.getD j 0) ∧
      (∀ x, (∀ q ∈ ps, ¬ inRange q p.size x) → s1.mem x = s.mem x) := by
  obtain ⟨s1, e1, e2, e3, e4⟩ := applyLookupPatch_run c env fuel s p k ps hk hload hon hoffw
    hfit hps hrl hpw hocc hlast hclean (by omega) (by omega)
  rw [if_pos (by omega)] at e2
  exact ⟨s1, e1, e2, e3, e4⟩

theorem applyLookupPatch_exact_count_witness :
    ∃ s1, applyLookupPatch sampleConsts (lookupOk 12) 5
        (sampleState (memOf 4096 [1, 2, 3, 0, 1, 2, 3, 0, 1, 2, 3, 0]))
        (some { kext := some sampleKext, find := [1, 2, 3], replace := [7, 8, 9], size := 3,
                count := 3 }) = some s1 ∧
      s1.code = (sampleState (memOf 4096 [1, 2, 3, 0, 1, 2, 3, 0, 1, 2, 3, 0])).code ∧
      (∀ q ∈ [4096, 4100, 4104], ∀ j, j < 3 → s1.mem.read (q + j) = [7, 8, 9].getD j 0) ∧
      (∀ x, (∀ q ∈ [4096, 4100, 4104], ¬ inRange q 3 x) → s1.mem x =
        (sampleState (memOf 4096 [1, 2, 3, 0, 1, 2, 3, 0, 1, 2, 3, 0])).mem x) :=
  applyLookupPatch_exact_count sampleConsts (lookupOk 12) 5
    (sampleState (memOf 4096 [1, 2, 3, 0, 1, 2, 3, 0, 1, 2, 3, 0]))
    { kext := some sampleKext, find := [1, 2, 3], replace := [7, 8, 9], size := 3, count := 3 }
    sampleKext [4096, 4100, 4104] 3 rfl rfl rfl (by decide) rfl rfl (by decide) (by decide) rfl
    (by decide)
    (by
      intro q
      constructor
      · intro h
        simp only [List.mem_cons, List.mem_singleton, List.not_mem_nil, or_false] at h
        rcases h with rfl | rfl | rfl <;> decide
      · rintro ⟨h1, h2, h3⟩
        have h1 : 4096 ≤ q := h1
        have h2 : q + 3 ≤ 4096 + 12 := h2
        have h4 : q < 4106 := by omega
        revert h3
        interval_cases q <;> decide)
    (by decide)
    (by
      intro q hq r hr1 hr2 hr3
      have hr3 : r + 3 < 4096 + 12 := hr3
      have hr2 : r < q + 3 := hr2
      simp only [List.mem_cons, List.mem_singleton, List.not_mem_nil, or_false] at hq
      rcases hq with rfl | rfl | rfl <;> interval_cases r <;> decide)
    (by decide)

/-- C4 fails as stated. (1) Three non-overlapping occurrences, the last one in the final
three bytes of the region: with `count = 3` the scan never tests the final position, applies
two replacements, reports `MemoryIssue` and leaves the third occurrence in place. (2) Two
non-overlapping occurrences of `[1, 2]` with replacement `[3, 1]`: the scan resumes at the
bytes it just wrote, matches the `[1, 2]` formed at offset 1, reports no error, leaves the
occurrence at offset 4 in place and changes the byte at offset 2, outside both occurrences. -/
theorem applyLookupPatch_exact_count_fails :
    ((List.range 9).filter (fun i =>
        memcmpEq (memOf 4096 [1, 2, 3, 0, 1, 2, 3, 0, 1, 2, 3]) (4096 + i) [1, 2, 3] 3)
        = [0, 4, 8] ∧
      (applyLookupPatch sampleConsts (lookupOk 11) 5
        (sampleState (memOf 4096 [1, 2, 3, 0, 1, 2, 3, 0, 1, 2, 3]))
        (some { kext := some sampleKext, find := [1, 2, 3], replace := [7, 8, 9], size := 3,
                count := 3 })).map (fun s => (s.code, s.mem.read 4104))
        = some (Error.MemoryIssue, 1)) ∧
    ((List.range 7).filter (fun i =>
        memcmpEq (memOf 4096 [1, 2, 2, 0, 1, 2, 0, 0]) (4096 + i) [1, 2] 2) = [0, 4] ∧
      (memOf 4096 [1, 2, 2, 0, 1, 2, 0, 0]).read 4098 = 2 ∧
      (applyLookupPatch sampleConsts (lookupOk 8) 5
        (sampleState (memOf 4096 [1, 2, 2, 0, 1, 2, 0, 0]))
        (some { kext := some sampleKext, find := [1, 2], replace := [3, 1], size := 2,
                count := 2 })).map (fun s => (s.code, s.mem.read 4100, s.mem.read 4098))
        = some (Error.NoError, 1, 1)) := by
  refine ⟨⟨?_, ?_⟩, ?_, ?_, ?_⟩ <;> decide

/-- C5 (as the code has it): when the occurrences of the pattern in the running region are
exactly the `k` positions `ps`, pairwise non-overlapping, none of them at the final position,
and overwriting an occurrence leaves no occurrence beginning inside the overwritten bytes,
`applyLookupPatch` with `count = n > k` finishes, sets `MemoryIssue`, leaves every occurrence
overwritten with the replacement and every other byte unchanged. -/
theorem applyLookupPatch_short_count (c : Consts) (env : LookupEnv) (fuel : Nat) (s : Patcher)
    (p : LookupPatch) (k : KextInfo) (ps : List Nat) (n : Nat)
    (hcount : p.count = n) (hlen : ps.length < n)
    (hk : p.kext = some k) (hload : k.loadIndex ≠ c.Unloaded)
    (hon : env.writingOn = true) (hoffw : env.writingOff = true)
    (hfit : env.start + env.size < W64) (hps : p.size ≤ env.size)
    (hrl : p.replace.length = p.size)
    (hpw : ps.Pairwise (fun a b => a + p.size ≤ b))
    (hocc : ∀ q, q ∈ ps ↔ (env.start ≤ q ∧ q + p.size ≤ env.start + env.size ∧
      memcmpEq s.mem q p.find p.size = true))
    (hlast : ∀ q ∈ ps, q + p.size < env.start + env.size)
    (hclean : ∀ q ∈ ps, ∀ r, q ≤ r → r < q + p.size → r + p.size < env.start + env.size →
      memcmpEq (s.mem.writeBytes q p.replace) r p.find p.size = false)
    (hfuel : n + 2 ≤ fuel) :
    ∃ s1, applyLookupPatch c env fuel s (some p) = some s1 ∧
      s1.code = .MemoryIssue ∧
      (∀ q ∈ ps, ∀ j, j < p.size → s1.mem.read (q + j) = p.replace.getD j 0) ∧
      (∀ x, (∀ q ∈ ps, ¬ inRange q p.size x) → s1.mem x = s.mem x) := by
  obtain ⟨s1, e1, e2, e3, e4⟩ := applyLookupPatch_run c env fuel s p k ps hk hload hon hoffw
    hfit hps hrl hpw hocc hlast hclean (by omega) (by omega)
  rw [if_neg (by omega)] at e2
  exact ⟨s1, e1, e2, e3, e4⟩

theorem applyLookupPatch_short_count_witness :
    ∃ s1, applyLookupPatch sampleConsts (lookupOk 12) 5
        (sampleState (memOf 4096 [1, 2, 3, 0, 1, 2, 3, 0]))
        (some { kext := some sampleKext, find := [1, 2, 3], replace := [7, 8, 9], size := 3,
                count := 3 }) = some s1 ∧
      s1.code = .MemoryIssue ∧
      (∀ q ∈ [4096, 4100], ∀ j, j < 3 → s1.mem.read (q + j) = [7, 8, 9].getD j 0) ∧
      (∀ x, (∀ q ∈ [4096, 4100], ¬ inRange q 3 x) → s1.mem x =
        (sampleState (memOf 4096 [1, 2, 3, 0, 1, 2, 3, 0])).mem x) :=
  applyLookupPatch_short_count sampleConsts (lookupOk 12) 5
    (sampleState (memOf 4096 [1, 2, 3, 0, 1, 2, 3, 0]))
    { kext := some sampleKext, find := [1, 2, 3], replace := [7, 8, 9], size := 3, count := 3 }
    sampleKext [4096, 4100] 3 rfl (by decide) rfl (by decide) rfl rfl (by decide) (by decide) rfl
    (by decide)
    (by
      intro q
      constructor
      · intro h
        simp only [List.mem_cons, List.mem_singleton, List.not_mem_nil, or_false] at h
        rcases h with rfl | rfl <;> decide
      · rintro ⟨h1, h2, h3⟩
        have h1 : 4096 ≤ q := h1
        have h2 : q + 3 ≤ 4096 + 12 := h2
        have h4 : q < 4106 := by omega
        revert h3
        interval_cases q <;> decide)
    (by decide)
    (by
      intro q hq r hr1 hr2 hr3
      have hr3 : r + 3 < 4096 + 12 := hr3
      have hr2 : r < q + 3 := hr2
      simp only [List.mem_cons, List.mem_singleton, List.not_mem_nil, or_false] at hq
      rcases hq with rfl | rfl <;> interval_cases r <;> decide)
    (by decide)

/-- C5 fails as stated. (1) One occurrence and a replacement equal to the pattern: with
`count = 3` the cursor stays on the match, the same occurrence is counted three times and no
error is set. (2) One occurrence, in the final three bytes of the region: `MemoryIssue` is
set but the occurrence is not overwritten. -/
theorem applyLookupPatch_short_count_fails :
    ((List.range 4).filter (fun i =>
        memcmpEq (memOf 4096 [1, 2, 3, 0, 0, 0]) (4096 + i) [1, 2, 3] 3) = [0] ∧
      (applyLookupPatch sampleConsts (lookupOk 6) 5
        (sampleState (memOf 4096 [1, 2, 3, 0, 0, 0]))
        (some { kext := some sampleKext, find := [1, 2, 3], replace := [1, 2, 3], size := 3,
                count := 3 })).map (fun s => s.code) = some Error.NoError) ∧
    ((List.range 4).filter (fun i =>
        memcmpEq (memOf 4096 [0, 0, 0, 1, 2, 3]) (4096 + i) [1, 2, 3] 3) = [3] ∧
      (applyLookupPatch sampleConsts (lookupOk 6) 5
        (sampleState (memOf 4096 [0, 0, 0, 1, 2, 3]))
        (some { kext := some sampleKext, find := [1, 2, 3], replace := [7, 8, 9], size := 3,
                count := 3 })).map (fun s => (s.code, s.mem.read 4099))
        = some (Error.MemoryIssue, 1)) := by
  refine ⟨⟨?_, ?_⟩, ?_, ?_⟩ <;> decide

/-- C6, the code at the failing input: with `count = 0` and one occurrence of the pattern,
the occurrence is overwritten (the byte at 4096 becomes 7) and the final check
`changes != patch->count` compares `1` with `0` and sets `MemoryIssue`. -/
theorem applyLookupPatch_count_zero_reports_mismatch :
    (applyLookupPatch sampleConsts (lookupOk 6) 3
      (sampleState (memOf 4096 [1, 2, 3, 0, 0, 0]))
      (some { kext := some sampleKext, find := [1, 2, 3], replace := [7, 8, 9], size := 3,
              count := 0 })).map (fun s => (s.code, s.mem.read 4096))
      = some (Error.MemoryIssue, 7) := by
  decide

/-! ### The load-event callback -/

/-- A list either has no element satisfying `p`, or splits at the first one that does. -/
theorem first_match_split {α : Type} (p : α → Bool) : ∀ l : List α,
    (∀ x ∈ l, p x = false) ∨
    ∃ pre g post, l = pre ++ g :: post ∧ (∀ x ∈ pre, p x = false) ∧ p g = true := by
  intro l
  induction l with
  | nil => exact Or.inl (fun x hx => by simp at hx)
  | cons a rest ih =>
    by_cases ha : p a = true
    · exact Or.inr ⟨[], a, rest, rfl, fun x hx => by simp at hx, ha⟩
    · have ha : p a = false := by simpa using ha
      rcases ih with h | ⟨pre, g, post, h1, h2, h3⟩
      · left
        intro x hx
        rcases List.mem_cons.mp hx with rfl | hx
        · exact ha
        · exact h x hx
      · right
        refine ⟨a :: pre, g, post, by rw [h1]; rfl, ?_, h3⟩
        intro x hx
        rcases List.mem_cons.mp hx with rfl | hx
        · exact ha
        · exact h2 x hx

theorem dispatchFrom_first (cb : KextHandler → Patcher → Outcome Patcher)
    (last : OSKextLoadedKextSummary) (s : Patcher) (h : KextHandler)
    (post : List KextHandler)
    (hmatch : strncmpEq h.id last.name KMOD_MAX_NAME 0 = true) :
    ∀ (pre : List KextHandler) (i : Nat),
      (∀ g ∈ pre, strncmpEq g.id last.name KMOD_MAX_NAME 0 = false) →
      dispatchFrom cb last s i (pre ++ h :: post) = fireHandler cb last s (i + pre.length) h := by
  intro pre
  induction pre with
  | nil =>
    intro i _
    simp only [List.nil_append, dispatchFrom, hmatch, if_true, List.length_nil, Nat.add_zero]
  | cons g rest ih =>
    intro i hpre
    have hg := hpre g (List.mem_cons_self _ _)
    have e : dispatchFrom cb last s i ((g :: rest) ++ h :: post) =
        dispatchFrom cb last s (i + 1) (rest ++ h :: post) := by
      show dispatchFrom cb last s i (g :: (rest ++ h :: post)) = _
      simp only [dispatchFrom, hg, Bool.false_eq_true, if_false]
    rw [e, ih (i + 1) (fun g1 h1 => hpre g1 (List.mem_cons_of_mem _ h1))]
    simp only [List.length_cons]
    rw [show i + 1 + rest.length = i + (rest.length + 1) by omega]

theorem dispatchFrom_none (cb : KextHandler → Patcher → Outcome Patcher)
    (last : OSKextLoadedKextSummary) (s : Patcher) :
    ∀ (hs : List KextHandler) (i : Nat),
      (∀ g ∈ hs, strncmpEq g.id last.name KMOD_MAX_NAME 0 = false) →
      dispatchFrom cb last s i hs = .returned (s, []) := by
  intro hs
  induction hs with
  | nil => intro i _; rfl
  | cons g rest ih =>
    intro i hno
    have hg := hno g (List.mem_cons_self _ _)
    simp only [dispatchFrom, hg, Bool.false_eq_true, if_false]
    exact ih (i + 1) (fun g1 h1 => hno g1 (List.mem_cons_of_mem _ h1))

theorem waitOnKext_fold :
    ∀ (post : List KextHandler) (t : Patcher), t.that = true →
      (post.foldl (waitOnKext true) t).khandlers = t.khandlers ++ post ∧
      (post.foldl (waitOnKext true) t).that = true ∧
      (post.foldl (waitOnKext true) t).updateSummariesEntryCount = t.updateSummariesEntryCount ∧
      (post.foldl (waitOnKext true) t).loadedKextSummaries = t.loadedKextSummaries := by
  intro post
  induction post with
  | nil => intro t ht; simp [ht]
  | cons g rest ih =>
    intro t ht
    have e : waitOnKext true t g = { t with khandlers := t.khandlers ++ [g] } := by
      simp [waitOnKext, ht]
    simp only [List.foldl_cons, e]
    obtain ⟨a, b, c1, d⟩ := ih { t with khandlers := t.khandlers ++ [g] } ht
    refine ⟨?_, b, c1, d⟩
    rw [a]
    simp

/-- Handlers added one after the other by `waitOnKext` end up behind the pending ones; no
other part of the state changes. -/
theorem waitOnKext_fold_eq :
    ∀ (post : List KextHandler) (t : Patcher), t.that = true →
      post.foldl (waitOnKext true) t = { t with khandlers := t.khandlers ++ post } := by
  intro post
  induction post with
  | nil => intro t _; simp
  | cons g rest ih =>
    intro t ht
    have e : waitOnKext true t g = { t with khandlers := t.khandlers ++ [g] } := by
      simp [waitOnKext, ht]
    simp only [List.foldl_cons, e]
    rw [ih { t with khandlers := t.khandlers ++ [g] } ht]
    simp

theorem leave_enter (s : Patcher) : leaveSummaries (enterSummaries s) = s := by
  cases s
  simp [leaveSummaries, enterSummaries]

/-- The handler scan fires the first pending handler whose identifier matches. -/
theorem dispatchLast_fire (cb : KextHandler → Patcher → Outcome Patcher)
    (summaries : List OSKextLoadedKextSummary) (last : OSKextLoadedKextSummary) (s : Patcher)
    (pre : List KextHandler) (h : KextHandler) (post : List KextHandler)
    (hk : s.khandlers = pre ++ h :: post) (hsum : s.loadedKextSummaries ≠ 0)
    (hlast : summaries.getLast? = some last)
    (hpre : ∀ g ∈ pre, strncmpEq g.id last.name KMOD_MAX_NAME 0 = false)
    (hmatch : strncmpEq h.id last.name KMOD_MAX_NAME 0 = true) :
    dispatchLast cb summaries s = fireHandler cb last s pre.length h := by
  unfold dispatchLast
  rw [if_pos ⟨by rw [hk]; simp, hsum⟩, hlast]
  show dispatchFrom cb last s 0 s.khandlers = _
  rw [hk, dispatchFrom_first cb last s h post hmatch pre 0 hpre, Nat.zero_add]

/-- Without pending handlers, without a resolved summary list, without a summary, or
without a matching handler no callback runs. -/
theorem dispatchLast_idle (cb : KextHandler → Patcher → Outcome Patcher)
    (summaries : List OSKextLoadedKextSummary) (s : Patcher)
    (h : ¬ (s.khandlers.length > 0 ∧ s.loadedKextSummaries ≠ 0) ∨ summaries.getLast? = none ∨
      ∃ last, summaries.getLast? = some last ∧
        ∀ g ∈ s.khandlers, strncmpEq g.id last.name KMOD_MAX_NAME 0 = false) :
    dispatchLast cb summaries s = .returned (s, []) := by
  unfold dispatchLast
  by_cases h0 : s.khandlers.length > 0 ∧ s.loadedKextSummaries ≠ 0
  · rw [if_pos h0]
    rcases h with h | h | ⟨last, h1, h2⟩
    · exact absurd h0 h
    · rw [h]
    · rw [h1]
      exact dispatchFrom_none cb last s _ 0 h2
  · rw [if_neg h0]

/-- A load event that finds no handler to fire returns the state it was entered with. -/
theorem onKextSummariesUpdated_idle (c : Consts) (version : Nat)
    (summaries : List OSKextLoadedKextSummary) (cb : KextHandler → Patcher → Outcome Patcher)
    (s : Patcher) (hcnt : s.updateSummariesEntryCount = 0)
    (h : ¬ (s.khandlers.length > 0 ∧ s.loadedKextSummaries ≠ 0) ∨ summaries.getLast? = none ∨
      ∃ last, summaries.getLast? = some last ∧
        ∀ g ∈ s.khandlers, strncmpEq g.id last.name KMOD_MAX_NAME 0 = false) :
    onKextSummariesUpdated c version summaries cb s = .returned (s, []) := by
  unfold onKextSummariesUpdated
  by_cases hthat : s.that = true
  · rw [if_pos hthat]
    by_cases hv : version ≥ c.Sierra
    · rw [if_pos hv, if_neg (by rw [hcnt]; simp),
        dispatchLast_idle cb summaries (enterSummaries s) h]
      simp only [exitSummaries]
      rw [if_neg (by simp [enterSummaries, hcnt]), leave_enter]
    · rw [if_neg hv]
      exact dispatchLast_idle cb summaries s h
  · rw [if_neg hthat]

/-- A load event that fires the handler `h` at index `pre.length`, the callback returning
`r`: the state returned is `r` with the entry erased and, from `Sierra` on, the entry counter
decremented. -/
theorem onKextSummariesUpdated_fire (c : Consts) (version : Nat)
    (summaries : List OSKextLoadedKextSummary) (last : OSKextLoadedKextSummary)
    (cb : KextHandler → Patcher → Outcome Patcher) (s : Patcher)
    (pre : List KextHandler) (h : KextHandler) (post : List KextHandler) (r : Patcher)
    (hthat : s.that = true) (hcnt : s.updateSummariesEntryCount = 0)
    (hk : s.khandlers = pre ++ h :: post) (hsum : s.loadedKextSummaries ≠ 0)
    (hlast : summaries.getLast? = some last)
    (hpre : ∀ g ∈ pre, strncmpEq g.id last.name KMOD_MAX_NAME 0 = false)
    (hmatch : strncmpEq h.id last.name KMOD_MAX_NAME 0 = true)
    (hr : cb (fillHandler h last)
      (beforeCallback (if version ≥ c.Sierra then enterSummaries s else s) pre.length
        (fillHandler h last)) = .returned r)
    (hrc : version ≥ c.Sierra → r.updateSummariesEntryCount = 1) :
    onKextSummariesUpdated c version summaries cb s =
      .returned (if version ≥ c.Sierra then leaveSummaries (afterCallback r pre.length)
        else afterCallback r pre.length, [fillHandler h last]) := by
  unfold onKextSummariesUpdated
  rw [if_pos hthat]
  by_cases hv : version ≥ c.Sierra
  · rw [if_pos hv] at hr
    rw [if_pos hv, if_neg (by rw [hcnt]; simp), if_pos hv,
      dispatchLast_fire cb summaries last (enterSummaries s) pre h post hk hsum hlast hpre hmatch]
    unfold fireHandler
    rw [hr]
    simp only [exitSummaries]
    rw [if_neg]
    simp only [afterCallback, hrc hv, ne_eq, not_true_eq_false, not_false_eq_true]
  · rw [if_neg hv] at hr
    rw [if_neg hv, if_neg hv,
      dispatchLast_fire cb summaries last s pre h post hk hsum hlast hpre hmatch]
    unfold fireHandler
    rw [hr]

/-- A callback that ends in `panic` takes the load event with it. -/
theorem onKextSummariesUpdated_callback_panics (c : Consts) (version : Nat)
    (summaries : List OSKextLoadedKextSummary) (last : OSKextLoadedKextSummary)
    (cb : KextHandler → Patcher → Outcome Patcher) (s : Patcher)
    (pre : List KextHandler) (h : KextHandler) (post : List KextHandler)
    (hthat : s.that = true) (hcnt : s.updateSummariesEntryCount = 0)
    (hk : s.khandlers = pre ++ h :: post) (hsum : s.loadedKextSummaries ≠ 0)
    (hlast : summaries.getLast? = some last)
    (hpre : ∀ g ∈ pre, strncmpEq g.id last.name KMOD_MAX_NAME 0 = false)
    (hmatch : strncmpEq h.id last.name KMOD_MAX_NAME 0 = true)
    (hr : cb (fillHandler h last)
      (beforeCallback (if version ≥ c.Sierra then enterSummaries s else s) pre.length
        (fillHandler h last)) = .panicked) :
    onKextSummariesUpdated c version summaries cb s = .panicked := by
  unfold onKextSummariesUpdated
  rw [if_pos hthat]
  by_cases hv : version ≥ c.Sierra
  · rw [if_pos hv] at hr
    rw [if_pos hv, if_neg (by rw [hcnt]; simp),
      dispatchLast_fire cb summaries last (enterSummaries s) pre h post hk hsum hlast hpre hmatch]
    unfold fireHandler
    rw [hr]
  · rw [if_neg hv] at hr
    rw [if_neg hv,
      dispatchLast_fire cb summaries last s pre h post hk hsum hlast hpre hmatch]
    unfold fireHandler
    rw [hr]

/-- A load event entered with the counter at zero, the callbacks returning: either no
handler is fired and the state is returned as it was, or the first matching handler `g` is
fired and the state returned is the one its callback returned, with the entry erased. -/
theorem onKextSummariesUpdated_char (c : Consts) (version : Nat)
    (summaries : List OSKextLoadedKextSummary) (cb : KextHandler → Patcher → Outcome Patcher)
    (s : Patcher) (hthat : s.that = true) (hcnt : s.updateSummariesEntryCount = 0)
    (hcb : CallbackSafe cb) :
    onKextSummariesUpdated c version summaries cb s = .returned (s, []) ∨
    ∃ pre g post last r, s.khandlers = pre ++ g :: post ∧
      summaries.getLast? = some last ∧
      cb (fillHandler g last)
        (beforeCallback (if version ≥ c.Sierra then enterSummaries s else s) pre.length
          (fillHandler g last)) = .returned r ∧
      onKextSummariesUpdated c version summaries cb s =
        .returned (if version ≥ c.Sierra then leaveSummaries (afterCallback r pre.length)
          else afterCallback r pre.length, [fillHandler g last]) := by
  by_cases h0 : s.khandlers.length > 0 ∧ s.loadedKextSummaries ≠ 0
  · cases hl : summaries.getLast? with
    | none => exact Or.inl (onKextSummariesUpdated_idle c version summaries cb s hcnt
        (Or.inr (Or.inl hl)))
    | some last =>
      rcases first_match_split (fun g : KextHandler => strncmpEq g.id last.name KMOD_MAX_NAME 0)
        s.khandlers with hno | ⟨pre, g, post, hk, hpre, hmatch⟩
      · exact Or.inl (onKextSummariesUpdated_idle c version summaries cb s hcnt
          (Or.inr (Or.inr ⟨last, hl, hno⟩)))
      · right
        obtain ⟨r, hr, _, hrc, _⟩ := hcb (fillHandler g last)
          (beforeCallback (if version ≥ c.Sierra then enterSummaries s else s) pre.length
            (fillHandler g last))
        refine ⟨pre, g, post, last, r, hk, rfl, hr, ?_⟩
        apply onKextSummariesUpdated_fire c version summaries last cb s pre g post r hthat hcnt
          hk h0.2 hl hpre hmatch hr
        intro hv
        rw [hrc, if_pos hv]
        simp [beforeCallback, enterSummaries, hcnt]
  · exact Or.inl (onKextSummariesUpdated_idle c version summaries cb s hcnt (Or.inl h0))

theorem afterCallback_pending (pre post extra : List KextHandler) (h1 : KextHandler)
    (r : Patcher) (hr : r.khandlers = pre ++ h1 :: post ++ extra) :
    (afterCallback r pre.length).khandlers = pre ++ post ++ extra := by
  show r.khandlers.eraseIdx pre.length = _
  rw [hr, List.append_assoc, List.eraseIdx_append_of_length_le (le_refl _), Nat.sub_self]
  simp

theorem beforeCallback_pending (s : Patcher) (pre post : List KextHandler) (h h1 : KextHandler)
    (hk : s.khandlers = pre ++ h :: post) :
    (beforeCallback s pre.length h1).khandlers = pre ++ h1 :: post := by
  show s.khandlers.set pre.length h1 = _
  rw [hk, List.set_append_right _ _ (le_refl _), Nat.sub_self, List.set_cons_zero]

/-- C7 (as the code has it): with monitoring started and the entry counter at zero, let `h`
be added by `waitOnKext` when no pending handler matches the name of the last summary entry,
and let further handlers `post` be added after it; callbacks return and reach the patcher
through `waitOnKext` only. A load event whose last summary name equals the identifier of `h`
over `KMOD_MAX_NAME` characters invokes the callback once, on `h` with address and size
filled from that entry, in the state `t` whose pending set holds the filled-in `h`; it
returns the state `r` that this callback returned with the entry of `h` erased (and the
entry counter back at zero): the pending set is the earlier handlers, `post` and whatever
the callback appended. If no pending handler is the object of `h` afterwards, a second load
event either fires no handler and returns the state as it is, or invokes the callback of one
pending handler `g`, which is not the object of `h`. -/
theorem onKextSummariesUpdated_fires_first_match (c : Consts) (version : Nat)
    (summaries : List OSKextLoadedKextSummary) (last : OSKextLoadedKextSummary)
    (cb : KextHandler → Patcher → Outcome Patcher) (s0 : Patcher) (h : KextHandler)
    (post : List KextHandler)
    (hthat : s0.that = true) (hsum : s0.loadedKextSummaries ≠ 0)
    (hcnt : s0.updateSummariesEntryCount = 0)
    (hlast : summaries.getLast? = some last)
    (hpre : ∀ g ∈ s0.khandlers, strncmpEq g.id last.name KMOD_MAX_NAME 0 = false)
    (hmatch : strncmpEq h.id last.name KMOD_MAX_NAME 0 = true)
    (hcb : CallbackSafe cb) :
    ∃ s t r s1 extra,
      s = post.foldl (waitOnKext true) (waitOnKext true s0 h) ∧
      t = beforeCallback (if version ≥ c.Sierra then enterSummaries s else s)
        s0.khandlers.length (fillHandler h last) ∧
      t.khandlers = s0.khandlers ++ fillHandler h last :: post ∧
      cb (fillHandler h last) t = .returned r ∧
      r.khandlers = t.khandlers ++ extra ∧
      s1 = (if version ≥ c.Sierra then leaveSummaries (afterCallback r s0.khandlers.length)
        else afterCallback r s0.khandlers.length) ∧
      onKextSummariesUpdated c version summaries cb s = .returned (s1, [fillHandler h last]) ∧
      s1.khandlers = s0.khandlers ++ post ++ extra ∧
      ((∀ g ∈ s1.khandlers, g.ptr ≠ h.ptr) →
        ∀ summaries2,
          onKextSummariesUpdated c version summaries2 cb s1 = .returned (s1, []) ∨
          ∃ pre2 g post2 last2 r2, s1.khandlers = pre2 ++ g :: post2 ∧ g.ptr ≠ h.ptr ∧
            summaries2.getLast? = some last2 ∧
            cb (fillHandler g last2)
              (beforeCallback (if version ≥ c.Sierra then enterSummaries s1 else s1)
                pre2.length (fillHandler g last2)) = .returned r2 ∧
            onKextSummariesUpdated c version summaries2 cb s1 =
              .returned (if version ≥ c.Sierra then leaveSummaries (afterCallback r2 pre2.length)
                else afterCallback r2 pre2.length, [fillHandler g last2])) := by
  have e0 : waitOnKext true s0 h = { s0 with khandlers := s0.khandlers ++ [h] } := by
    simp [waitOnKext, hthat]
  have g2 : (waitOnKext true s0 h).that = true := by rw [e0]; exact hthat
  obtain ⟨f1, f2, f3, f4⟩ := waitOnKext_fold post (waitOnKext true s0 h) g2
  have f1 : (post.foldl (waitOnKext true) (waitOnKext true s0 h)).khandlers =
      s0.khandlers ++ h :: post := by rw [f1, e0]; simp
  have f3 : (post.foldl (waitOnKext true) (waitOnKext true s0 h)).updateSummariesEntryCount =
      0 := by rw [f3, e0]; exact hcnt
  have f4 : (post.foldl (waitOnKext true) (waitOnKext true s0 h)).loadedKextSummaries ≠ 0 := by
    rw [f4, e0]; exact hsum
  generalize post.foldl (waitOnKext true) (waitOnKext true s0 h) = s at f1 f2 f3 f4
  -- the state the handler scan starts from
  have hscan : (if version ≥ c.Sierra then enterSummaries s else s).khandlers =
      s0.khandlers ++ h :: post ∧
      (if version ≥ c.Sierra then enterSummaries s else s).that = true ∧
      (if version ≥ c.Sierra then enterSummaries s else s).updateSummariesEntryCount =
        (if version ≥ c.Sierra then 1 else 0) := by
    split
    · exact ⟨f1, f2, by simp [enterSummaries, f3]⟩
    · exact ⟨f1, f2, f3⟩
  obtain ⟨k1, k2, k3⟩ := hscan
  obtain ⟨r, hr, ⟨extra, hx⟩, hrc, hrt⟩ := hcb (fillHandler h last)
    (beforeCallback (if version ≥ c.Sierra then enterSummaries s else s) s0.khandlers.length
      (fillHandler h last))
  have hb := beforeCallback_pending _ s0.khandlers post h (fillHandler h last) k1
  have hfire := onKextSummariesUpdated_fire c version summaries last cb s s0.khandlers h post r
    f2 f3 f1 f4 hlast hpre hmatch hr
    (by
      intro hv
      rw [hrc]
      show (if version ≥ c.Sierra then enterSummaries s else s).updateSummariesEntryCount = 1
      rw [k3, if_pos hv])
  have hrk : r.khandlers = s0.khandlers ++ fillHandler h last :: post ++ extra := by
    rw [hx, hb]
  have hpend := afterCallback_pending s0.khandlers post extra (fillHandler h last) r hrk
  have hrc1 : r.updateSummariesEntryCount = (if version ≥ c.Sierra then 1 else 0) := by
    rw [hrc]
    exact k3
  have hrt1 : r.that = true := by
    rw [hrt]
    exact k2
  have hs1 : (if version ≥ c.Sierra then leaveSummaries (afterCallback r s0.khandlers.length)
      else afterCallback r s0.khandlers.length).khandlers = s0.khandlers ++ post ++ extra ∧
      (if version ≥ c.Sierra then leaveSummaries (afterCallback r s0.khandlers.length)
      else afterCallback r s0.khandlers.length).that = true ∧
      (if version ≥ c.Sierra then leaveSummaries (afterCallback r s0.khandlers.length)
      else afterCallback r s0.khandlers.length).updateSummariesEntryCount = 0 := by
    by_cases hv : version ≥ c.Sierra
    · rw [if_pos hv] at hrc1
      simp only [if_pos hv]
      refine ⟨hpend, hrt1, ?_⟩
      show r.updateSummariesEntryCount - 1 = 0
      omega
    · rw [if_neg hv] at hrc1
      simp only [if_neg hv]
      exact ⟨hpend, hrt1, hrc1⟩
  obtain ⟨q1, q2, q3⟩ := hs1
  refine ⟨s, _, r, _, extra, rfl, rfl, hb, hr, hx, rfl, hfire, q1, ?_⟩
  intro hfresh summaries2
  rcases onKextSummariesUpdated_char c version summaries2 cb _ q2 q3 hcb with hidle | hfired
  · exact Or.inl hidle
  · obtain ⟨pre2, g, post2, last2, r2, a1, a2, a3, a4⟩ := hfired
    refine Or.inr ⟨pre2, g, post2, last2, r2, a1, ?_, a2, a3, a4⟩
    apply hfresh
    rw [a1]
    simp

theorem onKextSummariesUpdated_fires_first_match_witness :
    ∃ s1 : Patcher,
      onKextSummariesUpdated sampleConsts 16 [{ name := [107], address := 77, size := 5 }]
          stampCallback
          (([] : List KextHandler).foldl (waitOnKext true)
            (waitOnKext true monitoringState { ptr := 1, id := [107], address := 0, size := 0 })) =
        .returned (s1, [{ ptr := 1, id := [107], address := 77, size := 5 }]) ∧
      s1.khandlers = [] ∧ s1.mem.read 77 = 1 ∧ monitoringState.mem.read 77 = 0 := by
  obtain ⟨s, t, r, s1, extra, hs, ht, _, hr, _, hs1, hfire, _, _⟩ :=
    onKextSummariesUpdated_fires_first_match sampleConsts 16
      [{ name := [107], address := 77, size := 5 }] { name := [107], address := 77, size := 5 }
      stampCallback monitoringState { ptr := 1, id := [107], address := 0, size := 0 } []
      rfl (by decide) rfl rfl (by intro g hg; simp [monitoringState, sampleState] at hg)
      (by decide)
      (fun _ t => ⟨_, rfl, ⟨[], by simp⟩, rfl, rfl⟩)
  simp only [stampCallback, Outcome.returned.injEq] at hr
  subst hr
  subst hs1
  subst ht
  subst hs
  exact ⟨_, hfire, by decide, by decide, by decide⟩

/-- C7 fails as stated: two handlers wait for the same identifier; each callback stores the
number of its handler object at the load address. The load event invokes only the first one
(object 1, the byte at the load address 77 is 1 afterwards); the handler added second (object
2) matches the name as well, is not invoked and stays pending. It is the next load event with
that name that invokes it (the byte at the load address 78 is 2 afterwards). -/
theorem onKextSummariesUpdated_skips_second_match :
    strncmpEq [107] [107] KMOD_MAX_NAME 0 = true ∧
    (onKextSummariesUpdated sampleConsts 16 [{ name := [107], address := 77, size := 5 }]
      stampCallback
      (waitOnKext true
        (waitOnKext true monitoringState { ptr := 1, id := [107], address := 0, size := 0 })
        { ptr := 2, id := [107], address := 0, size := 0 })).toOption.map
        (fun r => (r.2, r.1.khandlers, r.1.mem.read 77)) =
      some ([{ ptr := 1, id := [107], address := 77, size := 5 }],
            [{ ptr := 2, id := [107], address := 0, size := 0 }], 1) ∧
    ((onKextSummariesUpdated sampleConsts 16 [{ name := [107], address := 77, size := 5 }]
      stampCallback
      (waitOnKext true
        (waitOnKext true monitoringState { ptr := 1, id := [107], address := 0, size := 0 })
        { ptr := 2, id := [107], address := 0, size := 0 })).toOption.bind
        (fun r => (onKextSummariesUpdated sampleConsts 16
          [{ name := [107], address := 78, size := 6 }] stampCallback r.1).toOption)).map
        (fun r => (r.2, r.1.khandlers, r.1.mem.read 77, r.1.mem.read 78)) =
      some ([{ ptr := 2, id := [107], address := 78, size := 6 }], [], 1, 2) := by
  refine ⟨?_, ?_, ?_⟩ <;> decide

/-- C8 (as the code has it): from a state whose error code is `NoError` and whose next
registry index is not the `Unloaded` sentinel, two calls `loadKinfo(info)` in a row on a
descriptor that is not loaded yet and that the inspector can load return the same id; the
first call appends one registry entry and stores the id as load index, the second call
returns the stored id, whatever the inspector would answer, and leaves registry and
descriptor as they are. -/
theorem loadKinfo_twice_same_id (c : Consts) (env1 env2 : LoadEnv) (s : Patcher)
    (k : KextInfo)
    (hcode : s.code = .NoError) (hidx : s.kinfos.length ≠ c.Unloaded)
    (hk : k.loadIndex = c.Unloaded)
    (h1 : env1.create = true) (h2 : env1.init = true) (h3 : env1.push = true) :
    (loadKinfoTwice c env1 env2 s (some k)).1.2.2 = s.kinfos.length ∧
    (loadKinfoTwice c env1 env2 s (some k)).2.2.2 = s.kinfos.length ∧
    (loadKinfoTwice c env1 env2 s (some k)).1.2.1 = some { k with loadIndex := s.kinfos.length } ∧
    (loadKinfoTwice c env1 env2 s (some k)).2.2.1 = some { k with loadIndex := s.kinfos.length } ∧
    (loadKinfoTwice c env1 env2 s (some k)).1.1.kinfos.length = s.kinfos.length + 1 ∧
    (loadKinfoTwice c env1 env2 s (some k)).2.1.kinfos =
      (loadKinfoTwice c env1 env2 s (some k)).1.1.kinfos := by
  have e1 : loadKinfoKext c env1 s (some k) =
      ({ s with kinfos := s.kinfos ++ [{ isKernel := false, paths := k.paths }] },
        some { k with loadIndex := s.kinfos.length }, s.kinfos.length) := by
    simp [loadKinfoKext, loadKinfo, hk, h1, h2, h3, hcode]
  have e2 : loadKinfoKext c env2
      { s with kinfos := s.kinfos ++ [{ isKernel := false, paths := k.paths }] }
      (some { k with loadIndex := s.kinfos.length }) =
      ({ s with kinfos := s.kinfos ++ [{ isKernel := false, paths := k.paths }] },
        some { k with loadIndex := s.kinfos.length }, s.kinfos.length) := by
    simp [loadKinfoKext, hidx]
  unfold loadKinfoTwice
  simp only [e1, e2, List.length_append, List.length_singleton, and_self]

theorem loadKinfo_twice_same_id_witness :
    (loadKinfoTwice sampleConsts loadOk loadOk (sampleState (fun _ => 0))
      (some { id := [107], paths := [[47]], loadIndex := 0 })).1.2.2 = 1 ∧
    (loadKinfoTwice sampleConsts loadOk loadOk (sampleState (fun _ => 0))
      (some { id := [107], paths := [[47]], loadIndex := 0 })).2.2.2 = 1 ∧
    (loadKinfoTwice sampleConsts loadOk loadOk (sampleState (fun _ => 0))
      (some { id := [107], paths := [[47]], loadIndex := 0 })).2.1.kinfos.length = 2 :=
  have h := loadKinfo_twice_same_id sampleConsts loadOk loadOk (sampleState (fun _ => 0))
    { id := [107], paths := [[47]], loadIndex := 0 } rfl (by decide) rfl rfl rfl rfl
  ⟨h.1, h.2.1, by rw [h.2.2.2.2.2]; exact h.2.2.2.2.1⟩

/-- C8 fails as stated. (1) From a state that already carries an error code, the first call
registers the image but does not store the load index (the check reads the sticky error
code), so the second call registers it again: the ids are 1 and 2 and the registry grows by
two. (2) With the sentinel `Unloaded = 0` of the sample constants and an empty registry,
the first call stores index 0, which reads as not loaded, and the second call registers
the image again. -/
theorem loadKinfo_twice_registers_twice :
    ((loadKinfoTwice sampleConsts loadOk loadOk
        { sampleState (fun _ => 0) with code := .NoSymbolFound }
        (some { id := [107], paths := [[47]], loadIndex := 0 })).1.2.2 = 1 ∧
      (loadKinfoTwice sampleConsts loadOk loadOk
        { sampleState (fun _ => 0) with code := .NoSymbolFound }
        (some { id := [107], paths := [[47]], loadIndex := 0 })).2.2.2 = 2 ∧
      (loadKinfoTwice sampleConsts loadOk loadOk
        { sampleState (fun _ => 0) with code := .NoSymbolFound }
        (some { id := [107], paths := [[47]], loadIndex := 0 })).2.1.kinfos.length = 3) ∧
    ((loadKinfoTwice sampleConsts loadOk loadOk
        { sampleState (fun _ => 0) with kinfos := [] }
        (some { id := [107], paths := [[47]], loadIndex := 0 })).1.2.2 = 0 ∧
      (loadKinfoTwice sampleConsts loadOk loadOk
        { sampleState (fun _ => 0) with kinfos := [] }
        (some { id := [107], paths := [[47]], loadIndex := 0 })).2.2.2 = 1 ∧
      (loadKinfoTwice sampleConsts loadOk loadOk
        { sampleState (fun _ => 0) with kinfos := [] }
        (some { id := [107], paths := [[47]], loadIndex := 0 })).2.1.kinfos.length = 2) := by
  refine ⟨⟨?_, ?_, ?_⟩, ?_, ?_, ?_⟩ <;> decide

/-! ### createTrampoline -/

/-- What a non-zero result of `createTrampoline` tells about the call. -/
theorem createTrampoline_success (c : Consts) (env : TrampEnv) (s : Patcher) (func min : Nat)
    (h : (createTrampoline c env s func min).2 ≠ 0) :
    env.disasmInit = true ∧
    env.instructionSize func min ≠ 0 ∧
    env.instructionSize func min ≤ sub64 c.PAGE_SIZE c.LongJump ∧
    s.tempExecutableMemoryOff + (env.instructionSize func min + c.LongJump) <
      c.TempExecutableMemorySize ∧
    env.kernelWriting = true ∧
    (createTrampoline c env s func min).2 =
      (c.tempExecutableMemory + s.tempExecutableMemoryOff) % W64 ∧
    (createTrampoline c env s func min).1 =
      (routeFunctionNoWrapper env.route
        { s with
          tempExecutableMemoryOff :=
            s.tempExecutableMemoryOff + (env.instructionSize func min + c.LongJump),
          mem := s.mem.writeBytes ((c.tempExecutableMemory + s.tempExecutableMemoryOff) % W64)
            (s.mem.readBytes func (env.instructionSize func min)) }
        ((c.tempExecutableMemory + s.tempExecutableMemoryOff) % W64 +
          env.instructionSize func min)
        (func + env.instructionSize func min) false).1 ∧
    (createTrampoline c env s func min).1.code = .NoError := by
  unfold createTrampoline at h ⊢
  by_cases h1 : env.disasmInit = true
  · simp only [h1, Bool.not_true, Bool.false_eq_true, if_false] at h ⊢
    by_cases h2 : env.instructionSize func min = 0 ∨
        env.instructionSize func min > sub64 c.PAGE_SIZE c.LongJump
    · simp only [h2, if_true] at h
      exact absurd rfl h
    · simp only [h2, if_false] at h ⊢
      by_cases h3 : s.tempExecutableMemoryOff + (env.instructionSize func min + c.LongJump) ≥
          c.TempExecutableMemorySize
      · simp only [h3, if_true] at h
        exact absurd rfl h
      · simp only [h3, if_false] at h ⊢
        by_cases h4 : env.kernelWriting = true
        · simp only [h4, if_true] at h ⊢
          split at h
          · rename_i h5
            simp only [h5, if_true]
            exact ⟨trivial, by omega, by omega, by omega, trivial, trivial, trivial, trivial⟩
          · exact absurd rfl h
        · simp only [h4, Bool.false_eq_true, if_false] at h
          exact absurd rfl h
  · simp only [h1, Bool.not_false, if_true] at h
    simp at h

/-- C9 (as the code has it): `createTrampoline` returns a non-zero address only when the
disassembler reports a cut length `off` with `0 < off <= PAGE_SIZE - LongJump` (the bound is
on the copied region alone); when `off` is zero or exceeds `PAGE_SIZE - LongJump` the call
returns 0, sets `DisasmFailure`, and leaves the arena write offset and the memory unchanged. -/
theorem createTrampoline_page_bound (c : Consts) (env : TrampEnv) (s : Patcher)
    (func min : Nat) :
    ((createTrampoline c env s func min).2 ≠ 0 →
      0 < env.instructionSize func min ∧
      env.instructionSize func min ≤ sub64 c.PAGE_SIZE c.LongJump) ∧
    ((env.instructionSize func min = 0 ∨
        env.instructionSize func min > sub64 c.PAGE_SIZE c.LongJump) →
      (createTrampoline c env s func min).2 = 0 ∧
      (createTrampoline c env s func min).1.code = .DisasmFailure ∧
      (createTrampoline c env s func min).1.tempExecutableMemoryOff =
        s.tempExecutableMemoryOff ∧
      (createTrampoline c env s func min).1.mem = s.mem) := by
  constructor
  · intro h
    obtain ⟨_, h2, h3, _⟩ := createTrampoline_success c env s func min h
    exact ⟨by omega, h3⟩
  · intro h
    unfold createTrampoline
    by_cases h1 : env.disasmInit = true
    · simp only [h1, Bool.not_true, Bool.false_eq_true, if_false, h, if_true, and_self]
    · simp only [h1, Bool.not_false, if_true, and_self]

theorem createTrampoline_page_bound_witness :
    (0 < (trampOk 5).instructionSize 4096 5 ∧
      (trampOk 5).instructionSize 4096 5 ≤ sub64 sampleConsts.PAGE_SIZE sampleConsts.LongJump) ∧
    ((createTrampoline sampleConsts (trampOk 4081) (sampleState (fun _ => 0)) 4096 5).2 = 0 ∧
      (createTrampoline sampleConsts (trampOk 4081) (sampleState (fun _ => 0)) 4096 5).1.code =
        .DisasmFailure ∧
      (createTrampoline sampleConsts (trampOk 4081)
        (sampleState (fun _ => 0)) 4096 5).1.tempExecutableMemoryOff =
        (sampleState (fun _ => 0)).tempExecutableMemoryOff ∧
      (createTrampoline sampleConsts (trampOk 4081) (sampleState (fun _ => 0)) 4096 5).1.mem =
        (sampleState (fun _ => 0)).mem) :=
  ⟨(createTrampoline_page_bound sampleConsts (trampOk 5) (sampleState (fun _ => 0)) 4096 5).1
      (by decide),
    (createTrampoline_page_bound sampleConsts (trampOk 4081) (sampleState (fun _ => 0)) 4096 5).2
      (Or.inr (by decide))⟩

/-- C9 fails as stated: with a 4096-byte page and a 16-byte far footprint the bound is 4080.
A cut length of 4076 passes the check and a non-zero address is returned, although the copied
region plus its trailing jump (5 bytes here, 16 bytes reserved) is 4081 (4092), more than
the page size minus the far footprint. -/
theorem createTrampoline_bound_excludes_jump :
    sub64 sampleConsts.PAGE_SIZE sampleConsts.LongJump = 4080 ∧
    (createTrampoline sampleConsts (trampOk 4076) (sampleState (fun _ => 0)) 4096 5).2 = 1048576 ∧
    routeFootprint (1048576 + 4076) (4096 + 4076) = 5 ∧
    4076 + routeFootprint (1048576 + 4076) (4096 + 4076) > 4080 ∧
    4076 + sampleConsts.LongJump > 4080 := by
  refine ⟨?_, ?_, ?_, ?_, ?_⟩ <;> decide

/-- Bytes outside the footprint of a redirect are not touched by its two patches. -/
theorem routed_other (m : Mem) (a b x : Nat) (h : ¬ inRange a (routeFootprint a b) x) :
    (routeArgument m a b).patch ((routeOpcode m a b).patch m) x = m x := by
  have hs := footprint_split m a b x
  rw [patch_apply_other _ _ _ (by rw [routeArgument_width]; exact fun h1 => h (hs.mp (Or.inr h1))),
    patch_apply_other _ _ _ (by rw [routeOpcode_width]; exact fun h1 => h (hs.mp (Or.inl h1)))]

theorem routeFootprint_le (a b : Nat) : routeFootprint a b ≤ 16 := by
  unfold routeFootprint
  split <;> omega

theorem routeWrite_sticky (env : RouteEnv) (s : Patcher) (src dst : Nat) (kr : Bool) (t : Nat)
    (h : s.code ≠ .NoError) : (routeWrite env s src dst kr t).1.code ≠ .NoError := by
  unfold routeWrite
  simp only
  split_ifs <;> simp_all

theorem createTrampoline_sticky (c : Consts) (env : TrampEnv) (s : Patcher) (func min : Nat)
    (h : s.code ≠ .NoError) : (createTrampoline c env s func min).1.code ≠ .NoError := by
  unfold createTrampoline
  simp only
  split_ifs with h1 h2 h3 h4 h5
  · simp
  · simp
  · simp
  · exact absurd h5 (routeWrite_sticky _ _ _ _ _ _ h)
  · exact routeWrite_sticky _ _ _ _ _ _ h
  · simp

theorem routeFunction_sticky (c : Consts) (tenv : TrampEnv) (env : RouteEnv) (s : Patcher)
    (src dst : Nat) (bw kr : Bool) (h : s.code ≠ .NoError) :
    (routeFunction c tenv env s src dst bw kr).1.code ≠ .NoError := by
  unfold routeFunction
  cases bw
  · simp only [Bool.false_eq_true, if_false]
    exact routeWrite_sticky _ _ _ _ _ _ h
  · simp only [if_true]
    generalize (if routeAbsolute src dst = true then c.LongJump else SmallJump) = min
    by_cases h0 : (createTrampoline c tenv s src min).2 = 0
    · rw [if_pos h0]
      exact createTrampoline_sticky _ _ _ _ _ h
    · rw [if_neg h0]
      exact routeWrite_sticky _ _ _ _ _ _ (createTrampoline_sticky _ _ _ _ _ h)

theorem loadKinfo_sticky (c : Consts) (env : LoadEnv) (s : Patcher) (paths : List (List Nat))
    (isKernel : Bool) (h : s.code ≠ .NoError) :
    (loadKinfo c env s paths isKernel).1.code ≠ .NoError := by
  unfold loadKinfo
  simp only
  split_ifs <;> simp_all

theorem loadKinfoKext_sticky (c : Consts) (env : LoadEnv) (s : Patcher)
    (info : Option KextInfo) (h : s.code ≠ .NoError) :
    (loadKinfoKext c env s info).1.code ≠ .NoError := by
  unfold loadKinfoKext
  cases info with
  | none => simp
  | some k =>
    simp only
    split_ifs
    · exact h
    · exact loadKinfo_sticky _ _ _ _ _ h
    · exact loadKinfo_sticky _ _ _ _ _ h

theorem init_sticky (c : Consts) (env : LoadEnv) (kernelPaths : List (List Nat))
    (running : Bool) (s : Patcher) (h : s.code ≠ .NoError) :
    (init c env kernelPaths running s).code ≠ .NoError := by
  unfold init
  simp only
  split_ifs
  · exact loadKinfo_sticky _ _ _ _ _ h
  · simp
  · exact loadKinfo_sticky _ _ _ _ _ h

theorem updateRunningInfo_sticky (running : Bool) (s : Patcher) (id : Nat)
    (h : s.code ≠ .NoError) : (updateRunningInfo running s id).code ≠ .NoError := by
  unfold updateRunningInfo
  split_ifs <;> simp_all

theorem solveSymbol_sticky (resolve : Nat → SymbolName → Nat) (s : Patcher) (id : Nat)
    (symbol : SymbolName) (h : s.code ≠ .NoError) :
    (solveSymbol resolve s id symbol).1.code ≠ .NoError := by
  unfold solveSymbol
  simp only
  split_ifs <;> simp_all

theorem waitOnKext_sticky (push : Bool) (s : Patcher) (handler : KextHandler)
    (h : s.code ≠ .NoError) : (waitOnKext push s handler).code ≠ .NoError := by
  unfold waitOnKext
  split_ifs <;> simp_all

theorem applyLookupPatch_sticky (c : Consts) (env : LookupEnv) (fuel : Nat) (s : Patcher)
    (patch : Option LookupPatch) (h : s.code ≠ .NoError) :
    ∀ s1, applyLookupPatch c env fuel s patch = some s1 → s1.code ≠ .NoError := by
  intro s1 h1
  unfold applyLookupPatch at h1
  repeat' split at h1
  all_goals first
    | (simp only [Option.some.injEq] at h1; subst h1; simp [h])
    | (simp at h1)

theorem deinit_code (writingOn : Bool) (s : Patcher) : (deinit writingOn s).code = s.code := rfl

theorem setupKextHook_sticky (c : Consts) (version : Nat) (tenv : TrampEnv) (env : RouteEnv)
    (hook : Nat) (dw dk : Bool) (s : Patcher) (addr : Nat) (h : s.code ≠ .NoError) :
    (setupKextHook c version tenv env hook dw dk s addr).code ≠ .NoError := by
  unfold setupKextHook
  split
  · exact routeFunction_sticky _ _ _ _ _ _ _ _ h
  · exact routeFunction_sticky _ _ _ _ _ _ _ _ h

theorem setupKextListening_sticky (c : Consts) (version : Nat)
    (resolve : Nat → SymbolName → Nat) (tenv : TrampEnv) (env : RouteEnv) (hook : Nat)
    (dw dk : Bool) (s : Patcher) (h : s.code ≠ .NoError) :
    (setupKextListening c version resolve tenv env hook dw dk s).code ≠ .NoError := by
  unfold setupKextListening
  by_cases h0 : s.that = true
  · rw [if_pos h0]
    exact h
  · rw [if_neg h0]
    simp only
    have h1 := solveSymbol_sticky resolve s c.KernelID .gLoadedKextSummaries h
    generalize (if version ≥ c.Sierra then SymbolName.updateLoadedKextSummaries
      else SymbolName.OSKextLoadedKextSummariesUpdated) = sym
    split
    · simp
    · split
      · simp
      · have h3 : ∀ (x : Patcher) (addr : Nat), x.code ≠ .NoError →
            (setupKextHook c version tenv env hook dw dk
              (solveSymbol resolve x c.KernelID sym).1 addr).code ≠ .NoError :=
          fun x addr hx => setupKextHook_sticky c version tenv env hook dw dk _ addr
            (solveSymbol_sticky resolve x c.KernelID sym hx)
        split
        · rename_i h4
          exact absurd h4 (h3 _ _ h1)
        · exact h3 _ _ h1

theorem dispatchFrom_sticky (cb : KextHandler → Patcher → Outcome Patcher)
    (hcb : ∀ g t r, cb g t = .returned r → t.code ≠ .NoError → r.code ≠ .NoError)
    (last : OSKextLoadedKextSummary) (s : Patcher) (h : s.code ≠ .NoError) :
    ∀ (hs : List KextHandler) (i : Nat) r, dispatchFrom cb last s i hs = .returned r →
      r.1.code ≠ .NoError := by
  intro hs
  induction hs with
  | nil =>
    intro i r hr
    simp only [dispatchFrom, Outcome.returned.injEq] at hr
    subst hr
    exact h
  | cons g rest ih =>
    intro i r hr
    simp only [dispatchFrom] at hr
    split at hr
    · unfold fireHandler at hr
      split at hr
      · rename_i s1 hs1
        simp only [Outcome.returned.injEq] at hr
        subst hr
        exact hcb _ _ s1 hs1 h
      · simp at hr
    · exact ih (i + 1) r hr

theorem dispatchLast_sticky (cb : KextHandler → Patcher → Outcome Patcher)
    (hcb : ∀ g t r, cb g t = .returned r → t.code ≠ .NoError → r.code ≠ .NoError)
    (summaries : List OSKextLoadedKextSummary) (s : Patcher) (h : s.code ≠ .NoError) :
    ∀ r, dispatchLast cb summaries s = .returned r → r.1.code ≠ .NoError := by
  intro r hr
  unfold dispatchLast at hr
  split at hr
  · split at hr
    · exact dispatchFrom_sticky cb hcb _ s h _ 0 r hr
    · simp only [Outcome.returned.injEq] at hr
      subst hr
      exact h
  · simp only [Outcome.returned.injEq] at hr
    subst hr
    exact h

theorem onKextSummariesUpdated_sticky (c : Consts) (version : Nat)
    (summaries : List OSKextLoadedKextSummary) (cb : KextHandler → Patcher → Outcome Patcher)
    (hcb : ∀ g t r, cb g t = .returned r → t.code ≠ .NoError → r.code ≠ .NoError)
    (s : Patcher) (h : s.code ≠ .NoError) :
    ∀ r, onKextSummariesUpdated c version summaries cb s = .returned r →
      r.1.code ≠ .NoError := by
  intro r hr
  unfold onKextSummariesUpdated at hr
  split at hr
  · split at hr
    · split at hr
      · simp at hr
      · split at hr
        · rename_i r1 hr1
          unfold exitSummaries at hr
          split at hr
          · simp at hr
          · simp only [Outcome.returned.injEq] at hr
            subst hr
            exact dispatchLast_sticky cb hcb summaries (enterSummaries s) h r1 hr1
        · simp at hr
    · exact dispatchLast_sticky cb hcb summaries s h r hr
  · simp only [Outcome.returned.injEq] at hr
    subst hr
    exact h

/-- C11: the error code is sticky. From a state whose error code is not `NoError`, every
operation (with handler callbacks that do not call `clearError` themselves) leaves a state
whose error code is not `NoError`, except `clearError`, which sets it to `NoError`: the code
after an operation is `NoError` exactly when the operation is `clearError`. `getError` returns
the stored code and leaves the state as it is. -/
theorem error_code_sticky (c : Consts) (s : Patcher) (op : Op)
    (hs : s.code ≠ .NoError) (htame : op.keepsError) :
    (∀ s1, op.run c s = some s1 → (s1.code = .NoError ↔ op = .clearError)) ∧
    getError s = s.code ∧ Op.run c s .getError = some s ∧
    (clearError s).code = .NoError := by
  refine ⟨?_, rfl, rfl, rfl⟩
  intro s1 h1
  cases op with
  | init env kernelPaths running =>
    simp only [Op.run, Option.some.injEq] at h1
    subst h1
    simp [init_sticky c env kernelPaths running s hs]
  | loadKinfo env paths isKernel =>
    simp only [Op.run, Option.some.injEq] at h1
    subst h1
    simp [loadKinfo_sticky c env s paths isKernel hs]
  | loadKinfoKext env info =>
    simp only [Op.run, Option.some.injEq] at h1
    subst h1
    simp [loadKinfoKext_sticky c env s info hs]
  | updateRunningInfo running id =>
    simp only [Op.run, Option.some.injEq] at h1
    subst h1
    simp [updateRunningInfo_sticky running s id hs]
  | solveSymbol resolve id symbol =>
    simp only [Op.run, Option.some.injEq] at h1
    subst h1
    simp [solveSymbol_sticky resolve s id symbol hs]
  | setupKextListening version resolve tenv env hook dw dk =>
    simp only [Op.run, Option.some.injEq] at h1
    subst h1
    simp [setupKextListening_sticky c version resolve tenv env hook dw dk s hs]
  | waitOnKext push handler =>
    simp only [Op.run, Option.some.injEq] at h1
    subst h1
    simp [waitOnKext_sticky push s handler hs]
  | applyLookupPatch env fuel patch =>
    simp only [Op.run] at h1
    simp [applyLookupPatch_sticky c env fuel s patch hs s1 h1]
  | routeFunction tenv env src dst bw kr =>
    simp only [Op.run, Option.some.injEq] at h1
    subst h1
    simp [routeFunction_sticky c tenv env s src dst bw kr hs]
  | createTrampoline tenv func min =>
    simp only [Op.run, Option.some.injEq] at h1
    subst h1
    simp [createTrampoline_sticky c tenv s func min hs]
  | onKextSummariesUpdated version summaries cb =>
    simp only [Op.run] at h1
    cases hr : onKextSummariesUpdated c version summaries cb s with
    | panicked => simp [hr, Outcome.toOption] at h1
    | returned r =>
      simp only [hr, Outcome.toOption, Option.map_some', Option.some.injEq] at h1
      subst h1
      simp [onKextSummariesUpdated_sticky c version summaries cb
        htame s hs r hr]
  | getError =>
    simp only [Op.run, Option.some.injEq] at h1
    subst h1
    simp [hs]
  | clearError =>
    simp only [Op.run, Option.some.injEq] at h1
    subst h1
    simp [clearError]
  | deinit writingOn =>
    simp only [Op.run, Option.some.injEq] at h1
    subst h1
    simp [deinit_code, hs]

theorem error_code_sticky_witness :
    (∀ s1, (Op.routeFunction (trampOk 5) routeOk 4096 8192 true true).run sampleConsts
        { sampleState (fun _ => 0) with code := .NoSymbolFound } = some s1 →
      (s1.code = .NoError ↔
        Op.routeFunction (trampOk 5) routeOk 4096 8192 true true = .clearError)) ∧
    getError { sampleState (fun _ => 0) with code := .NoSymbolFound } = .NoSymbolFound ∧
    (clearError { sampleState (fun _ => 0) with code := .NoSymbolFound }).code = .NoError :=
  have h := error_code_sticky sampleConsts
    { sampleState (fun _ => 0) with code := .NoSymbolFound }
    (Op.routeFunction (trampOk 5) routeOk 4096 8192 true true) (by decide) trivial
  ⟨h.1, h.2.1, h.2.2.2⟩

/-- C12, the code at the failing input: a privileged redirect whose opcode patch is stored in
the ledger and whose argument patch is not. The redirect bytes stay in memory (`0xE9` at
`from`), the call returns the trampoline value `0` as on success, and the error code is still
`NoError`: the failure is only logged. The ledger is not as before either: `erase` is called
with the success flag of `push_back` as position, so on an empty ledger the stored opcode
patch (target `0x1000`) stays in it, and on a ledger that holds an earlier redirect (patches
at `0x1000` and `0x1001`) the argument patch of that redirect is erased instead. -/
theorem routeFunction_ledger_failure_not_reported :
    (routeFunction sampleConsts (trampOk 5) { routeOk with pushArgument := false }
      (sampleState (fun _ => 0)) 4096 8192 false true).1.mem.read 4096 = 233 ∧
    (routeFunction sampleConsts (trampOk 5) { routeOk with pushArgument := false }
      (sampleState (fun _ => 0)) 4096 8192 false true).2 = 0 ∧
    (routeFunction sampleConsts (trampOk 5) { routeOk with pushArgument := false }
      (sampleState (fun _ => 0)) 4096 8192 false true).1.code = .NoError ∧
    (sampleState (fun _ => 0)).kpatches = [] ∧
    (routeFunction sampleConsts (trampOk 5) { routeOk with pushArgument := false }
      (sampleState (fun _ => 0)) 4096 8192 false true).1.kpatches.map (fun p => p.ptr) =
        [4096] ∧
    (routeFunction sampleConsts (trampOk 5) routeOk (sampleState (fun _ => 0)) 4096 8192 false
      true).1.kpatches.map (fun p => p.ptr) = [4096, 4097] ∧
    (routeFunction sampleConsts (trampOk 5) { routeOk with pushArgument := false }
      (routeFunction sampleConsts (trampOk 5) routeOk (sampleState (fun _ => 0)) 4096 8192 false
        true).1 12288 16384 false true).1.kpatches.map (fun p => p.ptr) = [4096, 12288] ∧
    (routeFunction sampleConsts (trampOk 5) { routeOk with pushArgument := false }
      (routeFunction sampleConsts (trampOk 5) routeOk (sampleState (fun _ => 0)) 4096 8192 false
        true).1 12288 16384 false true).1.code = .NoError := by
  refine ⟨?_, ?_, ?_, ?_, ?_, ?_, ?_, ?_⟩ <;> decide

/-! ### Failing paths of routeFunction -/

theorem routeWrite_kpatches_unprivileged (env : RouteEnv) (s : Patcher) (src dst t : Nat) :
    (routeWrite env s src dst false t).1.kpatches = s.kpatches := by
  unfold routeWrite
  simp only [Bool.false_and, Bool.false_eq_true, if_false]
  split_ifs <;> rfl

theorem routeWrite_mem_outside (env : RouteEnv) (s : Patcher) (src dst : Nat) (kr : Bool)
    (t x : Nat) (h : ¬ inRange src (routeFootprint src dst) x) :
    (routeWrite env s src dst kr t).1.mem x = s.mem x := by
  unfold routeWrite
  simp only
  split_ifs <;> first | rfl | exact routed_other s.mem src dst x h

/-- The trampoline builder leaves the ledger alone. -/
theorem createTrampoline_kpatches (c : Consts) (env : TrampEnv) (s : Patcher) (func min : Nat) :
    (createTrampoline c env s func min).1.kpatches = s.kpatches := by
  unfold createTrampoline
  simp only
  split_ifs <;> first | rfl | exact routeWrite_kpatches_unprivileged _ _ _ _ _

/-- The trampoline builder changes no byte outside the slot `[t, t + len + 16)` of the arena,
`t` the slot address and `len` the cut length. -/
theorem createTrampoline_mem_outside (c : Consts) (env : TrampEnv) (s : Patcher)
    (func min x : Nat)
    (h : ¬ inRange ((c.tempExecutableMemory + s.tempExecutableMemoryOff) % W64)
      (env.instructionSize func min + 16) x) :
    (createTrampoline c env s func min).1.mem x = s.mem x := by
  have hfp := routeFootprint_le
    ((c.tempExecutableMemory + s.tempExecutableMemoryOff) % W64 + env.instructionSize func min)
    (func + env.instructionSize func min)
  have h1 : ¬ inRange
      ((c.tempExecutableMemory + s.tempExecutableMemoryOff) % W64 + env.instructionSize func min)
      (routeFootprint ((c.tempExecutableMemory + s.tempExecutableMemoryOff) % W64 +
        env.instructionSize func min) (func + env.instructionSize func min)) x := by
    unfold inRange offs W64 at *
    omega
  have h2 : (s.mem.writeBytes ((c.tempExecutableMemory + s.tempExecutableMemoryOff) % W64)
      (s.mem.readBytes func (env.instructionSize func min))) x = s.mem x := by
    rw [writeBytes_apply, if_neg]
    rw [readBytes_length]
    unfold inRange offs W64 at *
    omega
  unfold createTrampoline
  simp only
  split_ifs
  any_goals rfl
  all_goals
    unfold routeFunctionNoWrapper
    rw [routeWrite_mem_outside _ _ _ _ _ _ _ h1]
    exact h2

/-- With the arena placed at a non-zero address inside the address space, a zero result of
the trampoline builder comes with an error code. -/
theorem createTrampoline_zero_code (c : Consts) (env : TrampEnv) (s : Patcher) (func min : Nat)
    (hbase : 0 < c.tempExecutableMemory)
    (harena : c.tempExecutableMemory + c.TempExecutableMemorySize ≤ W64)
    (h : (createTrampoline c env s func min).2 = 0) :
    (createTrampoline c env s func min).1.code ≠ .NoError := by
  unfold createTrampoline at h ⊢
  simp only at h ⊢
  split_ifs at h ⊢ with h1 h2 h3 h4 h5
  · simp
  · simp
  · simp
  · exfalso
    simp only at h
    rw [Nat.mod_eq_of_lt (by omega)] at h
    omega
  · assumption
  · simp

/-- The failing branches of lines 266-287. -/
theorem routeWrite_fails (env : RouteEnv) (s : Patcher) (src dst : Nat) (kr : Bool) (t : Nat)
    (h : env.opcodeAlloc = false ∨ env.argumentAlloc = false ∨
      (kr = true ∧ env.kernelWriting = false)) :
    (routeWrite env s src dst kr t).2 = EINVAL ∧
    (routeWrite env s src dst kr t).1.code ≠ .NoError ∧
    ((env.opcodeAlloc = false ∨ env.argumentAlloc = false) →
      (routeWrite env s src dst kr t).1.code = .MemoryIssue) ∧
    (env.opcodeAlloc = true → env.argumentAlloc = true →
      (routeWrite env s src dst kr t).1.code = .MemoryProtection) ∧
    (routeWrite env s src dst kr t).1.kpatches = s.kpatches ∧
    (routeWrite env s src dst kr t).1.mem = s.mem := by
  unfold routeWrite
  simp only
  by_cases h1 : (!env.opcodeAlloc || !env.argumentAlloc) = true
  · rw [if_pos h1]
    refine ⟨rfl, by simp, fun _ => rfl, ?_, rfl, rfl⟩
    intro a b
    simp [a, b] at h1
  · rw [if_neg h1]
    have ha : env.opcodeAlloc = true ∧ env.argumentAlloc = true := by
      simpa using h1
    have hk : kr = true ∧ env.kernelWriting = false := by
      rcases h with h | h | h
      · simp [ha.1] at h
      · simp [ha.2] at h
      · exact h
    rw [if_pos (by simp [hk.1, hk.2])]
    refine ⟨rfl, by simp, ?_, fun _ _ => rfl, rfl, rfl⟩
    intro hx
    rcases hx with hx | hx
    · simp [ha.1] at hx
    · simp [ha.2] at hx

/-- C13 (as the code has it): on every failing path of `routeFunction` (the trampoline
builder returned 0, a patch could not be created, the protection toggle failed for a
privileged call), with the arena at a non-zero address inside the address space, the call
returns `EINVAL` with an error code set (`MemoryIssue` for patch allocation,
`MemoryProtection` for the toggle), applies neither redirect patch (memory is as the
trampoline step left it), leaves the ledger unchanged, and changes no byte outside the arena
slot `[t, t + len + 16)` that the trampoline step writes. -/
theorem routeFunction_failing_paths (c : Consts) (tenv : TrampEnv) (env : RouteEnv)
    (s : Patcher) (src dst : Nat) (bw kr : Bool) (min : Nat) (tr r : Patcher × Nat)
    (hmin : min = if routeAbsolute src dst then c.LongJump else SmallJump)
    (htr : tr = createTrampoline c tenv s src min)
    (hr : r = routeFunction c tenv env s src dst bw kr)
    (hbase : 0 < c.tempExecutableMemory)
    (harena : c.tempExecutableMemory + c.TempExecutableMemorySize ≤ W64)
    (hfail : (bw = true ∧ tr.2 = 0) ∨ env.opcodeAlloc = false ∨ env.argumentAlloc = false ∨
      (kr = true ∧ env.kernelWriting = false)) :
    r.2 = EINVAL ∧ r.1.code ≠ .NoError ∧
    (¬ (bw = true ∧ tr.2 = 0) → (env.opcodeAlloc = false ∨ env.argumentAlloc = false) →
      r.1.code = .MemoryIssue) ∧
    (¬ (bw = true ∧ tr.2 = 0) → env.opcodeAlloc = true → env.argumentAlloc = true →
      r.1.code = .MemoryProtection) ∧
    r.1.kpatches = s.kpatches ∧
    r.1.mem = (if bw then tr.1.mem else s.mem) ∧
    (∀ x, ¬ inRange ((c.tempExecutableMemory + s.tempExecutableMemoryOff) % W64)
        (tenv.instructionSize src min + 16) x → r.1.mem x = s.mem x) := by
  subst hr
  unfold routeFunction
  rw [← hmin, ← htr]
  cases bw
  · simp only [Bool.false_eq_true, if_false, false_and, not_false_eq_true, true_implies]
    have hf : env.opcodeAlloc = false ∨ env.argumentAlloc = false ∨
        (kr = true ∧ env.kernelWriting = false) := by
      rcases hfail with h | h
      · simp at h
      · exact h
    obtain ⟨a1, a2, a3, a4, a5, a6⟩ := routeWrite_fails env s src dst kr 0 hf
    exact ⟨a1, a2, a3, a4, a5, a6, fun x _ => by rw [a6]⟩
  · simp only [if_true, true_and]
    have hout : ∀ x, ¬ inRange ((c.tempExecutableMemory + s.tempExecutableMemoryOff) % W64)
        (tenv.instructionSize src min + 16) x → tr.1.mem x = s.mem x := by
      intro x hx
      rw [htr]
      exact createTrampoline_mem_outside c tenv s src min x hx
    have hled : tr.1.kpatches = s.kpatches := by
      rw [htr]
      exact createTrampoline_kpatches c tenv s src min
    by_cases h0 : tr.2 = 0
    · rw [if_pos h0]
      refine ⟨rfl, ?_, fun h => absurd h0 h, fun h => absurd h0 h, hled, rfl, hout⟩
      rw [htr] at h0 ⊢
      exact createTrampoline_zero_code c tenv s src min hbase harena h0
    · rw [if_neg h0]
      have hf : env.opcodeAlloc = false ∨ env.argumentAlloc = false ∨
          (kr = true ∧ env.kernelWriting = false) := by
        rcases hfail with h | h
        · exact absurd h.2 h0
        · exact h
      obtain ⟨a1, a2, a3, a4, a5, a6⟩ := routeWrite_fails env tr.1 src dst kr tr.2 hf
      refine ⟨a1, a2, fun _ => a3, fun _ => a4, by rw [a5, hled], a6, ?_⟩
      intro x hx
      rw [a6]
      exact hout x hx

theorem routeFunction_failing_paths_witness :
    (routeFunction sampleConsts (trampOk 5) { routeOk with kernelWriting := false }
      (sampleState (fun _ => 0)) 4096 8192 true true).2 = EINVAL ∧
    (routeFunction sampleConsts (trampOk 5) { routeOk with kernelWriting := false }
      (sampleState (fun _ => 0)) 4096 8192 true true).1.code = .MemoryProtection ∧
    (routeFunction sampleConsts (trampOk 5) { routeOk with kernelWriting := false }
      (sampleState (fun _ => 0)) 4096 8192 true true).1.kpatches =
        (sampleState (fun _ => 0)).kpatches ∧
    (∀ x, ¬ inRange ((sampleConsts.tempExecutableMemory +
          (sampleState (fun _ => 0)).tempExecutableMemoryOff) % W64)
        ((trampOk 5).instructionSize 4096 5 + 16) x →
      (routeFunction sampleConsts (trampOk 5) { routeOk with kernelWriting := false }
        (sampleState (fun _ => 0)) 4096 8192 true true).1.mem x =
          (sampleState (fun _ => 0)).mem x) :=
  have h := routeFunction_failing_paths sampleConsts (trampOk 5)
    { routeOk with kernelWriting := false } (sampleState (fun _ => 0)) 4096 8192 true true 5
    _ _ (by decide) rfl rfl (by decide) (by decide) (Or.inr (Or.inr (Or.inr ⟨rfl, rfl⟩)))
  ⟨h.1, h.2.2.2.1 (by decide) rfl rfl, h.2.2.2.2.1, h.2.2.2.2.2.2⟩

/-- C13 fails as stated: a wrapper is requested for a function that lies in the arena right
behind the slot being written (`from = 0x100005`, cut length 5, arena at `0x100000`); the
trampoline step writes its trailing redirect over `from`, then the opcode patch cannot be
created. The call returns `EINVAL` with `MemoryIssue`, but the byte at `from`, 0 before the
call, is `0xE9` afterwards. -/
theorem routeFunction_failure_changes_from :
    (sampleState (fun _ => 0)).mem.read 1048581 = 0 ∧
    (routeFunction sampleConsts (trampOk 5) { routeOk with opcodeAlloc := false }
      (sampleState (fun _ => 0)) 1048581 8192 true true).2 = EINVAL ∧
    (routeFunction sampleConsts (trampOk 5) { routeOk with opcodeAlloc := false }
      (sampleState (fun _ => 0)) 1048581 8192 true true).1.code = .MemoryIssue ∧
    (routeFunction sampleConsts (trampOk 5) { routeOk with opcodeAlloc := false }
      (sampleState (fun _ => 0)) 1048581 8192 true true).1.mem.read 1048581 = 233 := by
  refine ⟨?_, ?_, ?_, ?_⟩ <;> decide

/-! ### The arena write offset -/

theorem routeWrite_off (env : RouteEnv) (s : Patcher) (src dst : Nat) (kr : Bool) (t : Nat) :
    (routeWrite env s src dst kr t).1.tempExecutableMemoryOff = s.tempExecutableMemoryOff := by
  unfold routeWrite
  simp only
  split_ifs <;> rfl

theorem createTrampoline_off (c : Consts) (env : TrampEnv) (s : Patcher) (func min : Nat) :
    s.tempExecutableMemoryOff ≤ (createTrampoline c env s func min).1.tempExecutableMemoryOff := by
  unfold createTrampoline
  simp only
  split_ifs
  any_goals exact le_refl _
  any_goals exact Nat.le_add_right _ _
  all_goals
    unfold routeFunctionNoWrapper
    rw [routeWrite_off]
    exact Nat.le_add_right _ _

theorem routeFunction_off (c : Consts) (tenv : TrampEnv) (env : RouteEnv) (s : Patcher)
    (src dst : Nat) (bw kr : Bool) :
    s.tempExecutableMemoryOff ≤
      (routeFunction c tenv env s src dst bw kr).1.tempExecutableMemoryOff := by
  unfold routeFunction
  cases bw
  · simp only [Bool.false_eq_true, if_false]
    rw [routeWrite_off]
  · simp only [if_true]
    generalize (if routeAbsolute src dst = true then c.LongJump else SmallJump) = min
    by_cases h0 : (createTrampoline c tenv s src min).2 = 0
    · rw [if_pos h0]
      exact createTrampoline_off _ _ _ _ _
    · rw [if_neg h0, routeWrite_off]
      exact createTrampoline_off _ _ _ _ _

theorem loadKinfo_off (c : Consts) (env : LoadEnv) (s : Patcher) (paths : List (List Nat))
    (isKernel : Bool) :
    (loadKinfo c env s paths isKernel).1.tempExecutableMemoryOff = s.tempExecutableMemoryOff := by
  unfold loadKinfo
  simp only
  split_ifs <;> rfl

theorem loadKinfoKext_off (c : Consts) (env : LoadEnv) (s : Patcher) (info : Option KextInfo) :
    (loadKinfoKext c env s info).1.tempExecutableMemoryOff = s.tempExecutableMemoryOff := by
  unfold loadKinfoKext
  cases info with
  | none => rfl
  | some k =>
    simp only
    split_ifs
    · rfl
    · exact loadKinfo_off _ _ _ _ _
    · exact loadKinfo_off _ _ _ _ _

theorem init_off (c : Consts) (env : LoadEnv) (kernelPaths : List (List Nat)) (running : Bool)
    (s : Patcher) :
    (init c env kernelPaths running s).tempExecutableMemoryOff = s.tempExecutableMemoryOff := by
  unfold init
  simp only
  split_ifs
  · exact loadKinfo_off _ _ _ _ _
  · exact loadKinfo_off _ _ _ _ _
  · exact loadKinfo_off _ _ _ _ _

theorem updateRunningInfo_off (running : Bool) (s : Patcher) (id : Nat) :
    (updateRunningInfo running s id).tempExecutableMemoryOff = s.tempExecutableMemoryOff := by
  unfold updateRunningInfo
  split_ifs <;> rfl

theorem solveSymbol_off (resolve : Nat → SymbolName → Nat) (s : Patcher) (id : Nat)
    (symbol : SymbolName) :
    (solveSymbol resolve s id symbol).1.tempExecutableMemoryOff = s.tempExecutableMemoryOff := by
  unfold solveSymbol
  simp only
  split_ifs <;> rfl

theorem waitOnKext_off (push : Bool) (s : Patcher) (handler : KextHandler) :
    (waitOnKext push s handler).tempExecutableMemoryOff = s.tempExecutableMemoryOff := by
  unfold waitOnKext
  split_ifs <;> rfl

theorem applyLookupPatch_off (c : Consts) (env : LookupEnv) (fuel : Nat) (s : Patcher)
    (patch : Option LookupPatch) :
    ∀ s1, applyLookupPatch c env fuel s patch = some s1 →
      s1.tempExecutableMemoryOff = s.tempExecutableMemoryOff := by
  intro s1 h1
  unfold applyLookupPatch at h1
  repeat' split at h1
  all_goals first
    | (simp only [Option.some.injEq] at h1; subst h1; rfl)
    | (simp at h1)

theorem setupKextHook_off (c : Consts) (version : Nat) (tenv : TrampEnv) (env : RouteEnv)
    (hook : Nat) (dw dk : Bool) (s : Patcher) (addr : Nat) :
    s.tempExecutableMemoryOff ≤
      (setupKextHook c version tenv env hook dw dk s addr).tempExecutableMemoryOff := by
  unfold setupKextHook
  split
  · exact routeFunction_off _ _ _ _ _ _ _ _
  · exact routeFunction_off _ _ _ _ _ _ _ _

theorem setupKextListening_off (c : Consts) (version : Nat)
    (resolve : Nat → SymbolName → Nat) (tenv : TrampEnv) (env : RouteEnv) (hook : Nat)
    (dw dk : Bool) (s : Patcher) :
    s.tempExecutableMemoryOff ≤
      (setupKextListening c version resolve tenv env hook dw dk s).tempExecutableMemoryOff := by
  unfold setupKextListening
  by_cases h0 : s.that = true
  · rw [if_pos h0]
  · rw [if_neg h0]
    simp only
    have h1 := solveSymbol_off resolve s c.KernelID .gLoadedKextSummaries
    generalize (if version ≥ c.Sierra then SymbolName.updateLoadedKextSummaries
      else SymbolName.OSKextLoadedKextSummariesUpdated) = sym
    have h2 : ∀ (x : Patcher),
        (solveSymbol resolve x c.KernelID sym).1.tempExecutableMemoryOff =
          x.tempExecutableMemoryOff := fun x => solveSymbol_off resolve x c.KernelID sym
    have h3 : ∀ (x : Patcher) (addr : Nat), x.tempExecutableMemoryOff ≤
        (setupKextHook c version tenv env hook dw dk x addr).tempExecutableMemoryOff :=
      fun x addr => setupKextHook_off c version tenv env hook dw dk x addr
    split
    · exact le_of_eq h1.symm
    · split
      · show s.tempExecutableMemoryOff ≤ (solveSymbol resolve _ c.KernelID sym).1.tempExecutableMemoryOff
        rw [h2]
        exact le_of_eq h1.symm
      · have h4 := h3 (solveSymbol resolve
          { (solveSymbol resolve s c.KernelID SymbolName.gLoadedKextSummaries).1 with
            loadedKextSummaries :=
              (solveSymbol resolve s c.KernelID SymbolName.gLoadedKextSummaries).2 }
          c.KernelID sym).1
          (solveSymbol resolve
          { (solveSymbol resolve s c.KernelID SymbolName.gLoadedKextSummaries).1 with
            loadedKextSummaries :=
              (solveSymbol resolve s c.KernelID SymbolName.gLoadedKextSummaries).2 }
          c.KernelID sym).2
        rw [h2] at h4
        have h5 : s.tempExecutableMemoryOff ≤ _ := le_trans (le_of_eq h1.symm) h4
        split
        · exact h5
        · exact h5

theorem dispatchFrom_off (cb : KextHandler → Patcher → Outcome Patcher)
    (hcb : ∀ g t r, cb g t = .returned r →
      t.tempExecutableMemoryOff ≤ r.tempExecutableMemoryOff)
    (last : OSKextLoadedKextSummary) (s : Patcher) :
    ∀ (hs : List KextHandler) (i : Nat) r, dispatchFrom cb last s i hs = .returned r →
      s.tempExecutableMemoryOff ≤ r.1.tempExecutableMemoryOff := by
  intro hs
  induction hs with
  | nil =>
    intro i r hr
    simp only [dispatchFrom, Outcome.returned.injEq] at hr
    subst hr
    exact le_refl _
  | cons g rest ih =>
    intro i r hr
    simp only [dispatchFrom] at hr
    split at hr
    · unfold fireHandler at hr
      split at hr
      · rename_i s1 hs1
        simp only [Outcome.returned.injEq] at hr
        subst hr
        exact le_trans (le_refl _) (hcb _ (beforeCallback s i (fillHandler g last)) s1 hs1)
      · simp at hr
    · exact ih (i + 1) r hr

theorem dispatchLast_off (cb : KextHandler → Patcher → Outcome Patcher)
    (hcb : ∀ g t r, cb g t = .returned r →
      t.tempExecutableMemoryOff ≤ r.tempExecutableMemoryOff)
    (summaries : List OSKextLoadedKextSummary) (s : Patcher) :
    ∀ r, dispatchLast cb summaries s = .returned r →
      s.tempExecutableMemoryOff ≤ r.1.tempExecutableMemoryOff := by
  intro r hr
  unfold dispatchLast at hr
  split at hr
  · split at hr
    · exact dispatchFrom_off cb hcb _ s _ 0 r hr
    · simp only [Outcome.returned.injEq] at hr
      subst hr
      exact le_refl _
  · simp only [Outcome.returned.injEq] at hr
    subst hr
    exact le_refl _

theorem onKextSummariesUpdated_off (c : Consts) (version : Nat)
    (summaries : List OSKextLoadedKextSummary) (cb : KextHandler → Patcher → Outcome Patcher)
    (hcb : ∀ g t r, cb g t = .returned r →
      t.tempExecutableMemoryOff ≤ r.tempExecutableMemoryOff)
    (s : Patcher) :
    ∀ r, onKextSummariesUpdated c version summaries cb s = .returned r →
      s.tempExecutableMemoryOff ≤ r.1.tempExecutableMemoryOff := by
  intro r hr
  unfold onKextSummariesUpdated at hr
  split at hr
  · split at hr
    · split at hr
      · simp at hr
      · split at hr
        · rename_i r1 hr1
          unfold exitSummaries at hr
          split at hr
          · simp at hr
          · simp only [Outcome.returned.injEq] at hr
            subst hr
            exact dispatchLast_off cb hcb summaries (enterSummaries s) r1 hr1
        · simp at hr
    · exact dispatchLast_off cb hcb summaries s r hr
  · simp only [Outcome.returned.injEq] at hr
    subst hr
    exact le_refl _

/-- No operation lowers the arena write offset. -/
theorem op_off (c : Consts) (s : Patcher) (op : Op) (htame : op.keepsOffset) :
    ∀ s1, op.run c s = some s1 → s.tempExecutableMemoryOff ≤ s1.tempExecutableMemoryOff := by
  intro s1 h1
  cases op with
  | init env kernelPaths running =>
    simp only [Op.run, Option.some.injEq] at h1
    subst h1
    exact le_of_eq (init_off c env kernelPaths running s).symm
  | loadKinfo env paths isKernel =>
    simp only [Op.run, Option.some.injEq] at h1
    subst h1
    exact le_of_eq (loadKinfo_off c env s paths isKernel).symm
  | loadKinfoKext env info =>
    simp only [Op.run, Option.some.injEq] at h1
    subst h1
    exact le_of_eq (loadKinfoKext_off c env s info).symm
  | updateRunningInfo running id =>
    simp only [Op.run, Option.some.injEq] at h1
    subst h1
    exact le_of_eq (updateRunningInfo_off running s id).symm
  | solveSymbol resolve id symbol =>
    simp only [Op.run, Option.some.injEq] at h1
    subst h1
    exact le_of_eq (solveSymbol_off resolve s id symbol).symm
  | setupKextListening version resolve tenv env hook dw dk =>
    simp only [Op.run, Option.some.injEq] at h1
    subst h1
    exact setupKextListening_off c version resolve tenv env hook dw dk s
  | waitOnKext push handler =>
    simp only [Op.run, Option.some.injEq] at h1
    subst h1
    exact le_of_eq (waitOnKext_off push s handler).symm
  | applyLookupPatch env fuel patch =>
    simp only [Op.run] at h1
    exact le_of_eq (applyLookupPatch_off c env fuel s patch s1 h1).symm
  | routeFunction tenv env src dst bw kr =>
    simp only [Op.run, Option.some.injEq] at h1
    subst h1
    exact routeFunction_off c tenv env s src dst bw kr
  | createTrampoline tenv func min =>
    simp only [Op.run, Option.some.injEq] at h1
    subst h1
    exact createTrampoline_off c tenv s func min
  | onKextSummariesUpdated version summaries cb =>
    simp only [Op.run] at h1
    cases hr : onKextSummariesUpdated c version summaries cb s with
    | panicked => simp [hr, Outcome.toOption] at h1
    | returned r =>
      simp only [hr, Outcome.toOption, Option.map_some', Option.some.injEq] at h1
      subst h1
      exact onKextSummariesUpdated_off c version summaries cb htame s r hr
  | getError =>
    simp only [Op.run, Option.some.injEq] at h1
    subst h1
    exact le_refl _
  | clearError =>
    simp only [Op.run, Option.some.injEq] at h1
    subst h1
    exact le_refl _
  | deinit writingOn =>
    simp only [Op.run, Option.some.injEq] at h1
    subst h1
    exact le_refl _

theorem runOps_off (c : Consts) :
    ∀ (ops : List Op) (s s1 : Patcher), (∀ op ∈ ops, op.keepsOffset) → runOps c s ops = some s1 →
      s.tempExecutableMemoryOff ≤ s1.tempExecutableMemoryOff := by
  intro ops
  induction ops with
  | nil =>
    intro s s1 _ h
    simp only [runOps, Option.some.injEq] at h
    subst h
    exact le_refl _
  | cons op rest ih =>
    intro s s1 ht h
    simp only [runOps] at h
    cases hop : op.run c s with
    | none => simp [hop] at h
    | some s2 =>
      simp only [hop] at h
      exact le_trans (op_off c s op (ht op (List.mem_cons_self _ _)) s2 hop)
        (ih s2 s1 (fun o ho => ht o (List.mem_cons_of_mem _ ho)) h)

/-- A trampoline request made at or beyond the arena capacity fails. -/
theorem createTrampoline_exhausted (c : Consts) (env : TrampEnv) (s : Patcher) (func min : Nat)
    (h : c.TempExecutableMemorySize ≤ s.tempExecutableMemoryOff +
      (env.instructionSize func min + c.LongJump)) :
    (createTrampoline c env s func min).2 = 0 := by
  unfold createTrampoline
  simp only
  split_ifs
  all_goals rfl

/-- The call that exhausts the arena: the offset is advanced past the capacity and the code
is `DisasmFailure`. -/
theorem createTrampoline_capacity (c : Consts) (env : TrampEnv) (s : Patcher) (func min : Nat)
    (h1 : env.disasmInit = true) (h2 : env.instructionSize func min ≠ 0)
    (h3 : env.instructionSize func min ≤ sub64 c.PAGE_SIZE c.LongJump)
    (h4 : c.TempExecutableMemorySize ≤ s.tempExecutableMemoryOff +
      (env.instructionSize func min + c.LongJump)) :
    (createTrampoline c env s func min).1.code = .DisasmFailure ∧
    (createTrampoline c env s func min).1.tempExecutableMemoryOff =
      s.tempExecutableMemoryOff + (env.instructionSize func min + c.LongJump) := by
  unfold createTrampoline
  simp only [h1, Bool.not_true, Bool.false_eq_true, if_false]
  rw [if_neg (by omega), if_pos (by exact h4)]
  exact ⟨rfl, rfl⟩

/-- C14: no operation lowers the arena write offset (handler callbacks behaving like
patcher clients), in particular `createTrampoline` does not; and once a `createTrampoline`
call has failed because the advanced offset reached or passed the arena capacity, the offset
stays at or beyond the capacity and every later `createTrampoline` call, after any sequence
of operations, returns 0. -/
theorem arena_offset_monotone (c : Consts) (s : Patcher) :
    (∀ tenv func min, s.tempExecutableMemoryOff ≤
      (createTrampoline c tenv s func min).1.tempExecutableMemoryOff) ∧
    (∀ (op : Op) s1, op.keepsOffset → op.run c s = some s1 →
      s.tempExecutableMemoryOff ≤ s1.tempExecutableMemoryOff) ∧
    (∀ (tenv0 : TrampEnv) func0 min0, tenv0.disasmInit = true →
      tenv0.instructionSize func0 min0 ≠ 0 →
      tenv0.instructionSize func0 min0 ≤ sub64 c.PAGE_SIZE c.LongJump →
      c.TempExecutableMemorySize ≤ s.tempExecutableMemoryOff +
        (tenv0.instructionSize func0 min0 + c.LongJump) →
      (createTrampoline c tenv0 s func0 min0).2 = 0 ∧
      (createTrampoline c tenv0 s func0 min0).1.code = .DisasmFailure ∧
      c.TempExecutableMemorySize ≤
        (createTrampoline c tenv0 s func0 min0).1.tempExecutableMemoryOff ∧
      ∀ (ops : List Op) s1, (∀ op ∈ ops, op.keepsOffset) →
        runOps c (createTrampoline c tenv0 s func0 min0).1 ops = some s1 →
        ∀ tenv func min, (createTrampoline c tenv s1 func min).2 = 0) := by
  refine ⟨fun tenv func min => createTrampoline_off c tenv s func min,
    fun op s1 ht h => op_off c s op ht s1 h, ?_⟩
  intro tenv0 func0 min0 h1 h2 h3 h4
  obtain ⟨e1, e2⟩ := createTrampoline_capacity c tenv0 s func0 min0 h1 h2 h3 h4
  refine ⟨createTrampoline_exhausted c tenv0 s func0 min0 h4, e1, by rw [e2]; exact h4, ?_⟩
  intro ops s1 ht hrun tenv func min
  apply createTrampoline_exhausted
  have := runOps_off c ops _ s1 ht hrun
  rw [e2] at this
  omega

theorem arena_offset_monotone_witness :
    (createTrampoline sampleConsts (trampOk 4000)
      { sampleState (fun _ => 0) with tempExecutableMemoryOff := 100 } 4096 5).2 = 0 ∧
    (createTrampoline sampleConsts (trampOk 4000)
      { sampleState (fun _ => 0) with tempExecutableMemoryOff := 100 } 4096 5).1.code =
        .DisasmFailure ∧
    sampleConsts.TempExecutableMemorySize ≤
      (createTrampoline sampleConsts (trampOk 4000)
        { sampleState (fun _ => 0) with tempExecutableMemoryOff := 100 }
        4096 5).1.tempExecutableMemoryOff ∧
    ∀ (ops : List Op) s1, (∀ op ∈ ops, op.keepsOffset) →
      runOps sampleConsts (createTrampoline sampleConsts (trampOk 4000)
        { sampleState (fun _ => 0) with tempExecutableMemoryOff := 100 } 4096 5).1 ops =
          some s1 →
      ∀ tenv func min, (createTrampoline sampleConsts tenv s1 func min).2 = 0 :=
  (arena_offset_monotone sampleConsts
    { sampleState (fun _ => 0) with tempExecutableMemoryOff := 100 }).2.2
    (trampOk 4000) 4096 5 rfl (by decide) (by decide) (by decide)

/-- From `Sierra` on, an entry made while the counter is not zero ends in `panic`. -/
theorem onKextSummariesUpdated_guard (c : Consts) (version : Nat)
    (summaries : List OSKextLoadedKextSummary) (cb : KextHandler → Patcher → Outcome Patcher)
    (s : Patcher) (hthat : s.that = true) (hver : version ≥ c.Sierra)
    (hcnt : s.updateSummariesEntryCount ≠ 0) :
    onKextSummariesUpdated c version summaries cb s = .panicked := by
  unfold onKextSummariesUpdated
  rw [if_pos hthat, if_pos hver, if_pos hcnt]

/-- C15 (as the code has it): with monitoring started, on every kernel version from `Sierra`
on. (1) Entering `onKextSummariesUpdated` while the entry counter is not zero ends in
`panic`, whatever the summaries and the callbacks are: nothing is processed and no state is
returned. (2) An invocation entered with the counter at zero runs its handler callback with
the counter at one; a callback that, after any work that keeps monitoring started and the
counter non-zero, enters `onKextSummariesUpdated` again ends in `panic` there, and the outer
invocation ends in `panic` with it. -/
theorem onKextSummariesUpdated_nested_panics (c : Consts) (version : Nat) (s : Patcher)
    (hthat : s.that = true) (hver : version ≥ c.Sierra) :
    (s.updateSummariesEntryCount ≠ 0 →
      ∀ summaries cb, onKextSummariesUpdated c version summaries cb s = .panicked) ∧
    (s.updateSummariesEntryCount = 0 →
      ∀ (summaries : List OSKextLoadedKextSummary) (last : OSKextLoadedKextSummary)
        (pre : List KextHandler) (h : KextHandler) (post : List KextHandler),
        s.khandlers = pre ++ h :: post → s.loadedKextSummaries ≠ 0 →
        summaries.getLast? = some last →
        (∀ g ∈ pre, strncmpEq g.id last.name KMOD_MAX_NAME 0 = false) →
        strncmpEq h.id last.name KMOD_MAX_NAME 0 = true →
        (beforeCallback (enterSummaries s) pre.length
          (fillHandler h last)).updateSummariesEntryCount = 1 ∧
        ∀ (summaries2 : List OSKextLoadedKextSummary)
          (cb2 : KextHandler → Patcher → Outcome Patcher)
          (work : KextHandler → Patcher → Patcher),
          (∀ g t, t.that = true → (work g t).that = true) →
          (∀ g t, t.updateSummariesEntryCount ≠ 0 → (work g t).updateSummariesEntryCount ≠ 0) →
          nestedCallback c version summaries2 cb2 work (fillHandler h last)
            (beforeCallback (enterSummaries s) pre.length (fillHandler h last)) = .panicked ∧
          onKextSummariesUpdated c version summaries
            (nestedCallback c version summaries2 cb2 work) s = .panicked) := by
  refine ⟨fun hcnt summaries cb =>
    onKextSummariesUpdated_guard c version summaries cb s hthat hver hcnt, ?_⟩
  intro hcnt summaries last pre h post hk hsum hlast hpre hmatch
  have h1 : (beforeCallback (enterSummaries s) pre.length
      (fillHandler h last)).updateSummariesEntryCount = 1 := by
    show s.updateSummariesEntryCount + 1 = 1
    rw [hcnt]
    rfl
  refine ⟨h1, ?_⟩
  intro summaries2 cb2 work hw1 hw2
  have hn : nestedCallback c version summaries2 cb2 work (fillHandler h last)
      (beforeCallback (enterSummaries s) pre.length (fillHandler h last)) = .panicked := by
    have hT : (beforeCallback (enterSummaries s) pre.length (fillHandler h last)).that =
        true := hthat
    have key := onKextSummariesUpdated_guard c version summaries2 cb2
      (work (fillHandler h last)
        (beforeCallback (enterSummaries s) pre.length (fillHandler h last)))
      (hw1 _ _ hT) hver (hw2 _ _ (by rw [h1]; decide))
    unfold nestedCallback
    simp only [key, Outcome.map]
  refine ⟨hn, ?_⟩
  apply onKextSummariesUpdated_callback_panics c version summaries last _ s pre h post hthat hcnt
    hk hsum hlast hpre hmatch
  rw [if_pos hver]
  exact hn

theorem onKextSummariesUpdated_nested_panics_witness :
    onKextSummariesUpdated sampleConsts 16 [{ name := [107], address := 77, size := 5 }]
      (nestedCallback sampleConsts 16 [{ name := [107], address := 77, size := 5 }]
        stampCallback (fun _ t => t))
      (waitOnKext true monitoringState { ptr := 1, id := [107], address := 0, size := 0 }) =
        .panicked ∧
    onKextSummariesUpdated sampleConsts 16 [{ name := [107], address := 77, size := 5 }]
      stampCallback (enterSummaries monitoringState) = .panicked :=
  ⟨(((onKextSummariesUpdated_nested_panics sampleConsts 16
      (waitOnKext true monitoringState { ptr := 1, id := [107], address := 0, size := 0 })
      rfl (by decide)).2 rfl [{ name := [107], address := 77, size := 5 }]
      { name := [107], address := 77, size := 5 } []
      { ptr := 1, id := [107], address := 0, size := 0 } [] rfl (by decide) rfl
      (by intro g hg; simp at hg) (by decide)).2
      [{ name := [107], address := 77, size := 5 }] stampCallback (fun _ t => t)
      (fun _ _ ht => ht) (fun _ _ ht => ht)).2,
    (onKextSummariesUpdated_nested_panics sampleConsts 16 (enterSummaries monitoringState)
      rfl (by decide)).1 (by decide) _ _⟩

/-- C15 fails as stated: below `Sierra` (version 15 with `Sierra = 16`) there is no entry
guard. (1) An entry made while the counter is not zero returns and invokes the pending
handler (its callback stores 1 at the load address 77). (2) A handler callback that enters
`onKextSummariesUpdated` again from within the invocation is served without a panic: with two
handlers pending for the same name, the nested entry fires the first handler and erases it,
and the outer invocation then erases the second handler, which was never invoked; the
pending set ends empty. -/
theorem onKextSummariesUpdated_nested_before_sierra :
    (enterSummaries monitoringState).updateSummariesEntryCount = 1 ∧
    (onKextSummariesUpdated sampleConsts 15 [{ name := [107], address := 77, size := 5 }]
      stampCallback
      (waitOnKext true (enterSummaries monitoringState)
        { ptr := 1, id := [107], address := 0, size := 0 })).toOption.map
        (fun r => (r.2, r.1.khandlers, r.1.mem.read 77)) =
      some ([{ ptr := 1, id := [107], address := 77, size := 5 }], [], 1) ∧
    (onKextSummariesUpdated sampleConsts 15 [{ name := [107], address := 77, size := 5 }]
      (nestedCallback sampleConsts 15 [{ name := [107], address := 77, size := 5 }]
        stampCallback (fun _ t => t))
      (waitOnKext true
        (waitOnKext true monitoringState { ptr := 1, id := [107], address := 0, size := 0 })
        { ptr := 2, id := [107], address := 0, size := 0 })).toOption.map
        (fun r => (r.2, r.1.khandlers, r.1.mem.read 77)) =
      some ([{ ptr := 1, id := [107], address := 77, size := 5 }], [], 1) := by
  refine ⟨?_, ?_, ?_⟩ <;> decide

/-- C16: `solveSymbol` returns a non-zero address exactly when `id` is a registered image
index and the inspector resolves the name to a non-zero address; it then returns that address
and leaves the state, error code included, as it is. In every other case it returns 0 and
sets the error code to `NoSymbolFound`. -/
theorem solveSymbol_spec (resolve : Nat → SymbolName → Nat) (s : Patcher) (id : Nat)
    (symbol : SymbolName) :
    ((solveSymbol resolve s id symbol).2 ≠ 0 ↔
      (id < s.kinfos.length ∧ resolve id symbol ≠ 0)) ∧
    ((id < s.kinfos.length ∧ resolve id symbol ≠ 0) →
      (solveSymbol resolve s id symbol).2 = resolve id symbol ∧
      (solveSymbol resolve s id symbol).1.code = s.code ∧
      (solveSymbol resolve s id symbol).1 = s) ∧
    (¬ (id < s.kinfos.length ∧ resolve id symbol ≠ 0) →
      (solveSymbol resolve s id symbol).2 = 0 ∧
      (solveSymbol resolve s id symbol).1.code = .NoSymbolFound) := by
  unfold solveSymbol
  by_cases h1 : id < s.kinfos.length
  · by_cases h2 : resolve id symbol = 0
    · simp [h1, h2]
    · simp [h1, h2]
  · simp [h1]

theorem solveSymbol_spec_witness :
    (solveSymbol (fun _ _ => 4096) (sampleState (fun _ => 0)) 0 .gLoadedKextSummaries).2 = 4096 ∧
    (solveSymbol (fun _ _ => 4096) (sampleState (fun _ => 0)) 0 .gLoadedKextSummaries).1.code =
      (sampleState (fun _ => 0)).code ∧
    (solveSymbol (fun _ _ => 4096) (sampleState (fun _ => 0)) 7 .gLoadedKextSummaries).2 = 0 ∧
    (solveSymbol (fun _ _ => 4096) (sampleState (fun _ => 0)) 7 .gLoadedKextSummaries).1.code =
      .NoSymbolFound :=
  ⟨((solveSymbol_spec (fun _ _ => 4096) (sampleState (fun _ => 0)) 0
      .gLoadedKextSummaries).2.1 (by decide)).1,
    ((solveSymbol_spec (fun _ _ => 4096) (sampleState (fun _ => 0)) 0
      .gLoadedKextSummaries).2.1 (by decide)).2.1,
    ((solveSymbol_spec (fun _ _ => 4096) (sampleState (fun _ => 0)) 7
      .gLoadedKextSummaries).2.2 (by decide)).1,
    ((solveSymbol_spec (fun _ _ => 4096) (sampleState (fun _ => 0)) 7
      .gLoadedKextSummaries).2.2 (by decide)).2⟩

/-- C17: `compatibleKernel(min, max)` holds exactly when `min` is `KernelAny` or at most the
running version, and `max` is `KernelAny` or at least the running version; both bounds are
inclusive and two `KernelAny` bounds accept every version. -/
theorem compatibleKernel_spec (c : Consts) (version min max : Nat) :
    (compatibleKernel c version min max = true ↔
      ((min = c.KernelAny ∨ min ≤ version) ∧ (max = c.KernelAny ∨ version ≤ max))) ∧
    compatibleKernel c version version version = true ∧
    compatibleKernel c version c.KernelAny c.KernelAny = true := by
  unfold compatibleKernel
  simp

/-! ### Termination of the lookup scan -/

/-- Where the inner `while` loop stops: at the first match from `curr` on, or at the bound. -/
theorem scanWhile_props (m : Mem) (f : List Nat) (n : Nat) :
    ∀ (gap curr : Nat),
      curr ≤ scanWhile m f n gap curr ∧ scanWhile m f n gap curr ≤ curr + gap ∧
      (∀ x, curr ≤ x → x < scanWhile m f n gap curr → memcmpEq m x f n = false) ∧
      (scanWhile m f n gap curr < curr + gap → memcmpEq m (scanWhile m f n gap curr) f n = true) := by
  intro gap
  induction gap with
  | zero =>
    intro curr
    simp only [scanWhile]
    exact ⟨le_refl _, le_refl _, fun x h1 h2 => by omega, fun h => by omega⟩
  | succ gap ih =>
    intro curr
    simp only [scanWhile]
    by_cases hm : memcmpEq m curr f n = true
    · rw [if_pos hm]
      exact ⟨le_refl _, by omega, fun x h1 h2 => by omega, fun _ => hm⟩
    · rw [if_neg hm]
      obtain ⟨a1, a2, a3, a4⟩ := ih (curr + 1)
      refine ⟨by omega, by omega, ?_, fun h => a4 (by omega)⟩
      intro x h1 h2
      by_cases hx : x = curr
      · subst hx
        simpa using hm
      · exact a3 x (by omega) h2

/-- Writing the replacement over a match changes nothing when the replacement equals the
pattern. -/
theorem writeBytes_same (p : LookupPatch) (m : Mem) (r : Nat)
    (heq : ∀ j, j < p.size → p.replace.getD j 0 = p.find.getD j 0)
    (hm : memcmpEq m r p.find p.size = true) :
    m.writeBytes r (replaceBytes p) = m := by
  funext x
  rw [writeBytes_apply]
  split
  · rename_i hx
    rw [replaceBytes_length] at hx
    rw [replaceBytes_getD _ _ hx.2, heq _ hx.2]
    have := (memcmpEq_iff m r p.find p.size).mp hm (offs r x) hx.2
    rw [← this]
    unfold Mem.read
    rw [add_offs r x hx.1]
  · rfl

/-- After the replacement is written over a match, the pattern no longer matches there when
the replacement differs from the pattern. -/
theorem memcmpEq_after_write (p : LookupPatch) (m : Mem) (r : Nat) (hsz : p.size ≤ W64)
    (hne : ¬ ∀ j, j < p.size → p.replace.getD j 0 = p.find.getD j 0) :
    memcmpEq (m.writeBytes r (replaceBytes p)) r p.find p.size = false := by
  rw [Bool.eq_false_iff]
  intro h
  apply hne
  intro j hj
  have := (memcmpEq_iff _ r p.find p.size).mp h j hj
  rw [writeBytes_read _ _ _ _ (by rw [replaceBytes_length]; exact hj)
    (by rw [replaceBytes_length]; exact hsz), replaceBytes_getD _ _ hj] at this
  exact this

/-- The scan never ends when every match is applied, the replacement equals the pattern and
a match lies ahead of the cursor. -/
theorem lookupLoop_diverges (p : LookupPatch) (off : Nat) (m : Mem) (hcount : p.count = 0)
    (heq : ∀ j, j < p.size → p.replace.getD j 0 = p.find.getD j 0)
    (q : Nat) (hq : q < off) (hm : memcmpEq m q p.find p.size = true) :
    ∀ (fuel i curr changes : Nat), curr ≤ q → lookupLoop p off fuel i curr changes m = none := by
  intro fuel
  induction fuel with
  | zero => intro i curr changes _; rfl
  | succ fuel ih =>
    intro i curr changes hc
    simp only [lookupLoop]
    rw [if_pos ⟨by omega, Or.inr hcount⟩]
    obtain ⟨a1, a2, a3, a4⟩ := scanWhile_props m p.find p.size (off - curr) curr
    have hle : scanWhile m p.find p.size (off - curr) curr ≤ q := by
      by_contra hgt
      have := a3 q hc (by omega)
      rw [hm] at this
      exact absurd this (by decide)
    have hmatch := a4 (by omega)
    rw [if_pos (by omega), writeBytes_same p m _ heq hmatch]
    exact ih _ _ _ hle

/-- With a non-zero count the scan ends within `count + 1` iterations. -/
theorem lookupLoop_ends_count (p : LookupPatch) (off : Nat) (hcount : 0 < p.count) :
    ∀ (n i curr changes : Nat) (m : Mem), p.count ≤ i + n →
      ∃ r, lookupLoop p off (n + 1) i curr changes m = some r := by
  intro n
  induction n with
  | zero =>
    intro i curr changes m h
    simp only [lookupLoop]
    rw [if_neg (by omega)]
    exact ⟨_, rfl⟩
  | succ n ih =>
    intro i curr changes m h
    simp only [lookupLoop]
    split
    · split
      · exact ih _ _ _ _ (by omega)
      · exact ih _ _ _ _ (by omega)
    · exact ⟨_, rfl⟩

/-- When the replacement differs from the pattern the cursor passes every match it has
patched: the scan ends within `2 * (off - curr) + 2` iterations. -/
theorem lookupLoop_ends_differs (p : LookupPatch) (off : Nat) (hsz : p.size ≤ W64)
    (hne : ¬ ∀ j, j < p.size → p.replace.getD j 0 = p.find.getD j 0) :
    ∀ (n i curr changes : Nat) (m : Mem),
      2 * (off - curr) + (if memcmpEq m curr p.find p.size = true then 1 else 0) ≤ n →
      ∃ r, lookupLoop p off (n + 1) i curr changes m = some r := by
  intro n
  induction n with
  | zero =>
    intro i curr changes m h
    simp only [lookupLoop]
    rw [if_neg (by omega)]
    exact ⟨_, rfl⟩
  | succ n ih =>
    intro i curr changes m h
    simp only [lookupLoop]
    split
    · rename_i hc
      obtain ⟨a1, a2, a3, a4⟩ := scanWhile_props m p.find p.size (off - curr) curr
      split
      · rename_i hr
        apply ih
        rw [memcmpEq_after_write p m _ hsz hne]
        simp only [Bool.false_eq_true, if_false, Nat.add_zero]
        by_cases hcr : scanWhile m p.find p.size (off - curr) curr = curr
        · rw [hcr] at a4 ⊢
          have := a4 (by omega)
          rw [if_pos this] at h
          omega
        · omega
      · rename_i hr
        have hr : scanWhile m p.find p.size (off - curr) curr = off := by
          simpa using hr
        rw [hr]
        apply ih
        split <;> omega
    · exact ⟨_, rfl⟩

/-- Without a match ahead of the cursor the scan ends within two iterations. -/
theorem lookupLoop_ends_nomatch (p : LookupPatch) (off : Nat) (i curr changes : Nat) (m : Mem)
    (hno : ∀ q, curr ≤ q → q < off → memcmpEq m q p.find p.size = false) (fuel : Nat) :
    ∃ r, lookupLoop p off (fuel + 2) i curr changes m = some r := by
  simp only [lookupLoop]
  split
  · rename_i hc
    obtain ⟨a1, a2, a3, a4⟩ := scanWhile_props m p.find p.size (off - curr) curr
    have hr : scanWhile m p.find p.size (off - curr) curr = off := by
      by_contra hlt
      have h1 := a4 (by omega)
      rw [hno _ a1 (by omega)] at h1
      exact absurd h1 (by decide)
    simp only [hr, ne_eq, not_true_eq_false, if_false, lt_irrefl, false_and]
    exact ⟨_, rfl⟩
  · exact ⟨_, rfl⟩

/-- Outside the diverging case the scan ends. -/
theorem lookupLoop_ends (p : LookupPatch) (off curr : Nat) (m : Mem) (hsz : p.size ≤ W64)
    (h : ¬ (p.count = 0 ∧ (∀ j, j < p.size → p.replace.getD j 0 = p.find.getD j 0) ∧
      ∃ q, curr ≤ q ∧ q < off ∧ memcmpEq m q p.find p.size = true)) :
    ∃ fuel r, lookupLoop p off fuel 0 curr 0 m = some r := by
  by_cases hc : p.count = 0
  · by_cases he : ∀ j, j < p.size → p.replace.getD j 0 = p.find.getD j 0
    · have hno : ∀ q, curr ≤ q → q < off → memcmpEq m q p.find p.size = false := by
        intro q h1 h2
        rw [Bool.eq_false_iff]
        intro hm
        exact h ⟨hc, he, q, h1, h2, hm⟩
      obtain ⟨r, hr⟩ := lookupLoop_ends_nomatch p off 0 curr 0 m hno 0
      exact ⟨_, r, hr⟩
    · obtain ⟨r, hr⟩ := lookupLoop_ends_differs p off hsz he _ 0 curr 0 m (le_refl _)
      exact ⟨_, r, hr⟩
  · obtain ⟨r, hr⟩ := lookupLoop_ends_count p off (by omega) p.count 0 curr 0 m (by omega)
    exact ⟨_, r, hr⟩

/-- C18: the scan loop of `applyLookupPatch`, started as the function starts it, does not end
exactly when `count = 0`, the replacement bytes equal the pattern bytes and the pattern
occurs at a position from the start of the region strictly before `off` (region end minus
pattern length); in every other case it ends after finitely many iterations. In the
diverging case `applyLookupPatch` on a registered module never returns. -/
theorem lookup_scan_termination (c : Consts) (env : LookupEnv) (s : Patcher)
    (p : LookupPatch) (hsz : p.size < W64) :
    ((∀ fuel, lookupLoop p (lookupOff env.start env.size p.size) fuel 0 (env.start % W64) 0
        s.mem = none) ↔
      (p.count = 0 ∧ (∀ j, j < p.size → p.replace.getD j 0 = p.find.getD j 0) ∧
        ∃ q, env.start % W64 ≤ q ∧ q < lookupOff env.start env.size p.size ∧
          memcmpEq s.mem q p.find p.size = true)) ∧
    (¬ (p.count = 0 ∧ (∀ j, j < p.size → p.replace.getD j 0 = p.find.getD j 0) ∧
        ∃ q, env.start % W64 ≤ q ∧ q < lookupOff env.start env.size p.size ∧
          memcmpEq s.mem q p.find p.size = true) →
      ∃ fuel r, lookupLoop p (lookupOff env.start env.size p.size) fuel 0 (env.start % W64) 0
        s.mem = some r) ∧
    ((p.count = 0 ∧ (∀ j, j < p.size → p.replace.getD j 0 = p.find.getD j 0) ∧
        ∃ q, env.start % W64 ≤ q ∧ q < lookupOff env.start env.size p.size ∧
          memcmpEq s.mem q p.find p.size = true) →
      ∀ k, p.kext = some k → k.loadIndex ≠ c.Unloaded → env.writingOn = true →
        ∀ fuel, applyLookupPatch c env fuel s (some p) = none) := by
  have hdiv : (p.count = 0 ∧ (∀ j, j < p.size → p.replace.getD j 0 = p.find.getD j 0) ∧
        ∃ q, env.start % W64 ≤ q ∧ q < lookupOff env.start env.size p.size ∧
          memcmpEq s.mem q p.find p.size = true) →
      ∀ fuel, lookupLoop p (lookupOff env.start env.size p.size) fuel 0 (env.start % W64) 0
        s.mem = none := by
    rintro ⟨h1, h2, q, h3, h4, h5⟩ fuel
    exact lookupLoop_diverges p _ s.mem h1 h2 q h4 h5 fuel 0 _ 0 h3
  refine ⟨⟨?_, hdiv⟩, ?_, ?_⟩
  · intro hall
    by_contra hn
    obtain ⟨fuel, r, hr⟩ := lookupLoop_ends p _ _ s.mem (le_of_lt hsz) hn
    rw [hall fuel] at hr
    exact absurd hr (by simp)
  · intro hn
    exact lookupLoop_ends p _ _ s.mem (le_of_lt hsz) hn
  · intro hcond k hk hload hon fuel
    unfold applyLookupPatch
    simp only [hk, hload, if_false, hon, Bool.not_true, Bool.false_eq_true, hdiv hcond fuel]

theorem lookup_scan_termination_witness :
    (∀ fuel, applyLookupPatch sampleConsts (lookupOk 6) fuel
      (sampleState (memOf 4096 [1, 2, 3, 0, 0, 0]))
      (some { kext := some sampleKext, find := [1, 2, 3], replace := [1, 2, 3], size := 3,
              count := 0 }) = none) ∧
    (∃ fuel r, lookupLoop
        { kext := some sampleKext, find := [1, 2, 3], replace := [7, 8, 9], size := 3, count := 0 }
        (lookupOff (lookupOk 6).start (lookupOk 6).size 3) fuel 0
        ((lookupOk 6).start % W64) 0 (sampleState (memOf 4096 [1, 2, 3, 0, 0, 0])).mem = some r) :=
  ⟨(lookup_scan_termination sampleConsts (lookupOk 6)
      (sampleState (memOf 4096 [1, 2, 3, 0, 0, 0]))
      { kext := some sampleKext, find := [1, 2, 3], replace := [1, 2, 3], size := 3, count := 0 }
      (by decide)).2.2
      ⟨rfl, fun _ _ => rfl, 4096, by decide, by decide, by decide⟩ sampleKext rfl (by decide) rfl,
    (lookup_scan_termination sampleConsts (lookupOk 6)
      (sampleState (memOf 4096 [1, 2, 3, 0, 0, 0]))
      { kext := some sampleKext, find := [1, 2, 3], replace := [7, 8, 9], size := 3, count := 0 }
      (by decide)).2.1
      (by
        rintro ⟨_, h, _⟩
        exact absurd (h 0 (by decide)) (by decide))⟩

/-- A scan over a region without a match ahead of the cursor leaves memory and the change
counter as they are. -/
theorem lookupLoop_nomatch_eq (p : LookupPatch) (off : Nat) (i curr changes : Nat) (m : Mem)
    (hno : ∀ q, curr ≤ q → q < off → memcmpEq m q p.find p.size = false) (fuel : Nat) :
    lookupLoop p off (fuel + 2) i curr changes m = some (m, changes) := by
  simp only [lookupLoop]
  split
  · obtain ⟨a1, a2, a3, a4⟩ := scanWhile_props m p.find p.size (off - curr) curr
    have hr : scanWhile m p.find p.size (off - curr) curr = off := by
      by_contra hlt
      have h1 := a4 (by omega)
      rw [hno _ a1 (by omega)] at h1
      exact absurd h1 (by decide)
    simp only [hr, ne_eq, not_true_eq_false, if_false, lt_irrefl, false_and]
  · rfl

/-- Every write of the scan loop lands in `[start, off + size - 1)`. -/
theorem lookupLoop_writes_inside (p : LookupPatch) (off start : Nat)
    (hoff : off + p.size ≤ W64) :
    ∀ fuel i curr changes m r, start ≤ curr →
      lookupLoop p off fuel i curr changes m = some r →
      ∀ x, (x < start ∨ off + p.size ≤ x + 1) → r.1 x = m x := by
  intro fuel
  induction fuel with
  | zero =>
    intro i curr changes m r _ h
    simp [lookupLoop] at h
  | succ fuel ih =>
    intro i curr changes m r hcurr h x hx
    simp only [lookupLoop] at h
    obtain ⟨a1, a2, _, _⟩ := scanWhile_props m p.find p.size (off - curr) curr
    split at h
    · rename_i hc
      split at h
      · rename_i hne
        rw [ih _ _ _ _ r (le_trans hcurr a1) h x hx, writeBytes_apply, if_neg]
        rw [replaceBytes_length, inRange_iff_of_le _ _ _ (by omega)]
        omega
      · exact ih _ _ _ _ r (le_trans hcurr a1) h x hx
    · simp only [Option.some.injEq] at h
      subst h
      rfl

theorem lookupOff_fits (start size psize : Nat) (hfit : start + size < W64)
    (hps : psize ≤ start + size) : lookupOff start size psize = start + size - psize := by
  unfold lookupOff sub64 W64 at *
  omega

/-- C19: `applyLookupPatch` never patches an occurrence in the final pattern-length bytes of
the region. For a region inside the address space, on a registered module with the
protection toggle succeeding: (1) the bound of the scan is `start + size - patternSize` and
every finished scan leaves each byte outside `[start, start + size - 1)` as it was, so the
last byte of the region is never written; (2) when no position `q` with
`start ≤ q < start + size - patternSize` holds the pattern (the only occurrence, if any, is at
the final position), the scan ends with memory unchanged and 0 changes; (3) for a region
shorter than the pattern (the bound not wrapping below address 0) neither loop is entered
whatever the memory holds: nothing is read or written. -/
theorem applyLookupPatch_final_position (c : Consts) (env : LookupEnv) (s : Patcher)
    (p : LookupPatch) (k : KextInfo) (fuel : Nat)
    (hk : p.kext = some k) (hload : k.loadIndex ≠ c.Unloaded) (hon : env.writingOn = true)
    (hfit : env.start + env.size < W64) (hps : p.size ≤ env.start + env.size) :
    lookupOff env.start env.size p.size = env.start + env.size - p.size ∧
    (∀ s1, applyLookupPatch c env fuel s (some p) = some s1 →
      ∀ x, (x < env.start ∨ env.start + env.size ≤ x + 1) → s1.mem x = s.mem x) ∧
    ((∀ q, env.start ≤ q → q + p.size < env.start + env.size →
        memcmpEq s.mem q p.find p.size = false) →
      lookupLoop p (lookupOff env.start env.size p.size) (fuel + 2) 0 (env.start % W64) 0 s.mem
        = some (s.mem, 0) ∧
      ∃ s1, applyLookupPatch c env (fuel + 2) s (some p) = some s1 ∧ s1.mem = s.mem) ∧
    (env.size < p.size →
      ¬ (env.start % W64 < lookupOff env.start env.size p.size) ∧
      (∀ m, lookupLoop p (lookupOff env.start env.size p.size) (fuel + 1) 0 (env.start % W64) 0 m
        = some (m, 0)) ∧
      ∃ s1, applyLookupPatch c env (fuel + 1) s (some p) = some s1 ∧ s1.mem = s.mem) := by
  have hoff := lookupOff_fits env.start env.size p.size hfit hps
  have hst : env.start % W64 = env.start := Nat.mod_eq_of_lt (by omega)
  have hrun : ∀ n r, lookupLoop p (lookupOff env.start env.size p.size) n 0 (env.start % W64) 0
      s.mem = some r → ∃ s1, applyLookupPatch c env n s (some p) = some s1 ∧ s1.mem = r.1 := by
    intro n r hr
    unfold applyLookupPatch
    simp only [hk, hload, if_false, hon, Bool.not_true, Bool.false_eq_true, hr]
    split_ifs <;> exact ⟨_, rfl, rfl⟩
  refine ⟨hoff, ?_, ?_, ?_⟩
  · intro s1 h1 x hx
    unfold applyLookupPatch at h1
    simp only [hk, hload, if_false, hon, Bool.not_true, Bool.false_eq_true] at h1
    rw [hoff, hst] at h1
    split at h1
    · simp at h1
    · rename_i m changes hl
      have hw := lookupLoop_writes_inside p (env.start + env.size - p.size) env.start
        (by omega) fuel 0 env.start 0 s.mem (m, changes) (le_refl _) hl x (by omega)
      simp only at hw
      split_ifs at h1 <;>
        (simp only [Option.some.injEq] at h1; subst h1; exact hw)
  · intro hno
    have hl : lookupLoop p (lookupOff env.start env.size p.size) (fuel + 2) 0
        (env.start % W64) 0 s.mem = some (s.mem, 0) := by
      apply lookupLoop_nomatch_eq
      intro q h1 h2
      rw [hst] at h1
      rw [hoff] at h2
      exact hno q h1 (by omega)
    exact ⟨hl, hrun _ _ hl⟩
  · intro hshort
    have hnot : ¬ (env.start % W64 < lookupOff env.start env.size p.size) := by
      rw [hoff, hst]
      omega
    have hl : ∀ m, lookupLoop p (lookupOff env.start env.size p.size) (fuel + 1) 0
        (env.start % W64) 0 m = some (m, 0) := by
      intro m
      simp only [lookupLoop, hnot, false_and, if_false]
    exact ⟨hnot, hl, hrun _ _ (hl s.mem)⟩

theorem applyLookupPatch_final_position_witness :
    (lookupLoop
        { kext := some sampleKext, find := [1, 2, 3], replace := [7, 8, 9], size := 3, count := 1 }
        (lookupOff (lookupOk 6).start (lookupOk 6).size 3) 2 0 ((lookupOk 6).start % W64) 0
        (sampleState (memOf 4096 [0, 0, 0, 1, 2, 3])).mem
      = some ((sampleState (memOf 4096 [0, 0, 0, 1, 2, 3])).mem, 0)) ∧
    memcmpEq (sampleState (memOf 4096 [0, 0, 0, 1, 2, 3])).mem 4099 [1, 2, 3] 3 = true :=
  ⟨((applyLookupPatch_final_position sampleConsts (lookupOk 6)
      (sampleState (memOf 4096 [0, 0, 0, 1, 2, 3]))
      { kext := some sampleKext, find := [1, 2, 3], replace := [7, 8, 9], size := 3, count := 1 }
      sampleKext 0 rfl (by decide) rfl (by decide) (by decide)).2.2.1
      (by
        intro q h1 h2
        have h3 : (lookupOk 6).start = 4096 := rfl
        have h4 : (lookupOk 6).size = 6 := rfl
        simp only [h3, h4] at h1 h2
        have hq : q = 4096 ∨ q = 4097 ∨ q = 4098 := by omega
        rcases hq with rfl | rfl | rfl <;> decide)).1,
    by decide⟩

/-- The trampoline builder with every one of its own steps succeeding: the state it leaves
and the value it returns, for an arbitrary error code on entry. -/
theorem createTrampoline_steps_ok (c : Consts) (env : TrampEnv) (s : Patcher) (func min : Nat)
    (hinit : env.disasmInit = true) (hlen0 : env.instructionSize func min ≠ 0)
    (hlen : env.instructionSize func min ≤ sub64 c.PAGE_SIZE c.LongJump)
    (hcap : s.tempExecutableMemoryOff + (env.instructionSize func min + c.LongJump) <
      c.TempExecutableMemorySize)
    (hkw : env.kernelWriting = true) (hop : env.route.opcodeAlloc = true)
    (harg : env.route.argumentAlloc = true) :
    (createTrampoline c env s func min).1.mem =
      (routeArgument (s.mem.writeBytes ((c.tempExecutableMemory + s.tempExecutableMemoryOff) % W64)
          (s.mem.readBytes func (env.instructionSize func min)))
        ((c.tempExecutableMemory + s.tempExecutableMemoryOff) % W64 + env.instructionSize func min)
        (func + env.instructionSize func min)).patch
      ((routeOpcode (s.mem.writeBytes ((c.tempExecutableMemory + s.tempExecutableMemoryOff) % W64)
          (s.mem.readBytes func (env.instructionSize func min)))
        ((c.tempExecutableMemory + s.tempExecutableMemoryOff) % W64 + env.instructionSize func min)
        (func + env.instructionSize func min)).patch
        (s.mem.writeBytes ((c.tempExecutableMemory + s.tempExecutableMemoryOff) % W64)
          (s.mem.readBytes func (env.instructionSize func min)))) ∧
    (createTrampoline c env s func min).1.tempExecutableMemoryOff =
      s.tempExecutableMemoryOff + (env.instructionSize func min + c.LongJump) ∧
    (createTrampoline c env s func min).1.code = s.code ∧
    (createTrampoline c env s func min).1.kpatches = s.kpatches ∧
    (createTrampoline c env s func min).2 =
      (if s.code = .NoError then (c.tempExecutableMemory + s.tempExecutableMemoryOff) % W64
        else 0) := by
  have h2 : ¬ (env.instructionSize func min = 0 ∨
      env.instructionSize func min > sub64 c.PAGE_SIZE c.LongJump) := by omega
  have h3 : ¬ (s.tempExecutableMemoryOff + (env.instructionSize func min + c.LongJump) ≥
      c.TempExecutableMemorySize) := by omega
  unfold createTrampoline routeFunctionNoWrapper routeWrite
  simp only [hinit, Bool.not_true, Bool.false_eq_true, if_false, h2, h3, hkw, if_true, hop, harg,
    Bool.or_self, Bool.false_and]
  by_cases hc : s.code = .NoError
  · simp only [hc, if_true, and_self]
  · simp only [hc, if_false, and_self]

/-- C20: `createTrampoline` decides success by reading the sticky error code. With the
disassembler, the cut length, the arena capacity, the protection toggle and the patch
allocations all succeeding (arena inside the address space, not at address 0, and
`LongJump ≤ PAGE_SIZE ≤ 2^64 - 16`): the prologue
is copied to the slot and the arena offset advanced whatever the error code on entry; when
the code on entry is not `NoError` the call returns 0 (this holds for every outcome of the
steps), and `routeFunction` with `buildWrapper = true` returns `EINVAL` leaving the state of
the trampoline step, so the redirect at `from` is not written and the ledger is unchanged;
when the code on entry is `NoError` the call returns the non-zero slot address. -/
theorem createTrampoline_decides_by_code (c : Consts) (tenv : TrampEnv) (s : Patcher)
    (func min : Nat)
    (hinit : tenv.disasmInit = true) (hlen0 : tenv.instructionSize func min ≠ 0)
    (hlen : tenv.instructionSize func min ≤ sub64 c.PAGE_SIZE c.LongJump)
    (hcap : s.tempExecutableMemoryOff + (tenv.instructionSize func min + c.LongJump) <
      c.TempExecutableMemorySize)
    (hkw : tenv.kernelWriting = true) (hop : tenv.route.opcodeAlloc = true)
    (harg : tenv.route.argumentAlloc = true)
    (hbase : 0 < c.tempExecutableMemory)
    (harena : c.tempExecutableMemory + c.TempExecutableMemorySize ≤ W64)
    (hlong : c.LongJump ≤ c.PAGE_SIZE) (hpage : c.PAGE_SIZE + 16 ≤ W64) :
    ((∀ j, j < tenv.instructionSize func min →
        (createTrampoline c tenv s func min).1.mem.read
          (c.tempExecutableMemory + s.tempExecutableMemoryOff + j) = s.mem.read (func + j)) ∧
      (createTrampoline c tenv s func min).1.tempExecutableMemoryOff =
        s.tempExecutableMemoryOff + (tenv.instructionSize func min + c.LongJump) ∧
      (createTrampoline c tenv s func min).1.code = s.code) ∧
    (s.code ≠ .NoError →
      (createTrampoline c tenv s func min).2 = 0 ∧
      (∀ (tenv2 : TrampEnv) (func2 min2 : Nat), (createTrampoline c tenv2 s func2 min2).2 = 0) ∧
      (∀ (tenv2 : TrampEnv) (env : RouteEnv) (src dst : Nat) (kr : Bool),
        (routeFunction c tenv2 env s src dst true kr).2 = EINVAL ∧
        (routeFunction c tenv2 env s src dst true kr).1 =
          (createTrampoline c tenv2 s src
            (if routeAbsolute src dst then c.LongJump else SmallJump)).1 ∧
        (routeFunction c tenv2 env s src dst true kr).1.kpatches = s.kpatches ∧
        (∀ x, ¬ inRange ((c.tempExecutableMemory + s.tempExecutableMemoryOff) % W64)
            (tenv2.instructionSize src (if routeAbsolute src dst then c.LongJump else SmallJump)
              + 16) x →
          (routeFunction c tenv2 env s src dst true kr).1.mem x = s.mem x))) ∧
    (s.code = .NoError →
      (createTrampoline c tenv s func min).2 =
        c.tempExecutableMemory + s.tempExecutableMemoryOff ∧
      (createTrampoline c tenv s func min).2 ≠ 0) := by
  obtain ⟨k1, k2, k3, _, k5⟩ :=
    createTrampoline_steps_ok c tenv s func min hinit hlen0 hlen hcap hkw hop harg
  have hzero : s.code ≠ .NoError →
      ∀ (tenv2 : TrampEnv) (func2 min2 : Nat), (createTrampoline c tenv2 s func2 min2).2 = 0 := by
    intro hs tenv2 func2 min2
    unfold createTrampoline
    simp only
    split_ifs with h1 h2 h3 h4 h5
    · rfl
    · rfl
    · rfl
    · exact absurd h5 (routeWrite_sticky _ _ _ _ _ _ hs)
    · rfl
    · rfl
  have ht : (c.tempExecutableMemory + s.tempExecutableMemoryOff) % W64 =
      c.tempExecutableMemory + s.tempExecutableMemoryOff := Nat.mod_eq_of_lt (by omega)
  refine ⟨⟨?_, k2, k3⟩, ?_, ?_⟩
  · intro j hj
    rw [k1, ht]
    have hfp := routeFootprint_le
      (c.tempExecutableMemory + s.tempExecutableMemoryOff + tenv.instructionSize func min)
      (func + tenv.instructionSize func min)
    have hbound : tenv.instructionSize func min + 16 ≤ W64 := by
      unfold sub64 W64 at *
      omega
    have hcopy : (s.mem.writeBytes (c.tempExecutableMemory + s.tempExecutableMemoryOff)
        (s.mem.readBytes func (tenv.instructionSize func min))).read
          (c.tempExecutableMemory + s.tempExecutableMemoryOff + j) = s.mem.read (func + j) := by
      rw [writeBytes_read _ _ _ _ (by rw [readBytes_length]; exact hj)
        (by rw [readBytes_length]; omega), readBytes_getD _ _ _ _ hj]
    rw [← hcopy]
    unfold Mem.read
    apply routed_other
    unfold inRange offs W64 at *
    omega
  · intro hs
    refine ⟨hzero hs tenv func min, hzero hs, ?_⟩
    intro tenv2 env src dst kr
    have h0 := hzero hs tenv2 src (if routeAbsolute src dst then c.LongJump else SmallJump)
    have hr : routeFunction c tenv2 env s src dst true kr =
        ((createTrampoline c tenv2 s src
          (if routeAbsolute src dst then c.LongJump else SmallJump)).1, EINVAL) := by
      unfold routeFunction
      simp only [if_true]
      rw [if_pos h0]
    rw [hr]
    refine ⟨rfl, rfl, createTrampoline_kpatches _ _ _ _ _, ?_⟩
    intro x hx
    exact createTrampoline_mem_outside c tenv2 s src _ x hx
  · intro hs
    rw [k5, if_pos hs, ht]
    exact ⟨rfl, by omega⟩

theorem createTrampoline_decides_by_code_witness :
    (createTrampoline sampleConsts (trampOk 5)
      { sampleState (memOf 4096 [1, 2, 3, 4, 5]) with code := .MemoryIssue } 4096 5).2 = 0 ∧
    (createTrampoline sampleConsts (trampOk 5)
      { sampleState (memOf 4096 [1, 2, 3, 4, 5]) with code := .MemoryIssue } 4096
      5).1.tempExecutableMemoryOff = 0 + (5 + 16) ∧
    (createTrampoline sampleConsts (trampOk 5) (sampleState (memOf 4096 [1, 2, 3, 4, 5])) 4096
      5).2 = 1048576 :=
  ⟨((createTrampoline_decides_by_code sampleConsts (trampOk 5)
      { sampleState (memOf 4096 [1, 2, 3, 4, 5]) with code := .MemoryIssue } 4096 5
      rfl (by decide) (by decide) (by decide) rfl rfl rfl (by decide) (by decide) (by decide)
      (by decide)).2.1 (by decide)).1,
    (createTrampoline_decides_by_code sampleConsts (trampOk 5)
      { sampleState (memOf 4096 [1, 2, 3, 4, 5]) with code := .MemoryIssue } 4096 5
      rfl (by decide) (by decide) (by decide) rfl rfl rfl (by decide) (by decide) (by decide)
      (by decide)).1.2.1,
    ((createTrampoline_decides_by_code sampleConsts (trampOk 5)
      (sampleState (memOf 4096 [1, 2, 3, 4, 5])) 4096 5
      rfl (by decide) (by decide) (by decide) rfl rfl rfl (by decide) (by decide) (by decide)
      (by decide)).2.2 rfl).1⟩

end KernelPatcher
